import Mathlib

/-!
# Paulcy: the points ledger, order placement, referrals and duplicate-account check

A shallow embedding of `src/index.js` (bot handlers and the `/verify` endpoint),
`src/config.js` (service catalog), `src/models/*.js` (collections) and
`src/utils/*.js`.

Conventions of the embedding

* A JavaScript `Number` is an IEEE 754 double. An identifier, a `parseInt` result
  and a stored amount is the integer that double equals, an `Int`; where the
  source tests `isNaN` or the truthiness of a `parseInt` result, the value is an
  `Option Int` and `none` is `NaN`. The result of `+`, `-` or `*` is the double
  nearest to the exact result (`JsNum.ofInt`): the exact result when its
  magnitude is at most `2 ^ 53`, a rounded one above, `Infinity` from `2 ^ 1024`
  on. A balance, the one field arithmetic accumulates in, is a `JsNum`.
  `Date.now()` readings stay below `2 ^ 53`, so clock arithmetic is exact.
* The text of a number in a reply or a `details` field is its decimal digit
  string (`toString`), which is what a template literal yields for an integer
  below `2 ^ 53` in magnitude (Telegram ids, catalog values and clock readings
  are); for larger doubles JavaScript prints the shortest digits that identify
  the double. A text shown in a theorem is thus the program's for numbers below
  `2 ^ 53`; the count of referral entries (C6) uses only that different ids have
  different texts, which holds of both renderings.
* A MongoDB collection is a `List` of documents in insertion order. `findOne`
  returns the first match, `updateOne` changes the first match, `save` on a
  document obtained by `findOne` writes that document back in place.
* A session transaction either commits all its writes or none: a handler that
  aborts returns the database it was given.
* Values the handler obtains from its environment (`Date.now()`, `uuid.v4()`,
  `Math.random()`, the supplier's HTTP response, the sender of the update) are
  arguments of the handler.
-/

namespace Paulcy

/-! ## Numbers (JavaScript `Number`) -/

/-- Number of low bits a natural number loses when it is written with a 53-bit
significand: the least `k` with `n / 2 ^ k < 2 ^ 53` (for `fuel ≥ n`). -/
def droppedBits : Nat → Nat → Nat
  | 0, _ => 0
  | fuel + 1, n => if n < 2 ^ 53 then 0 else droppedBits fuel (n / 2) + 1

/-- The natural number with a 53-bit significand nearest to `n`, a tie going to
the even significand (IEEE 754 round-to-nearest-even with unbounded exponent). -/
def roundNat (n : Nat) : Nat :=
  if n ≤ 2 ^ 53 then n
  else
    let ulp := 2 ^ droppedBits n n
    let q := n / ulp
    let r := n % ulp
    if ulp < 2 * r ∨ (ulp = 2 * r ∧ q % 2 = 1) then (q + 1) * ulp else q * ulp

/-- A `Number` other than `NaN` whose value is an integer or infinite. -/
inductive JsNum where
  | fin (n : Int)
  | posInf
  | negInf
deriving DecidableEq, Repr

/-- Numerals denote finite numbers. -/
instance instOfNatJsNum (n : Nat) : OfNat JsNum n := ⟨JsNum.fin n⟩

/-- Unary minus. -/
instance instNegJsNum : Neg JsNum :=
  ⟨fun x => match x with
    | JsNum.fin n => JsNum.fin (-n)
    | JsNum.posInf => JsNum.negInf
    | JsNum.negInf => JsNum.posInf⟩

/-- The comparison `a <= b`. -/
def JsNum.ble : JsNum → JsNum → Bool
  | JsNum.negInf, _ => true
  | _, JsNum.posInf => true
  | JsNum.fin a, JsNum.fin b => decide (a ≤ b)
  | _, _ => false

/-- The comparison `a < b`. -/
def JsNum.blt : JsNum → JsNum → Bool
  | JsNum.posInf, _ => false
  | _, JsNum.negInf => false
  | JsNum.fin a, JsNum.fin b => decide (a < b)
  | _, _ => true

/-- Order of numbers: `a ≤ b` is `a <= b`. -/
instance instLEJsNum : LE JsNum := ⟨fun a b => JsNum.ble a b = true⟩

/-- Order of numbers: `a < b` is the source's `a < b`. -/
instance instLTJsNum : LT JsNum := ⟨fun a b => JsNum.blt a b = true⟩

/-- The comparison `<=` is decided by evaluation. -/
instance instDecidableLeJsNum (a b : JsNum) : Decidable (a ≤ b) :=
  inferInstanceAs (Decidable (JsNum.ble a b = true))

/-- The comparison `<` is decided by evaluation. -/
instance instDecidableLtJsNum (a b : JsNum) : Decidable (a < b) :=
  inferInstanceAs (Decidable (JsNum.blt a b = true))

/-- Text of a number in a template literal. -/
instance instToStringJsNum : ToString JsNum :=
  ⟨fun x => match x with
    | JsNum.fin n => toString n
    | JsNum.posInf => "Infinity"
    | JsNum.negInf => "-Infinity"⟩

/-- The double nearest to the integer `x`: what an arithmetic operation whose
exact result is `x` returns. From `2 ^ 1024 - 2 ^ 970` on the nearest value with
a 53-bit significand is `2 ^ 1024`, and the double is `Infinity`. -/
def JsNum.ofInt (x : Int) : JsNum :=
  let m := roundNat x.natAbs
  if m < 2 ^ 256 * 2 ^ 256 * 2 ^ 256 * 2 ^ 256 then
    JsNum.fin (if x < 0 then -(m : Int) else (m : Int))
  else if x < 0 then JsNum.negInf else JsNum.posInf

/-- The sum `a + b` of a number and an integer (`a - b` is `a + (-b)`). -/
def JsNum.addInt (a : JsNum) (b : Int) : JsNum :=
  match a with
  | JsNum.fin x => JsNum.ofInt (x + b)
  | JsNum.posInf => JsNum.posInf
  | JsNum.negInf => JsNum.negInf

/-- The product `a * b` of two integers. -/
def jsMul (a b : Int) : JsNum :=
  JsNum.ofInt (a * b)

/-- The number is finite and below `2 ^ 53` in magnitude, the range in which
every integer is a double. -/
def JsNum.isSafe : JsNum → Bool
  | JsNum.fin n => decide (n.natAbs < 2 ^ 53)
  | _ => false

/-! ## Data model (`src/models`) -/

/-- Account status: `UserSchema.status`, enum `['active', 'banned', 'blocked']`. -/
inductive Status where
  | active
  | banned
  | blocked
deriving DecidableEq, Repr

/-- Ledger entry kind: `TransactionSchema.type`. -/
inductive TxType where
  | credit
  | debit
  | task
  | referral
  | admin
deriving DecidableEq, Repr

/-- Order status: `OrderSchema.status`. -/
inductive OrderStatus where
  | pending
  | processing
  | completed
  | failed
deriving DecidableEq, Repr

/-- Document of `models/User.js`. -/
structure User where
  user_id : Int
  username : String
  balance : JsNum := 0
  referrals : JsNum := 0
  ip_address : Option String := none
  device_id : Option String := none
  joined_date : Nat
  status : Status := Status.active
  lastDailyClaim : Option Nat := none
  referral_code : String
  verified : Bool := false
deriving DecidableEq, Repr

/-- Document of `models/Transaction.js`. -/
structure Transaction where
  user_id : Int
  amount : Int
  type : TxType
  service_id : Option Int := none
  details : String := ""
  timestamp : Nat
deriving DecidableEq, Repr

/-- Document of `models/Referral.js`. -/
structure Referral where
  referrer_id : Int
  referred_id : Int
  points_earned : Int := 0
  timestamp : Nat
deriving DecidableEq, Repr

/-- Document of `models/Order.js`. -/
structure Order where
  order_id : String
  user_id : Int
  service_id : Int
  quantity : Int
  total_points : Int
  status : OrderStatus := OrderStatus.pending
  external_id : Option String := none
  timestamp : Nat
deriving DecidableEq, Repr

/-- Document of `models/AdminLog.js`. -/
structure AdminLog where
  admin_id : Int
  action : String
  details : String := ""
  timestamp : Nat
deriving DecidableEq, Repr

/-- Document of `models/Task.js`; `_id` is the document id `findById` looks up. -/
structure Task where
  _id : String
  title : String
  points : Int := 10
  created_by : Int
  created_at : Nat
  claimed_by : List Int := []
  active : Bool := true
deriving DecidableEq, Repr

/-- The six collections of the MongoDB database. -/
structure Db where
  users : List User := []
  transactions : List Transaction := []
  referrals : List Referral := []
  orders : List Order := []
  adminLogs : List AdminLog := []
  tasks : List Task := []
deriving DecidableEq, Repr

/-! ## Catalog (`src/config.js`) -/

/-- Entry of the static catalog `services`. -/
structure Service where
  id : Int
  name : String
  points : Int
  min : Int
deriving DecidableEq, Repr

/-- The catalog `services` of `config.js`, in source order. -/
def services : List Service := [
  { id := 3036, name := "Tiktok Followers (Average Quality)", points := 2, min := 12 },
  { id := 3048, name := "Tiktok Likes (Average Quality)", points := 2, min := 12 },
  { id := 3047, name := "Tiktok Views (Average Quality)", points := 1, min := 12 },
  { id := 3051, name := "Video Saves", points := 3, min := 112 },
  { id := 3054, name := "Video Shares", points := 3, min := 112 },
  { id := 3102, name := "Tiktok Live Likes High Quality", points := 3, min := 5 },
  { id := 3103, name := "Tiktok Livestream Viewers (30 Mins WatchTime)", points := 5000, min := 50 },
  { id := 3106, name := "Instagram Followers (Average Quality)", points := 300, min := 20 },
  { id := 2997, name := "Instagram Likes (Average Quality)", points := 250, min := 20 },
  { id := 3108, name := "Instagram Video/Reel Views (Average Quality)", points := 2, min := 20 },
  { id := 3017, name := "Instagram Story Views (High Quality)", points := 300, min := 112 },
  { id := 3123, name := "Facebook Page Followers (Average Quality)", points := 0, min := 0 },
  { id := 3125, name := "Facebook Profile Followers (Average Quality)", points := 50, min := 112 },
  { id := 3129, name := "Facebook Post Likes (Average Quality)", points := 60, min := 12 },
  { id := 3131, name := "Facebook Post Reaction (Love❤️)", points := 60, min := 10 },
  { id := 3133, name := "Facebook Post Reaction (Haha😂)", points := 60, min := 10 },
  { id := 3132, name := "Facebook Post Reaction (Wow😲)", points := 60, min := 10 },
  { id := 3134, name := "Facebook Post Reaction (Sad😥)", points := 60, min := 10 },
  { id := 3135, name := "Facebook Post Reaction (Angry😡)", points := 60, min := 10 },
  { id := 2932, name := "Facebook Group Members (Average Quality)", points := 80, min := 100 },
  { id := 3137, name := "Facebook Video/Reel Views (Average Quality)", points := 20, min := 100 },
  { id := 3143, name := "Telegram Members (Average Quality)", points := 1000, min := 500 },
  { id := 2801, name := "Telegram Views (High quality)", points := 20, min := 10 },
  { id := 2804, name := "Telegram Auto Views (New & Old Posts)", points := 10, min := 20 },
  { id := 2733, name := "Telegram - Positive reactions (👍 ❤️ 🔥 🎉)", points := 40, min := 10 },
  { id := 2734, name := "Telegram - Negative reactions (👎 😢 🤯 😱 🤬 🤮 💩 🤔)", points := 40, min := 10 },
  { id := 3146, name := "Twitter Likes (Average Quality)", points := 100, min := 20 },
  { id := 3080, name := "YouTube Likes (Average Quality)", points := 40, min := 25 },
  { id := 2891, name := "Whatsapp Channel Emoji Reactions (👍❤️😂😲😥🙏)", points := 5000, min := 20 }
]

/-- The lookup `servicesList.find(s => s.id === serviceId)`. -/
def findService (serviceId : Int) : Option Service :=
  services.find? (fun s => s.id == serviceId)

/-! ## Collection primitives -/

/-- The query `User.findOne({ user_id: uid })`: the first account with that id. -/
def findUser (users : List User) (uid : Int) : Option User :=
  users.find? (fun u => u.user_id == uid)

/-- The write `doc.save()` for an account obtained by `findOne({ user_id })`: the
first account carrying the document's `user_id` is replaced by the document. -/
def saveUser : List User → User → List User
  | [], _ => []
  | u :: rest, doc =>
    if u.user_id == doc.user_id then doc :: rest else u :: saveUser rest doc

/-- The write `User.updateOne({ user_id: uid }, fields)`: the first account with
that id gets the fields set by `f`; without a match nothing is written. -/
def updateOneUser : List User → Int → (User → User) → List User
  | [], _, _ => []
  | u :: rest, uid, f =>
    if u.user_id == uid then f u :: rest else u :: updateOneUser rest uid f

/-- The write `order.save()` for the order document created by the handler: the
documents carrying its (unique) `order_id` take the document's contents. -/
def saveOrder (orders : List Order) (doc : Order) : List Order :=
  orders.map (fun o => if o.order_id == doc.order_id then doc else o)

/-- The write `task.save()` for a task obtained by `findById`. -/
def saveTask : List Task → Task → List Task
  | [], _ => []
  | t :: rest, doc =>
    if t._id == doc._id then doc :: rest else t :: saveTask rest doc

/-- Balance of the account with id `uid`; an id without account reads as `0`, the
balance an account is created with. -/
def balanceOf (s : Db) (uid : Int) : JsNum :=
  match findUser s.users uid with
  | some u => u.balance
  | none => 0

/-! ## Rate limiter (`src/utils/rateLimiter.js`) -/

/-- The in-memory map `userTimestamps`, keyed by `String(userId)`. -/
abbrev RateMap := List (String × Nat)

/-- The read `userTimestamps.get(key) || 0`. -/
def rateGet (m : RateMap) (key : String) : Nat :=
  match m.find? (fun e => e.1 == key) with
  | some e => e.2
  | none => 0

/-- The write `userTimestamps.set(key, now)`. -/
def rateSet (m : RateMap) (key : String) (now : Nat) : RateMap :=
  (key, now) :: m.filter (fun e => e.1 != key)

/-- The function `isRateLimitedUser(userId, seconds)` at clock reading `now`:
the answer and the map afterwards. -/
def isRateLimitedUser (m : RateMap) (now : Nat) (userId : Int) (seconds : Nat) :
    Bool × RateMap :=
  let key := toString userId
  let last := rateGet m key
  if (now : Int) - (last : Int) < (seconds : Int) * 1000 then (true, m)
  else (false, rateSet m key now)

/-! ## Middleware (`bot.use`) -/

/-- What a handler reads of the Telegram update and of its environment:
`ctx.from.id`, the display name the middleware stores, `Date.now()`, `uuid.v4()`. -/
structure Ctx where
  fromId : Int
  username : String
  now : Nat
  uuid : String
deriving DecidableEq, Repr

/-- The middleware `bot.use`: creates the sender's account when it is missing and
tells whether `next()` is called (it is not for a banned or blocked account). -/
def middleware (s : Db) (ctx : Ctx) : Db × Bool :=
  match findUser s.users ctx.fromId with
  | some user =>
    if user.status == Status.banned || user.status == Status.blocked then (s, false)
    else (s, true)
  | none =>
    let user : User :=
      { user_id := ctx.fromId, username := ctx.username, joined_date := ctx.now,
        referral_code := ctx.uuid }
    ({ s with users := s.users ++ [user] }, true)

/-- The helper `isAdmin(id)`; `none` is a missing id. -/
def isAdmin (ADMIN_IDS : List Int) (id : Option Int) : Bool :=
  match id with
  | none => false
  | some i =>
    if i == 0 then false
    else if ADMIN_IDS.length != 0 && ADMIN_IDS.contains i then true
    else false

/-- Truthiness of a `parseInt` result: `NaN` and `0` are falsy. -/
def truthyNum : Option Int → Option Int
  | none => none
  | some n => if n == 0 then none else some n

/-! ## `/start` (`bot.start`, referral part) -/

/-- The start payload after `trim`: `other` when it is empty or does not start
with `ref_`, else `ref r` with `r = parseInt(payload.split('_')[1], 10)`. -/
inductive StartPayload where
  | other
  | ref (refId : Option Int)
deriving DecidableEq, Repr

/-- Referral handling of `bot.start` (lines 121-147): the database afterwards. -/
def startHandler (s : Db) (ctx : Ctx) (payload : StartPayload) : Db :=
  match payload with
  | StartPayload.other => s
  | StartPayload.ref r =>
    let existing := s.referrals.find? (fun x => x.referred_id == ctx.fromId)
    match existing, truthyNum r with
    | none, some refId =>
      if refId != ctx.fromId then
        match findUser s.users refId with
        | some refUser =>
          let refUser1 : User :=
            { refUser with
              balance := refUser.balance.addInt 20, referrals := refUser.referrals.addInt 1 }
          { s with
            users := saveUser s.users refUser1
            transactions := s.transactions ++
              [{ user_id := refId, amount := 20, type := TxType.referral, service_id := none,
                 details := "Referral of " ++ toString ctx.fromId, timestamp := ctx.now }]
            referrals := s.referrals ++
              [{ referrer_id := refId, referred_id := ctx.fromId, points_earned := 20,
                 timestamp := ctx.now }] }
        | none => s
      else s
    | _, _ => s

/-! ## Task claim (`bot.action(/task_(.+)/)`) -/

/-- The task-claim action: the callback answer and the database afterwards.
`taskId` is the ObjectId the text after `task_` casts to, `none` when that text
is no ObjectId: `findById` then throws and line 266 answers `Error`. -/
def taskHandler (s : Db) (ctx : Ctx) (taskId : Option String) : String × Db :=
  match taskId with
  | none => ("Error", s)
  | some id =>
    match s.tasks.find? (fun t => t._id == id) with
    | none => ("Task not available.", s)
    | some task =>
      if !task.active then ("Task not available.", s)
      else if task.claimed_by.contains ctx.fromId then ("You already claimed this task.", s)
      else
        let task1 : Task := { task with claimed_by := task.claimed_by ++ [ctx.fromId] }
        match findUser s.users ctx.fromId with
        | none => ("Task claim failed.", s)
        | some user =>
          let user1 : User := { user with balance := user.balance.addInt task.points }
          ("Task claimed +" ++ toString task.points ++ " points",
            { s with
              tasks := saveTask s.tasks task1
              transactions := s.transactions ++
                [{ user_id := ctx.fromId, amount := task.points, type := TxType.task,
                   details := "Task " ++ task.title, timestamp := ctx.now }]
              users := saveUser s.users user1 })

/-! ## `/order` -/

/-- The text of `/order` after `split(' ').filter(Boolean)`: fewer than three
tokens, or the two numbers `parseInt` read from tokens 1 and 2. -/
inductive OrderArgs where
  | tooFew
  | parsed (serviceId quantity : Int)
deriving DecidableEq, Repr

/-- The supplier's response body `res.data` as `/order` reads it. `falsy`: a
falsy body, with the value the String path `external_id` then holds. `truthy`: a
truthy body with its truthy `id` and `order_id` members, if any, each as the
string the path casts it to (a string, or the text of a number or boolean), and
`String(apiRes)`. `uncastable`: a truthy body whose first truthy member among
`id` and `order_id` is an object or an array, which the path cannot hold. -/
inductive ApiRes where
  | falsy (stored : Option String)
  | truthy (id : Option String) (order_id : Option String) (asString : String)
  | uncastable
deriving DecidableEq, Repr

/-- Which awaited calls of lines 322-328 throw for a reason outside the handler
(database or Telegram not reachable): `order.save()` and `ctx.reply` of the `try`
block, `order.save()` and `ctx.reply` of the `catch` block. -/
structure Faults where
  save : Bool := false
  reply : Bool := false
  catchSave : Bool := false
  catchReply : Bool := false
deriving DecidableEq, Repr

/-- What the environment does in lines 317-329. `ok`: `exo.createOrder` resolves
with the response body and no awaited call is disturbed. `error`: it throws (the
client's retries are used up) and no awaited call is disturbed. `disturbed`: it
resolves with a body or throws (`none`), and the awaited calls throw as `faults`
tells. -/
inductive SupplierResult where
  | ok (apiRes : ApiRes)
  | error
  | disturbed (apiRes : Option ApiRes) (faults : Faults)
deriving DecidableEq, Repr

/-- The assignment
`order.external_id = apiRes && (apiRes.id || apiRes.order_id || String(apiRes))`:
the value the path then holds, or `none` when the cast to String fails. -/
def externalIdOf : ApiRes → Option (Option String)
  | ApiRes.falsy stored => some stored
  | ApiRes.truthy (some i) _ _ => some (some i)
  | ApiRes.truthy none (some o) _ => some (some o)
  | ApiRes.truthy none none str => some (some str)
  | ApiRes.uncastable => none

/-- How `/order` leaves its first part (lines 273-314): with a reply and no
database write, or with the committed database and the created order. -/
inductive OrderOutcome where
  | reply (msg : String) (rl : RateMap)
  | committed (s : Db) (order : Order) (rl : RateMap)
deriving DecidableEq, Repr

/-- The order id built from `Date.now()` and `Math.floor(Math.random() * 10000)`. -/
def mkOrderId (now rand : Nat) : String :=
  "ORD-" ++ toString now ++ "-" ++ toString rand

/-- Lines 273-314 of `/order`: rate limit, parsing, validation and the
debit/Order transaction. `Order.create` fails on the unique index of `order_id`
when the id is taken, which aborts the transaction. An infinite total passes the
balance check only on an infinite balance; `user.balance -= total` is then `NaN`,
which `user.save` rejects, and the transaction aborts. (The total of a catalog
service is never `-Infinity`: prices and accepted quantities are not negative.) -/
def orderCommit (rl : RateMap) (s : Db) (ctx : Ctx) (args : OrderArgs) (rand : Nat) :
    OrderOutcome :=
  match isRateLimitedUser rl ctx.now ctx.fromId 1 with
  | (true, rl1) => OrderOutcome.reply "Slow down a bit." rl1
  | (false, rl1) =>
    match args with
    | OrderArgs.tooFew => OrderOutcome.reply "Usage: /order [service_id] [quantity]" rl1
    | OrderArgs.parsed serviceId quantity =>
      match findService serviceId with
      | none => OrderOutcome.reply "Service not found." rl1
      | some svc =>
        if quantity < svc.min then
          OrderOutcome.reply
            ("Minimum order for this service is " ++ toString svc.min ++ ".") rl1
        else
          let total := jsMul svc.points quantity
          match findUser s.users ctx.fromId with
          | none => OrderOutcome.reply "Error placing order." rl1
          | some user =>
            if user.balance < total then OrderOutcome.reply "Insufficient balance." rl1
            else
              match total with
              | JsNum.fin t =>
                let user1 : User := { user with balance := user.balance.addInt (-t) }
                let orderId := mkOrderId ctx.now rand
                let order : Order :=
                  { order_id := orderId, user_id := user.user_id, service_id := serviceId,
                    quantity := quantity, total_points := t,
                    status := OrderStatus.pending, timestamp := ctx.now }
                if s.orders.any (fun o => o.order_id == orderId) then
                  OrderOutcome.reply "Failed to create order." rl1
                else
                  OrderOutcome.committed
                    { s with
                      users := saveUser s.users user1
                      transactions := s.transactions ++
                        [{ user_id := user.user_id, amount := t, type := TxType.debit,
                           service_id := some serviceId,
                           details :=
                             "Order " ++ toString serviceId ++ " x " ++ toString quantity,
                           timestamp := ctx.now }]
                      orders := s.orders ++ [order] }
                    order rl1
              | _ => OrderOutcome.reply "Failed to create order." rl1

/-- The `catch` block of lines 324-329, entered with the order document `doc` the
handler holds and the database `s`, and, when its `order.save()` or `ctx.reply`
throws, the outer `catch` of lines 330-333. -/
def supplierCatch (s : Db) (doc : Order) (f : Faults) : String × Db :=
  let doc1 : Order := { doc with status := OrderStatus.failed }
  if f.catchSave then ("Error placing order.", s)
  else
    let s1 : Db := { s with orders := saveOrder s.orders doc1 }
    if f.catchReply then ("Error placing order.", s1)
    else
      ("Order created but failed to process with supplier. Order ID: " ++ doc1.order_id ++
          ". Support will review.", s1)

/-- Lines 316-333 of `/order` for the result `apiRes` of `exo.createOrder` (`none`:
it threw) and the faults `f`. An `external_id` that cannot be cast makes both
`order.save()` calls reject, which leaves the stored order as committed and ends
in the outer `catch`. -/
def supplierPhase (s : Db) (order : Order) (apiRes : Option ApiRes) (f : Faults) :
    String × Db :=
  match apiRes with
  | none => supplierCatch s order f
  | some a =>
    match externalIdOf a with
    | none => ("Error placing order.", s)
    | some ext =>
      let order1 : Order :=
        { order with external_id := ext, status := OrderStatus.processing }
      if f.save then supplierCatch s order1 f
      else
        let s1 : Db := { s with orders := saveOrder s.orders order1 }
        if f.reply then supplierCatch s1 order1 f
        else ("Order created: " ++ order1.order_id ++ "\nStatus: processing", s1)

/-- Lines 316-333 of `/order`: the supplier call after the commit, the
`order.save()` of either branch and the reply. -/
def orderSupplier (s : Db) (order : Order) (r : SupplierResult) : String × Db :=
  match r with
  | SupplierResult.ok apiRes => supplierPhase s order (some apiRes) {}
  | SupplierResult.error => supplierPhase s order none {}
  | SupplierResult.disturbed apiRes faults => supplierPhase s order apiRes faults

/-- The whole `/order` handler: reply, database and rate-limiter map afterwards. -/
def orderHandler (rl : RateMap) (s : Db) (ctx : Ctx) (args : OrderArgs) (rand : Nat)
    (r : SupplierResult) : String × Db × RateMap :=
  match orderCommit rl s ctx args rand with
  | OrderOutcome.reply msg rl1 => (msg, s, rl1)
  | OrderOutcome.committed s1 order rl1 =>
    let res := orderSupplier s1 order r
    (res.1, res.2, rl1)

/-! ## `/order` with its suspension point

`/order` reads the account at line 285, outside the session, and writes it back
inside the transaction of lines 289-307. The two parts below are the handler cut
at that `await`: run back to back on one database they are `orderCommit`; another
handler may run between them. -/

/-- How lines 273-286 of `/order` end: with a reply, or holding the account
document read at line 285 and the computed total. -/
inductive OrderCheck where
  | reply (msg : String) (rl : RateMap)
  | ready (user : User) (serviceId quantity : Int) (total : JsNum) (rl : RateMap)
deriving DecidableEq, Repr

/-- Lines 273-286 of `/order`: rate limit, parsing, validation and the balance
check on the account as read from the database `s`. -/
def orderCheck (rl : RateMap) (s : Db) (ctx : Ctx) (args : OrderArgs) : OrderCheck :=
  match isRateLimitedUser rl ctx.now ctx.fromId 1 with
  | (true, rl1) => OrderCheck.reply "Slow down a bit." rl1
  | (false, rl1) =>
    match args with
    | OrderArgs.tooFew => OrderCheck.reply "Usage: /order [service_id] [quantity]" rl1
    | OrderArgs.parsed serviceId quantity =>
      match findService serviceId with
      | none => OrderCheck.reply "Service not found." rl1
      | some svc =>
        if quantity < svc.min then
          OrderCheck.reply
            ("Minimum order for this service is " ++ toString svc.min ++ ".") rl1
        else
          let total := jsMul svc.points quantity
          match findUser s.users ctx.fromId with
          | none => OrderCheck.reply "Error placing order." rl1
          | some user =>
            if user.balance < total then OrderCheck.reply "Insufficient balance." rl1
            else OrderCheck.ready user serviceId quantity total rl1

/-- Lines 289-314 of `/order`: the transaction, run on the database `s` as it is
when the transaction starts, with the account document `user` the handler holds:
`user.balance -= total; user.save()` writes the balance computed from that
document. -/
def orderTransaction (s : Db) (ctx : Ctx) (user : User) (serviceId quantity : Int)
    (total : JsNum) (rand : Nat) (rl1 : RateMap) : OrderOutcome :=
  match total with
  | JsNum.fin t =>
    let user1 : User := { user with balance := user.balance.addInt (-t) }
    let orderId := mkOrderId ctx.now rand
    let order : Order :=
      { order_id := orderId, user_id := user.user_id, service_id := serviceId,
        quantity := quantity, total_points := t,
        status := OrderStatus.pending, timestamp := ctx.now }
    if s.orders.any (fun o => o.order_id == orderId) then
      OrderOutcome.reply "Failed to create order." rl1
    else
      OrderOutcome.committed
        { s with
          users := saveUser s.users user1
          transactions := s.transactions ++
            [{ user_id := user.user_id, amount := t, type := TxType.debit,
               service_id := some serviceId,
               details := "Order " ++ toString serviceId ++ " x " ++ toString quantity,
               timestamp := ctx.now }]
          orders := s.orders ++ [order] }
        order rl1
  | _ => OrderOutcome.reply "Failed to create order." rl1

/-- The rest of `/order` from the start of its transaction: transaction, then the
supplier call. -/
def orderFinish (s : Db) (ctx : Ctx) (c : OrderCheck) (rand : Nat) (r : SupplierResult) :
    String × Db :=
  match c with
  | OrderCheck.reply msg _ => (msg, s)
  | OrderCheck.ready user serviceId quantity total rl1 =>
    match orderTransaction s ctx user serviceId quantity total rand rl1 with
    | OrderOutcome.reply msg _ => (msg, s)
    | OrderOutcome.committed s1 order _ => orderSupplier s1 order r

/-- Two `/order` handlers of one process, interleaved at the suspension point: both
run lines 273-286 on the database `s` (the second one after the first, so it sees
the first one's rate-limiter entry), then the first runs its transaction and
supplier call, then the second runs its transaction, on the database the first
left, and its supplier call. The replies of both and the final database. -/
def ordersInterleaved (rl : RateMap) (s : Db) (ctx1 : Ctx) (args1 : OrderArgs) (rand1 : Nat)
    (r1 : SupplierResult) (ctx2 : Ctx) (args2 : OrderArgs) (rand2 : Nat) (r2 : SupplierResult) :
    String × String × Db :=
  let c1 := orderCheck rl s ctx1 args1
  let rlA := match c1 with
    | OrderCheck.reply _ x => x
    | OrderCheck.ready _ _ _ _ x => x
  let c2 := orderCheck rlA s ctx2 args2
  let res1 := orderFinish s ctx1 c1 rand1 r1
  let res2 := orderFinish res1.2 ctx2 c2 rand2 r2
  (res1.1, res2.1, res2.2)

/-- The same two `/order` handlers run one after the other, the second one
starting after the first has finished. -/
def ordersSequential (rl : RateMap) (s : Db) (ctx1 : Ctx) (args1 : OrderArgs) (rand1 : Nat)
    (r1 : SupplierResult) (ctx2 : Ctx) (args2 : OrderArgs) (rand2 : Nat) (r2 : SupplierResult) :
    String × String × Db :=
  let res1 := orderHandler rl s ctx1 args1 rand1 r1
  let res2 := orderHandler res1.2.2 res1.2.1 ctx2 args2 rand2 r2
  (res1.1, res2.1, res2.2.1)

/-! ## Administrator commands -/

/-- The text of `/addpoints` after `split(/\s+/)`: fewer than three tokens, or the
`parseInt` results of tokens 1 and 2. -/
inductive AddPointsArgs where
  | tooFew
  | parsed (uid amt : Option Int)
deriving DecidableEq, Repr

/-- The `/addpoints` handler: reply and database afterwards. -/
def addpointsHandler (ADMIN_IDS : List Int) (s : Db) (ctx : Ctx) (args : AddPointsArgs) :
    String × Db :=
  if !isAdmin ADMIN_IDS (some ctx.fromId) then ("Unauthorized", s)
  else
    match args with
    | AddPointsArgs.tooFew => ("Usage: /addpoints [user_id] [amount]", s)
    | AddPointsArgs.parsed uid0 amt0 =>
      match truthyNum uid0, truthyNum amt0 with
      | some uid, some amt =>
        match findUser s.users uid with
        | none => ("Failed to add points.", s)
        | some user =>
          let user1 : User := { user with balance := user.balance.addInt amt }
          ("Added " ++ toString amt ++ " points to " ++ toString uid,
            { s with
              users := saveUser s.users user1
              transactions := s.transactions ++
                [{ user_id := uid, amount := amt, type := TxType.admin,
                   details := "Admin " ++ toString ctx.fromId ++ " added points",
                   timestamp := ctx.now }]
              adminLogs := s.adminLogs ++
                [{ admin_id := ctx.fromId, action := "addpoints",
                   details := "to " ++ toString uid ++ " amount " ++ toString amt,
                   timestamp := ctx.now }] })
      | _, _ => ("Invalid args", s)

/-- The text of `/ban` after `split(/\s+/)`: fewer than two tokens, or the
`parseInt` result of token 1. -/
inductive BanArgs where
  | tooFew
  | parsed (uid : Option Int)
deriving DecidableEq, Repr

/-- The `/ban` handler: reply and database afterwards. -/
def banHandler (ADMIN_IDS : List Int) (s : Db) (ctx : Ctx) (args : BanArgs) : String × Db :=
  if !isAdmin ADMIN_IDS (some ctx.fromId) then ("Unauthorized", s)
  else
    match args with
    | BanArgs.tooFew => ("Usage: /ban [user_id]", s)
    | BanArgs.parsed uid0 =>
      match truthyNum uid0 with
      | none => ("Invalid user id", s)
      | some uid =>
        ("User " ++ toString uid ++ " banned.",
          { s with
            users := updateOneUser s.users uid (fun u => { u with status := Status.banned })
            adminLogs := s.adminLogs ++
              [{ admin_id := ctx.fromId, action := "ban",
                 details := "banned " ++ toString uid, timestamp := ctx.now }] })

/-- The text of `/addtask` after `split(/\s+/)`: fewer than three tokens, or the
`parseInt` result of token 1 and the title joined from the rest. -/
inductive AddTaskArgs where
  | tooFew
  | parsed (pts : Option Int) (title : String)
deriving DecidableEq, Repr

/-- The `/addtask` handler; `newId` is the `_id` MongoDB gives the new task. -/
def addtaskHandler (ADMIN_IDS : List Int) (s : Db) (ctx : Ctx) (args : AddTaskArgs)
    (newId : String) : String × Db :=
  if !isAdmin ADMIN_IDS (some ctx.fromId) then ("Unauthorized", s)
  else
    match args with
    | AddTaskArgs.tooFew => ("Usage: /addtask [points] [title]", s)
    | AddTaskArgs.parsed pts title =>
      let t : Task :=
        { _id := newId, title := title,
          points := (match pts with
            | none => 10
            | some p => p),
          created_by := ctx.fromId, created_at := ctx.now }
      ("Task added: " ++ title ++ " (+" ++ toString t.points ++ " pts)",
        { s with
          tasks := s.tasks ++ [t]
          adminLogs := s.adminLogs ++
            [{ admin_id := ctx.fromId, action := "addtask",
               details := "task " ++ t._id ++ " " ++ title, timestamp := ctx.now }] })

/-- The `/broadcast` handler; `msg` is the trimmed text after the command and
`sent` the number of messages Telegram accepted. -/
def broadcastHandler (ADMIN_IDS : List Int) (s : Db) (ctx : Ctx) (msg : String) (sent : Nat) :
    String × Db :=
  if !isAdmin ADMIN_IDS (some ctx.fromId) then ("Unauthorized", s)
  else if msg == "" then ("Usage: /broadcast [message]", s)
  else
    let users := s.users.filter (fun u => u.status == Status.active)
    ("Broadcast sent to " ++ toString sent ++ " users (attempted " ++
        toString users.length ++ ").",
      { s with
        adminLogs := s.adminLogs ++
          [{ admin_id := ctx.fromId, action := "broadcast", details := "message: " ++ msg,
             timestamp := ctx.now }] })

/-! ## Verification endpoint (`app.get('/verify')`, `src/utils/security.js`) -/

/-- The function `deviceFingerprint(req)`: the SHA-256 hex digest (`sha256hex`) of
user agent, accept-language and the optional `tz` query field, joined by `||`. -/
def deviceFingerprint (sha256hex : String → String) (ua lang tz : Option String) : String :=
  sha256hex (ua.getD "" ++ "||" ++ lang.getD "" ++ "||" ++ tz.getD "")

/-- Text sent when the account is blocked. -/
def blockedAnswer : String :=
  "Your account has been flagged due to IP/device duplication and blocked. Contact support."

/-- Text sent when the account is verified. -/
def verifiedAnswer : String :=
  "Verification successful. You may return to Telegram."

/-- The query `User.find({ ip_address: ip, user_id: { $ne: uid }, status: 'active' })`. -/
def usersWithIP (s : Db) (uid : Int) (ip : Option String) : List User :=
  s.users.filter (fun u => u.ip_address == ip && u.user_id != uid && u.status == Status.active)

/-- The query `User.find({ device_id: device, user_id: { $ne: uid }, status: 'active' })`. -/
def usersWithDevice (s : Db) (uid : Int) (device : String) : List User :=
  s.users.filter
    (fun u => u.device_id == some device && u.user_id != uid && u.status == Status.active)

/-- The `/verify` endpoint for the parsed query value `uid0`, the address `ip`
that `extractIP` returned (`none` is `null`) and the fingerprint `device`: HTTP
status, body and database afterwards. -/
def verify (s : Db) (uid0 : Option Int) (ip : Option String) (device : String) (now : Nat) :
    Nat × String × Db :=
  match truthyNum uid0 with
  | none => (400, "Missing user id", s)
  | some uid =>
    if (usersWithIP s uid ip).length > 0 || (usersWithDevice s uid device).length > 0 then
      (200, blockedAnswer,
        { s with
          users := updateOneUser s.users uid (fun u =>
            { u with status := Status.blocked, ip_address := ip, device_id := some device,
                     verified := true })
          adminLogs := s.adminLogs ++
            [{ admin_id := 0, action := "anti_cheat_block",
               details := "User " ++ toString uid ++ " blocked due to duplicate IP/device",
               timestamp := now }] })
    else
      (200, verifiedAnswer,
        { s with
          users := updateOneUser s.users uid (fun u =>
            { u with ip_address := ip, device_id := some device, verified := true }) })

/-! ## Commands that only read -/

/-- The query modifiers `.sort({ key: -1 })`: descending by `key`. -/
def sortDesc {α : Type} (key : α → Nat) (l : List α) : List α :=
  l.insertionSort (fun a b => key b ≤ key a)

/-- Text of an account status. -/
def statusText : Status → String
  | Status.active => "active"
  | Status.banned => "banned"
  | Status.blocked => "blocked"

/-- Text of an order status. -/
def orderStatusText : OrderStatus → String
  | OrderStatus.pending => "pending"
  | OrderStatus.processing => "processing"
  | OrderStatus.completed => "completed"
  | OrderStatus.failed => "failed"

/-- The query of `/history`:
`Order.find({ user_id }).sort({ timestamp: -1 }).limit(20)`. -/
def historyQuery (s : Db) (uid : Int) : List Order :=
  (sortDesc (fun o => o.timestamp) (s.orders.filter (fun o => o.user_id == uid))).take 20

/-- The `/history` handler: its reply. -/
def historyHandler (s : Db) (ctx : Ctx) : String :=
  let orders := historyQuery s ctx.fromId
  if orders.length == 0 then "No orders found."
  else
    "\n".intercalate (orders.map fun o =>
      o.order_id ++ " | " ++ toString o.service_id ++ " x" ++ toString o.quantity ++ " | " ++
        toString o.total_points ++ "pts | " ++ orderStatusText o.status)

/-- The `/admin` handler: reply and database afterwards. -/
def adminHandler (ADMIN_IDS : List Int) (s : Db) (ctx : Ctx) : String × Db :=
  if !isAdmin ADMIN_IDS (some ctx.fromId) then ("Unauthorized", s)
  else
    ("Admin Panel (bot):\n- /broadcast [message]\n- /addpoints [user_id] [amount]\n" ++
      "- /users\n- /orders\n- /ban [user_id]\n- /logs\n- /addtask\n" ++
      "Use these commands directly in chat.", s)

/-- The reply `lines.join('\n') || fallback`. -/
def linesOr (lines : List String) (fallback : String) : String :=
  if "\n".intercalate lines == "" then fallback else "\n".intercalate lines

/-- The `/users` handler: reply and database afterwards. -/
def usersHandler (ADMIN_IDS : List Int) (s : Db) (ctx : Ctx) : String × Db :=
  if !isAdmin ADMIN_IDS (some ctx.fromId) then ("Unauthorized", s)
  else
    let users := (sortDesc (fun u => u.joined_date) s.users).take 100
    (linesOr (users.map fun u =>
        toString u.user_id ++ " | " ++ u.username ++ " | " ++ toString u.balance ++ "pts | " ++
          statusText u.status) "No users", s)

/-- The `/orders` handler: reply and database afterwards. -/
def ordersHandler (ADMIN_IDS : List Int) (s : Db) (ctx : Ctx) : String × Db :=
  if !isAdmin ADMIN_IDS (some ctx.fromId) then ("Unauthorized", s)
  else
    let orders := (sortDesc (fun o => o.timestamp) s.orders).take 200
    (linesOr (orders.map fun o =>
        o.order_id ++ " | UID: " ++ toString o.user_id ++ " | " ++ toString o.service_id ++
          " x" ++ toString o.quantity ++ " | " ++ toString o.total_points ++ " | " ++
          orderStatusText o.status) "No orders", s)

/-- The `/logs` handler; `iso` renders a timestamp as `toISOString()` does. -/
def logsHandler (ADMIN_IDS : List Int) (iso : Nat → String) (s : Db) (ctx : Ctx) :
    String × Db :=
  if !isAdmin ADMIN_IDS (some ctx.fromId) then ("Unauthorized", s)
  else
    let logs := (sortDesc (fun l => l.timestamp) s.adminLogs).take 200
    (linesOr (logs.map fun l =>
        iso l.timestamp ++ " | " ++ toString l.admin_id ++ " | " ++ l.action ++ " | " ++
          l.details) "No logs", s)

/-- The lookup `Task.findById(taskId)`. -/
def findTask (tasks : List Task) (taskId : String) : Option Task :=
  tasks.find? (fun t => t._id == taskId)

/-! ## The program as a transition system -/

/-- Process state: the database and the rate limiter's in-memory map. -/
structure World where
  db : Db := {}
  userTimestamps : RateMap := []
deriving DecidableEq, Repr

/-- One sequentially executed operation with the inputs it receives. `query` stands
for the bot commands and actions that only read (`/balance`, `/history`, `/help`,
`/admin`, `/users`, ...): of them only the middleware writes. -/
inductive Op where
  | start (ctx : Ctx) (payload : StartPayload)
  | taskClaim (ctx : Ctx) (taskId : Option String)
  | order (ctx : Ctx) (args : OrderArgs) (rand : Nat) (r : SupplierResult)
  | addpoints (ctx : Ctx) (args : AddPointsArgs)
  | ban (ctx : Ctx) (args : BanArgs)
  | addtask (ctx : Ctx) (args : AddTaskArgs) (newId : String)
  | broadcast (ctx : Ctx) (msg : String) (sent : Nat)
  | query (ctx : Ctx)
  | verify (uid0 : Option Int) (ip : Option String) (device : String) (now : Nat)
deriving DecidableEq, Repr

/-- A bot update: the middleware first, then the handler unless the sender's
account is restricted. -/
def viaMiddleware (w : World) (ctx : Ctx) (handler : Db → World) : World :=
  match middleware w.db ctx with
  | (s1, true) => handler s1
  | (s1, false) => { w with db := s1 }

/-- One operation executed to completion. -/
def step (ADMIN_IDS : List Int) (w : World) : Op → World
  | Op.start ctx payload =>
    viaMiddleware w ctx (fun s1 => { w with db := startHandler s1 ctx payload })
  | Op.taskClaim ctx taskId =>
    viaMiddleware w ctx (fun s1 => { w with db := (taskHandler s1 ctx taskId).2 })
  | Op.order ctx args rand r =>
    viaMiddleware w ctx (fun s1 =>
      let res := orderHandler w.userTimestamps s1 ctx args rand r
      { db := res.2.1, userTimestamps := res.2.2 })
  | Op.addpoints ctx args =>
    viaMiddleware w ctx (fun s1 => { w with db := (addpointsHandler ADMIN_IDS s1 ctx args).2 })
  | Op.ban ctx args =>
    viaMiddleware w ctx (fun s1 => { w with db := (banHandler ADMIN_IDS s1 ctx args).2 })
  | Op.addtask ctx args newId =>
    viaMiddleware w ctx (fun s1 =>
      { w with db := (addtaskHandler ADMIN_IDS s1 ctx args newId).2 })
  | Op.broadcast ctx msg sent =>
    viaMiddleware w ctx (fun s1 =>
      { w with db := (broadcastHandler ADMIN_IDS s1 ctx msg sent).2 })
  | Op.query ctx => viaMiddleware w ctx (fun s1 => { w with db := s1 })
  | Op.verify uid0 ip device now => { w with db := (verify w.db uid0 ip device now).2.2 }

/-- A sequence of operations executed one after another. -/
def run (ADMIN_IDS : List Int) (w : World) (ops : List Op) : World :=
  ops.foldl (step ADMIN_IDS) w

/-- Contribution of a ledger entry to the balance: a `debit` entry counts as minus
its amount, every other entry as its amount. -/
def signedAmount (t : Transaction) : Int :=
  if t.type == TxType.debit then -t.amount else t.amount

/-- Sum of the signed amounts of the ledger entries of account `uid`. -/
def ledgerSum (txs : List Transaction) (uid : Int) : Int :=
  ((txs.filter (fun t => t.user_id == uid)).map signedAmount).sum

/-! ## Specification vocabulary -/

/-- Reconciliation invariant on the two collections it concerns: account ids are
pairwise different, each account's balance is the signed sum of its ledger
entries, and every ledger entry belongs to an existing account. -/
def Reconciled (users : List User) (txs : List Transaction) : Prop :=
  (users.map (fun u => u.user_id)).Nodup ∧
  (∀ u ∈ users, u.balance = JsNum.fin (ledgerSum txs u.user_id)) ∧
  (∀ t ∈ txs, t.user_id ∈ users.map (fun u => u.user_id))

/-- Every balance reached while the operations `ops` run one after another from
`w` is finite and below `2 ^ 53` in magnitude. -/
def SafeRun (ADMIN_IDS : List Int) : World → List Op → Prop
  | _, [] => True
  | w, op :: rest =>
    (∀ u ∈ (step ADMIN_IDS w op).db.users, u.balance.isSafe = true) ∧
      SafeRun ADMIN_IDS (step ADMIN_IDS w op) rest

/-- A transition that writes no ledger entry and touches accounts only in ways that
keep ids and balances: nothing, an `updateOne` of other fields, or the creation
of an account with balance `0` for an id that had none. -/
def Neutral (s s1 : Db) : Prop :=
  s1.transactions = s.transactions ∧
  (s1.users = s.users ∨
   (∃ uid f, (∀ u : User, (f u).user_id = u.user_id ∧ (f u).balance = u.balance) ∧
      s1.users = updateOneUser s.users uid f) ∨
   (∃ nu : User, findUser s.users nu.user_id = none ∧ nu.balance = 0 ∧
      s1.users = s.users ++ [nu]))

/-- A transition that appends the single ledger entry `t` and saves the account of
`t.user_id` with the balance the handler computes: the double nearest to the
balance plus the entry's signed amount. -/
def Posting (s s1 : Db) (t : Transaction) : Prop :=
  ∃ u doc : User, findUser s.users t.user_id = some u ∧ doc.user_id = t.user_id ∧
    doc.balance = u.balance.addInt (signedAmount t) ∧
    s1.users = saveUser s.users doc ∧ s1.transactions = s.transactions ++ [t]

/-- Some account other than `uid` is active and has the IP address `ip` or the
device fingerprint `device`. -/
def DuplicateOf (s : Db) (uid : Int) (ip : Option String) (device : String) : Prop :=
  ∃ u ∈ s.users, u.user_id ≠ uid ∧ u.status = Status.active ∧
    (u.ip_address = ip ∨ u.device_id = some device)

/-- Number of Referral records whose `referred_id` is `B`. -/
def referralRecordsOf (s : Db) (B : Int) : Nat :=
  s.referrals.countP (fun r => r.referred_id == B)

/-- Number of ledger entries of type `referral` granted for referring `B`: those
with the details text `Referral of <B>` that `bot.start` writes. -/
def referralCreditsFor (s : Db) (B : Int) : Nat :=
  s.transactions.countP
    (fun t => t.type == TxType.referral && t.details == "Referral of " ++ toString B)

/-- Value of a decimal digit character. -/
def digitValue (c : Char) : Nat := c.toNat - 48

/-- Value of a list of decimal digit characters, most significant first. -/
def decimalValue (cs : List Char) : Nat :=
  cs.foldl (fun acc c => 10 * acc + digitValue c) 0

/-- What is known of the ledger entry `t` an operation posts on the database `s`
its handler receives: the kind and amount each handler writes. -/
def EntryOf (s : Db) (t : Transaction) : Op → Prop
  | Op.start ctx _ =>
    t.type = TxType.referral ∧ t.amount = 20 ∧
      t.details = "Referral of " ++ toString ctx.fromId
  | Op.taskClaim ctx _ =>
    t.type = TxType.task ∧ t.user_id = ctx.fromId ∧ ∃ task ∈ s.tasks, t.amount = task.points
  | Op.order ctx args _ _ =>
    t.type = TxType.debit ∧ t.user_id = ctx.fromId ∧
      ∃ svc quantity, args = OrderArgs.parsed svc.id quantity ∧ svc ∈ services ∧
        svc.min ≤ quantity ∧ jsMul svc.points quantity = JsNum.fin t.amount ∧
        JsNum.fin t.amount ≤ balanceOf s ctx.fromId
  | Op.addpoints _ args =>
    t.type = TxType.admin ∧
      ∃ uid0 amt, args = AddPointsArgs.parsed uid0 (some amt) ∧ amt ≠ 0 ∧ t.amount = amt
  | _ => False

/-- The sender id of the Telegram update an operation processes; the `/verify`
endpoint is an HTTP request and has none. -/
def senderId : Op → Option Int
  | Op.start ctx _ => some ctx.fromId
  | Op.taskClaim ctx _ => some ctx.fromId
  | Op.order ctx _ _ _ => some ctx.fromId
  | Op.addpoints ctx _ => some ctx.fromId
  | Op.ban ctx _ => some ctx.fromId
  | Op.addtask ctx _ _ => some ctx.fromId
  | Op.broadcast ctx _ _ => some ctx.fromId
  | Op.query ctx => some ctx.fromId
  | Op.verify _ _ _ _ => none

/-- Every account that is banned or blocked in `users` is still an account, and
still banned or blocked, in `users1`. -/
def StatusKept (users users1 : List User) : Prop :=
  ∀ uid u, findUser users uid = some u → u.status ≠ Status.active →
    ∃ u1, findUser users1 uid = some u1 ∧ u1.status ≠ Status.active

/-- Every task of `tasks` is still a task of `tasks1`, with the same reward and
active flag, with its earlier claimants as a prefix of its claimants, and without
duplicate claimants if it had none. -/
def TaskGrows (tasks tasks1 : List Task) : Prop :=
  ∀ T task, findTask tasks T = some task →
    ∃ task1, findTask tasks1 T = some task1 ∧
      (task.claimed_by.Nodup → task1.claimed_by.Nodup) ∧
      task.claimed_by <+: task1.claimed_by ∧
      task1.points = task.points ∧ task1.active = task.active

/-! ## Sample inputs -/

/-- A fresh active account with the given id and balance. -/
def acct (uid balance : Int) : User :=
  { user_id := uid, username := "user", balance := JsNum.fin balance, joined_date := 0,
    referral_code := "code" }

/-- An update sent by user `uid` at clock reading `5000`. -/
def ctxOf (uid : Int) : Ctx :=
  { fromId := uid, username := "user", now := 5000, uuid := "code" }

/-- The catalog entry of service 3036. -/
def svc3036 : Service :=
  { id := 3036, name := "Tiktok Followers (Average Quality)", points := 2, min := 12 }

/-- A database holding one account, user 7, with the given balance. -/
def dbOne (balance : Int) : Db :=
  { users := [acct 7 balance] }

/-- Operations run from the empty store with administrator list `[1]`: user 7
appears, administrator 1 grants 24 points, user 7 orders 12 units of service 3036
and the supplier call fails. -/
def sampleOps : List Op :=
  [Op.query (ctxOf 7),
   Op.addpoints (ctxOf 1) (AddPointsArgs.parsed (some 7) (some 24)),
   Op.order (ctxOf 7) (OrderArgs.parsed 3036 12) 42 SupplierResult.error]

/-- Three `/start` events, processed from a store holding accounts 3 and 5: user 5
starts with `ref_3`, again with `ref_3`, then with `ref_7`. -/
def sampleStarts : List (Ctx × StartPayload) :=
  [(ctxOf 5, StartPayload.ref (some 3)), (ctxOf 5, StartPayload.ref (some 3)),
   (ctxOf 5, StartPayload.ref (some 7))]

/-- A store holding the two fresh accounts 3 and 5. -/
def dbTwo : Db :=
  { users := [acct 3 0, acct 5 0] }

/-- A store holding account 3 and the blocked account of user 5. -/
def dbBlocked : Db :=
  { users := [acct 3 0, { acct 5 0 with status := Status.blocked }] }

/-- A store holding the active account of user 7, verified from address `1.1.1.1`. -/
def dbVerified : Db :=
  { users := [{ acct 7 0 with
      ip_address := some "1.1.1.1", device_id := some "d7", verified := true }] }

/-- A supplier response `{ id: "S-1" }`. -/
def apiOk : ApiRes :=
  ApiRes.truthy (some "S-1") none "[object Object]"

/-- A store with accounts 3 and 5 and one active task `t1` of 10 points that user
3 has claimed. -/
def dbTask : Db :=
  { users := [acct 3 10, acct 5 0],
    tasks := [{ _id := "t1", title := "Join", points := 10, created_by := 1, created_at := 0,
                claimed_by := [3] }] }

/-- Task-claim actions on `dbTask`: user 5 claims `t1` twice, user 3 claims it
again, and user 5 sends a claim whose id text is no ObjectId. -/
def sampleClaims : List (Ctx × Option String) :=
  [(ctxOf 5, some "t1"), (ctxOf 5, some "t1"), (ctxOf 3, some "t1"), (ctxOf 5, none)]

/-- An order of user `uid` with the given id and creation time. -/
def orderAt (orderId : String) (uid : Int) (timestamp : Nat) : Order :=
  { order_id := orderId, user_id := uid, service_id := 3036, quantity := 12,
    total_points := 24, timestamp := timestamp }

/-- A store with three orders of user 7, created at times 1, 3 and 2, and one
order of user 8. -/
def dbOrders : Db :=
  { orders := [orderAt "a" 7 1, orderAt "b" 8 5, orderAt "c" 7 3, orderAt "d" 7 2] }

/-- A second update sent by user `uid`, at clock reading `6500`. -/
def ctxLater (uid : Int) : Ctx :=
  { fromId := uid, username := "user", now := 6500, uuid := "code" }

/-! ## Lemmas on numbers -/

theorem droppedBits_spec (fuel n : Nat) (hf : n ≤ fuel) (hn : 2 ^ 53 ≤ n) :
    1 ≤ droppedBits fuel n ∧ 2 ^ 52 ≤ n / 2 ^ droppedBits fuel n := by
  induction fuel generalizing n with
  | zero =>
    have : (0 : Nat) < 2 ^ 53 := by norm_num
    omega
  | succ f ih =>
    have h1 : ¬ n < 2 ^ 53 := by omega
    simp only [droppedBits, h1, if_false]
    by_cases hm : n / 2 < 2 ^ 53
    · have h0 : droppedBits f (n / 2) = 0 := by
        cases f with
        | zero => rfl
        | succ g => simp only [droppedBits, hm, if_true]
      rw [h0]
      refine ⟨le_refl _, ?_⟩
      norm_num at hn ⊢
      omega
    · obtain ⟨_, ih2⟩ := ih (n / 2) (by omega) (by omega)
      refine ⟨by omega, ?_⟩
      have hp : 2 ^ (droppedBits f (n / 2) + 1) = 2 * 2 ^ droppedBits f (n / 2) :=
        pow_succ' 2 _
      rw [hp, ← Nat.div_div_eq_div_mul]
      exact ih2

theorem roundNat_of_le (n : Nat) (h : n ≤ 2 ^ 53) : roundNat n = n := by
  unfold roundNat
  rw [if_pos h]

theorem roundNat_ge (n : Nat) (h : 2 ^ 53 < n) : 2 ^ 53 ≤ roundNat n := by
  obtain ⟨hk, hq⟩ := droppedBits_spec n n (le_refl _) (le_of_lt h)
  have hulp : 2 ^ 1 ≤ 2 ^ droppedBits n n := Nat.pow_le_pow_right (by norm_num) hk
  have hbase : 2 ^ 53 ≤ n / 2 ^ droppedBits n n * 2 ^ droppedBits n n := by
    calc 2 ^ 53 = 2 ^ 52 * 2 ^ 1 := by norm_num
      _ ≤ n / 2 ^ droppedBits n n * 2 ^ droppedBits n n := Nat.mul_le_mul hq hulp
  have hn : ¬ n ≤ 2 ^ 53 := not_le.mpr h
  simp only [roundNat, hn, if_false]
  split
  · exact le_trans hbase (Nat.mul_le_mul_right _ (Nat.le_succ _))
  · exact hbase

theorem roundNat_pos (n : Nat) (h : 0 < n) : 0 < roundNat n := by
  by_cases hn : n ≤ 2 ^ 53
  · rw [roundNat_of_le n hn]
    exact h
  · exact lt_of_lt_of_le (by norm_num) (roundNat_ge n (not_le.mp hn))

theorem JsNum.zero_eq : (0 : JsNum) = JsNum.fin 0 := rfl

theorem JsNum.fin_le_fin (a b : Int) : JsNum.fin a ≤ JsNum.fin b ↔ a ≤ b := by
  show JsNum.ble (JsNum.fin a) (JsNum.fin b) = true ↔ a ≤ b
  simp [JsNum.ble]

theorem JsNum.fin_lt_fin (a b : Int) : JsNum.fin a < JsNum.fin b ↔ a < b := by
  show JsNum.blt (JsNum.fin a) (JsNum.fin b) = true ↔ a < b
  simp [JsNum.blt]

theorem JsNum.zero_le_fin (b : Int) : (0 : JsNum) ≤ JsNum.fin b ↔ 0 ≤ b :=
  JsNum.fin_le_fin 0 b

theorem JsNum.not_lt_iff (a b : JsNum) : ¬ a < b ↔ b ≤ a := by
  show ¬ JsNum.blt a b = true ↔ JsNum.ble b a = true
  cases a <;> cases b <;> simp [JsNum.blt, JsNum.ble]

theorem JsNum.ofInt_of_natAbs_le (x : Int) (h : x.natAbs ≤ 2 ^ 53) :
    JsNum.ofInt x = JsNum.fin x := by
  have hlt : x.natAbs < 2 ^ 256 * 2 ^ 256 * 2 ^ 256 * 2 ^ 256 :=
    lt_of_le_of_lt h (by norm_num)
  simp only [JsNum.ofInt, roundNat_of_le _ h, hlt, if_true]
  congr 1
  split <;> omega

theorem JsNum.ofInt_zero : JsNum.ofInt 0 = JsNum.fin 0 :=
  JsNum.ofInt_of_natAbs_le 0 (by norm_num)

theorem JsNum.ofInt_eq_fin (x y : Int) (h : JsNum.ofInt x = JsNum.fin y) :
    y = (if x < 0 then -(roundNat x.natAbs : Int) else (roundNat x.natAbs : Int)) := by
  simp only [JsNum.ofInt] at h
  split at h
  · exact (JsNum.fin.inj h).symm
  · split at h <;> cases h

theorem JsNum.ofInt_fin_safe (x y : Int) (h : JsNum.ofInt x = JsNum.fin y)
    (hy : y.natAbs < 2 ^ 53) : y = x := by
  by_cases hx : x.natAbs ≤ 2 ^ 53
  · rw [JsNum.ofInt_of_natAbs_le x hx] at h
    exact (JsNum.fin.inj h).symm
  · have hge := roundNat_ge _ (not_le.mp hx)
    have hy1 := JsNum.ofInt_eq_fin x y h
    exfalso
    split at hy1 <;> omega

theorem JsNum.ofInt_fin_nonneg (x y : Int) (h : JsNum.ofInt x = JsNum.fin y) (hx : 0 ≤ x) :
    0 ≤ y := by
  have hy1 := JsNum.ofInt_eq_fin x y h
  rw [if_neg (not_lt.mpr hx)] at hy1
  omega

theorem JsNum.ofInt_fin_pos (x y : Int) (h : JsNum.ofInt x = JsNum.fin y) (hx : 0 < x) :
    0 < y := by
  have hy1 := JsNum.ofInt_eq_fin x y h
  rw [if_neg (not_lt.mpr (le_of_lt hx))] at hy1
  have := roundNat_pos x.natAbs (by omega)
  omega

theorem JsNum.ofInt_nonneg (x : Int) (hx : 0 ≤ x) : (0 : JsNum) ≤ JsNum.ofInt x := by
  cases h : JsNum.ofInt x with
  | fin y => exact (JsNum.zero_le_fin y).mpr (JsNum.ofInt_fin_nonneg x y h hx)
  | posInf => rfl
  | negInf =>
    simp only [JsNum.ofInt] at h
    split at h
    · cases h
    · rw [if_neg (not_lt.mpr hx)] at h
      cases h

theorem JsNum.ofInt_ne_negInf (x : Int) (hx : 0 ≤ x) : JsNum.ofInt x ≠ JsNum.negInf := by
  intro h
  have := JsNum.ofInt_nonneg x hx
  rw [h] at this
  cases this

theorem JsNum.addInt_fin (x b : Int) (h : (x + b).natAbs ≤ 2 ^ 53) :
    (JsNum.fin x).addInt b = JsNum.fin (x + b) :=
  JsNum.ofInt_of_natAbs_le _ h

theorem JsNum.addInt_fin_safe (a : JsNum) (x b y : Int) (ha : a = JsNum.fin x)
    (h : a.addInt b = JsNum.fin y) (hy : y.natAbs < 2 ^ 53) : y = x + b := by
  subst ha
  exact JsNum.ofInt_fin_safe _ _ h hy

theorem JsNum.addInt_nonneg (a : JsNum) (b : Int) (ha : (0 : JsNum) ≤ a)
    (h : ∀ x, a = JsNum.fin x → 0 ≤ x + b) : (0 : JsNum) ≤ a.addInt b := by
  cases a with
  | fin x => exact JsNum.ofInt_nonneg _ (h x rfl)
  | posInf => rfl
  | negInf => cases ha

theorem JsNum.isSafe_iff (a : JsNum) :
    a.isSafe = true ↔ ∃ x : Int, a = JsNum.fin x ∧ x.natAbs < 2 ^ 53 := by
  cases a with
  | fin x => simp [JsNum.isSafe]
  | posInf => simp [JsNum.isSafe]
  | negInf => simp [JsNum.isSafe]

/-! ## Lemmas on the collection primitives -/

theorem findUser_saveUser_self (users : List User) (doc u : User) (uid : Int)
    (hdoc : doc.user_id = uid) (h : findUser users uid = some u) :
    findUser (saveUser users doc) uid = some doc := by
  subst hdoc
  induction users with
  | nil => simp [findUser] at h
  | cons a rest ih =>
    by_cases ha : a.user_id = doc.user_id
    · simp [saveUser, findUser, ha]
    · have h1 : findUser rest doc.user_id = some u := by
        simpa [findUser, List.find?_cons, ha] using h
      have := ih h1
      simpa [saveUser, findUser, List.find?_cons, ha] using this

theorem findUser_saveUser_ne (users : List User) (doc : User) (uid : Int)
    (h : uid ≠ doc.user_id) :
    findUser (saveUser users doc) uid = findUser users uid := by
  induction users with
  | nil => rfl
  | cons a rest ih =>
    by_cases ha : a.user_id = doc.user_id
    · have hne : ¬ doc.user_id = uid := fun e => h e.symm
      have hne2 : ¬ a.user_id = uid := fun e => h (by rw [← e, ha])
      simp [saveUser, findUser, List.find?_cons, ha, hne]
    · by_cases hb : a.user_id = uid
      · subst hb
        simp [saveUser, findUser, List.find?_cons, h]
      · simpa [saveUser, findUser, List.find?_cons, ha, hb] using ih

theorem findUser_user_id (users : List User) (uid : Int) (u : User)
    (h : findUser users uid = some u) : u.user_id = uid := by
  have := List.find?_some h
  simpa using this

theorem findUser_mem (users : List User) (uid : Int) (u : User)
    (h : findUser users uid = some u) : u ∈ users :=
  List.mem_of_find?_eq_some h

theorem findService_of_mem (svc : Service) (h : svc ∈ services) :
    findService svc.id = some svc := by
  simp only [services, List.mem_cons, List.mem_singleton, List.not_mem_nil, or_false] at h
  rcases h with h | h | h | h | h | h | h | h | h | h | h | h | h | h | h | h | h | h | h | h |
    h | h | h | h | h | h | h | h | h <;> (subst h; rfl)

theorem findService_mem (serviceId : Int) (svc : Service)
    (h : findService serviceId = some svc) : svc ∈ services ∧ svc.id = serviceId := by
  refine ⟨List.mem_of_find?_eq_some h, ?_⟩
  have := List.find?_some h
  simpa using this

theorem services_prices (svc : Service) (h : svc ∈ services) :
    (svc.id = 3123 ∧ svc.points = 0 ∧ svc.min = 0) ∨
    (svc.id ≠ 3123 ∧ 0 < svc.points ∧ 0 < svc.min) := by
  simp only [services, List.mem_cons, List.mem_singleton, List.not_mem_nil, or_false] at h
  rcases h with h | h | h | h | h | h | h | h | h | h | h | h | h | h | h | h | h | h | h | h |
    h | h | h | h | h | h | h | h | h <;> (subst h; decide)

/-- The total of an accepted quantity of a catalog service is not `-Infinity`: the
last branch of the `match` on the total in `orderCommit` and `orderTransaction`
is reached with `Infinity` only. -/
theorem orderTotal_ne_negInf (svc : Service) (quantity : Int) (hsvc : svc ∈ services)
    (hmin : svc.min ≤ quantity) : jsMul svc.points quantity ≠ JsNum.negInf := by
  apply JsNum.ofInt_ne_negInf
  rcases services_prices svc hsvc with ⟨_, hp, _⟩ | ⟨_, hp, hm⟩
  · rw [hp]
    simp
  · exact mul_nonneg (le_of_lt hp) (le_trans (le_of_lt hm) hmin)

/-! ## C1, C2: order placement -/

/-- C1 as stated fails above `2 ^ 53`: for service 3102 (3 points per unit),
quantity `9007199254740991` and balance `27021597764222976` the handler's total is
the double nearest to `3 * 9007199254740991 = 27021597764222973`, which is
`27021597764222972`; the order commits with that `total_points` and ledger
amount and leaves balance 4, not 3. -/
theorem order_total_is_rounded :
    ∃ s1 order rl1,
      orderCommit [] (dbOne 27021597764222976) (ctxOf 7)
        (OrderArgs.parsed 3102 9007199254740991) 42 = OrderOutcome.committed s1 order rl1 ∧
      (3 : Int) * 9007199254740991 = 27021597764222973 ∧
      order.total_points = 27021597764222972 ∧
      s1.transactions.map (fun t => t.amount) = [27021597764222972] ∧
      balanceOf s1 7 = 4 := by
  refine ⟨_, _, _, rfl, by decide, by decide, by decide, by decide⟩

/-- C1, amended. For an account of the sender with a balance `b` of at most
`2 ^ 53`, a catalog service `svc` and a quantity with `svc.min ≤ quantity` and
`svc.points * quantity ≤ b`, the transaction of `/order` (reached when the rate
limiter lets the request through, committed when the generated order id is free)
lowers the sender's balance by exactly `svc.points * quantity`, appends exactly
one Order with the sender's `user_id`, the service id, the quantity,
`total_points = svc.points * quantity` and status `pending`, writes one `debit`
ledger entry of that amount, and leaves every other account as it was. -/
theorem order_commit_debits_and_creates_order (rl : RateMap) (s : Db) (ctx : Ctx)
    (svc : Service) (quantity : Int) (rand : Nat) (user : User) (b : Int)
    (hlim : (isRateLimitedUser rl ctx.now ctx.fromId 1).1 = false)
    (hsvc : svc ∈ services)
    (hmin : svc.min ≤ quantity)
    (huser : findUser s.users ctx.fromId = some user)
    (hfin : user.balance = JsNum.fin b)
    (hsafe : b ≤ 2 ^ 53)
    (hbal : svc.points * quantity ≤ b)
    (hfresh : ∀ o ∈ s.orders, o.order_id ≠ mkOrderId ctx.now rand) :
    ∃ s1 order rl1,
      orderCommit rl s ctx (OrderArgs.parsed svc.id quantity) rand
        = OrderOutcome.committed s1 order rl1 ∧
      balanceOf s1 ctx.fromId = JsNum.fin (b - svc.points * quantity) ∧
      balanceOf s ctx.fromId = JsNum.fin b ∧
      s1.orders = s.orders ++ [order] ∧
      order.user_id = ctx.fromId ∧ order.service_id = svc.id ∧ order.quantity = quantity ∧
      order.total_points = svc.points * quantity ∧ order.status = OrderStatus.pending ∧
      (∃ t, s1.transactions = s.transactions ++ [t] ∧ t.user_id = ctx.fromId ∧
        t.type = TxType.debit ∧ t.amount = svc.points * quantity) ∧
      (∀ uid, uid ≠ ctx.fromId → findUser s1.users uid = findUser s.users uid) ∧
      (∀ uid, uid ≠ ctx.fromId → balanceOf s1 uid = balanceOf s uid) := by
  have hid : user.user_id = ctx.fromId := findUser_user_id _ _ _ huser
  have hfs := findService_of_mem svc hsvc
  have hany : (s.orders.any fun o => o.order_id == mkOrderId ctx.now rand) = false := by
    rw [List.any_eq_false]
    intro o ho
    simpa using hfresh o ho
  have hq : ¬ quantity < svc.min := not_lt.mpr hmin
  have hnn : 0 ≤ svc.points * quantity := by
    rcases services_prices svc hsvc with ⟨_, hp, _⟩ | ⟨_, hp, hm⟩
    · rw [hp]; simp
    · exact mul_nonneg (le_of_lt hp) (le_trans (le_of_lt hm) hmin)
  have h53 : (2 : Int) ^ 53 = 9007199254740992 := by norm_num
  have h53n : (2 : Nat) ^ 53 = 9007199254740992 := by norm_num
  have htot : jsMul svc.points quantity = JsNum.fin (svc.points * quantity) :=
    JsNum.ofInt_of_natAbs_le _ (by omega)
  have hsub : user.balance.addInt (-(svc.points * quantity))
      = JsNum.fin (b - svc.points * quantity) := by
    rw [hfin]
    have := JsNum.addInt_fin b (-(svc.points * quantity)) (by omega)
    rw [this]
    congr 1
  have hb : ¬ user.balance < jsMul svc.points quantity := by
    rw [htot, hfin, JsNum.fin_lt_fin]
    exact not_lt.mpr hbal
  rcases hrl : isRateLimitedUser rl ctx.now ctx.fromId 1 with ⟨lim, rl1⟩
  rw [hrl] at hlim
  simp only at hlim
  subst hlim
  have hfind := findUser_saveUser_self s.users
    { user with balance := user.balance.addInt (-(svc.points * quantity)) } user ctx.fromId
    hid huser
  have hcommit : orderCommit rl s ctx (OrderArgs.parsed svc.id quantity) rand
      = OrderOutcome.committed
          { s with
            users := saveUser s.users
              { user with balance := user.balance.addInt (-(svc.points * quantity)) }
            transactions := s.transactions ++
              [{ user_id := user.user_id, amount := svc.points * quantity, type := TxType.debit,
                 service_id := some svc.id,
                 details := "Order " ++ toString svc.id ++ " x " ++ toString quantity,
                 timestamp := ctx.now }]
            orders := s.orders ++
              [{ order_id := mkOrderId ctx.now rand, user_id := user.user_id,
                 service_id := svc.id, quantity := quantity,
                 total_points := svc.points * quantity, status := OrderStatus.pending,
                 timestamp := ctx.now }] }
          { order_id := mkOrderId ctx.now rand, user_id := user.user_id,
            service_id := svc.id, quantity := quantity,
            total_points := svc.points * quantity, status := OrderStatus.pending,
            timestamp := ctx.now } rl1 := by
    simp only [orderCommit, hrl, hfs, huser, hq, hb, if_false]
    rw [htot]
    simp only [hany, Bool.false_eq_true, if_false]
  refine ⟨_, _, _, hcommit, ?_, ?_, rfl, hid, rfl, rfl, rfl, rfl, ⟨_, rfl, hid, rfl, rfl⟩, ?_, ?_⟩
  · simp only [balanceOf, hfind]
    exact hsub
  · simp only [balanceOf, huser, hfin]
  · intro uid huid
    exact findUser_saveUser_ne _ _ _ (by simpa [hid] using huid)
  · intro uid huid
    have := findUser_saveUser_ne s.users
      { user with balance := user.balance.addInt (-(svc.points * quantity)) } uid
      (by simpa [hid] using huid)
    simp only [balanceOf, this]

/-- Witness for C1: service 3036 (2 points, minimum 12), quantity 12, balance 24:
the commit debits 24, leaves balance 0 and creates one pending Order of 24 points. -/
theorem order_commit_witness :
    ∃ s1 order rl1,
      orderCommit [] (dbOne 24) (ctxOf 7) (OrderArgs.parsed 3036 12) 42
        = OrderOutcome.committed s1 order rl1 ∧
      balanceOf s1 7 = 0 ∧ s1.orders = [order] ∧ order.total_points = 24 ∧
      order.status = OrderStatus.pending := by
  obtain ⟨s1, order, rl1, h, hb, _, ho, _, _, _, ht, hs, _⟩ :=
    order_commit_debits_and_creates_order [] (dbOne 24) (ctxOf 7) svc3036 12 42 (acct 7 24) 24
      (by decide) (by simp [services, svc3036]) (by decide) (by decide) rfl (by norm_num)
      (by decide) (by simp [dbOne])
  exact ⟨s1, order, rl1, h, by simpa [ctxOf, svc3036] using hb,
    by simpa [dbOne] using ho, by simpa [svc3036] using ht, hs⟩

/-- C2 as stated fails above `2 ^ 53`: for service 3102, quantity
`9007199254740991` and balance `27021597764222972` the balance is below
`points * quantity = 27021597764222973`, yet the handler does not answer
`Insufficient balance.`: the total it compares with is the double
`27021597764222972`, and the order commits, leaving balance 0. -/
theorem order_check_uses_rounded_total :
    (27021597764222972 : Int) < 3 * 9007199254740991 ∧
    (orderHandler [] (dbOne 27021597764222972) (ctxOf 7)
        (OrderArgs.parsed 3102 9007199254740991) 42 SupplierResult.error).1
      ≠ "Insufficient balance." ∧
    (orderHandler [] (dbOne 27021597764222972) (ctxOf 7)
        (OrderArgs.parsed 3102 9007199254740991) 42 SupplierResult.error).2.1.orders.map
        (fun o => o.total_points) = [27021597764222972] ∧
    balanceOf (orderHandler [] (dbOne 27021597764222972) (ctxOf 7)
        (OrderArgs.parsed 3102 9007199254740991) 42 SupplierResult.error).2.1 7 = 0 := by
  refine ⟨by decide, by decide, by decide, by decide⟩

/-- C2, amended. Validation order of `/order` for a request the rate limiter lets
through: an unknown service id is answered `Service not found.`; a known service
with `quantity < min` is answered `Minimum order for this service is <min>.`; a
known service with `quantity ≥ min` and balance below the total, the product
`points * quantity` as the handler computes it (`jsMul`: the exact product when
that is at most `2 ^ 53` in magnitude), is answered `Insufficient balance.`. In
each of the three cases the handler returns the database it was given (no
Transaction, no Order, no balance change), whether or not the rate limiter let
the request through. -/
theorem order_validation_short_circuits (rl : RateMap) (s : Db) (ctx : Ctx)
    (serviceId quantity : Int) (rand : Nat) (r : SupplierResult) :
    ((isRateLimitedUser rl ctx.now ctx.fromId 1).1 = false →
      (findService serviceId = none →
        (orderHandler rl s ctx (OrderArgs.parsed serviceId quantity) rand r).1
          = "Service not found.") ∧
      (∀ svc, findService serviceId = some svc → quantity < svc.min →
        (orderHandler rl s ctx (OrderArgs.parsed serviceId quantity) rand r).1
          = "Minimum order for this service is " ++ toString svc.min ++ ".") ∧
      (∀ svc user, findService serviceId = some svc → ¬ quantity < svc.min →
        findUser s.users ctx.fromId = some user → user.balance < jsMul svc.points quantity →
        (orderHandler rl s ctx (OrderArgs.parsed serviceId quantity) rand r).1
          = "Insufficient balance.")) ∧
    ((findService serviceId = none ∨
      (∃ svc, findService serviceId = some svc ∧
        (quantity < svc.min ∨
          ∃ user, findUser s.users ctx.fromId = some user ∧
            user.balance < jsMul svc.points quantity))) →
      (orderHandler rl s ctx (OrderArgs.parsed serviceId quantity) rand r).2.1 = s) ∧
    (∀ points : Int, (points * quantity).natAbs ≤ 2 ^ 53 →
      jsMul points quantity = JsNum.fin (points * quantity)) := by
  rcases hrl : isRateLimitedUser rl ctx.now ctx.fromId 1 with ⟨b, rl1⟩
  refine ⟨?_, ?_, fun points h => JsNum.ofInt_of_natAbs_le _ h⟩
  · intro hb
    simp only at hb
    subst hb
    refine ⟨?_, ?_, ?_⟩
    · intro h
      simp [orderHandler, orderCommit, hrl, h]
    · intro svc h hq
      simp [orderHandler, orderCommit, hrl, h, hq]
    · intro svc user h hq hu hbal
      simp [orderHandler, orderCommit, hrl, h, hq, hu, hbal]
  · intro h
    cases b with
    | true => simp [orderHandler, orderCommit, hrl]
    | false =>
      rcases h with h | ⟨svc, h, hq | ⟨user, hu, hbal⟩⟩
      · simp [orderHandler, orderCommit, hrl, h]
      · simp [orderHandler, orderCommit, hrl, h, hq]
      · by_cases hq : quantity < svc.min
        · simp [orderHandler, orderCommit, hrl, h, hq]
        · simp [orderHandler, orderCommit, hrl, h, hq, hu, hbal]

/-- Witness for C2: service 3036, quantity 12, balance 20 is answered
`Insufficient balance.`, quantity 11 is answered with the minimum, and an unknown
service id with `Service not found.`; each time the database is returned as given. -/
theorem order_validation_witness :
    (orderHandler [] (dbOne 20) (ctxOf 7) (OrderArgs.parsed 3036 12) 42 SupplierResult.error).1
        = "Insufficient balance." ∧
    (orderHandler [] (dbOne 20) (ctxOf 7) (OrderArgs.parsed 3036 12) 42 SupplierResult.error).2.1
        = dbOne 20 ∧
    (orderHandler [] (dbOne 20) (ctxOf 7) (OrderArgs.parsed 3036 11) 42 SupplierResult.error).1
        = "Minimum order for this service is 12." ∧
    (orderHandler [] (dbOne 20) (ctxOf 7) (OrderArgs.parsed 3036 11) 42 SupplierResult.error).2.1
        = dbOne 20 ∧
    (orderHandler [] (dbOne 20) (ctxOf 7) (OrderArgs.parsed 1 12) 42 SupplierResult.error).1
        = "Service not found." := by
  have h12 := order_validation_short_circuits [] (dbOne 20) (ctxOf 7) 3036 12 42
    SupplierResult.error
  have h11 := order_validation_short_circuits [] (dbOne 20) (ctxOf 7) 3036 11 42
    SupplierResult.error
  have h1 := order_validation_short_circuits [] (dbOne 20) (ctxOf 7) 1 12 42
    SupplierResult.error
  have hs : findService 3036 = some svc3036 := by decide
  refine ⟨?_, ?_, ?_, ?_, ?_⟩
  · exact (h12.1 (by decide)).2.2 svc3036 (acct 7 20) hs (by decide) (by decide) (by decide)
  · exact h12.2.1 (Or.inr ⟨svc3036, hs, Or.inr ⟨acct 7 20, by decide, by decide⟩⟩)
  · have := (h11.1 (by decide)).2.1 svc3036 hs (by decide)
    simpa [svc3036] using this
  · exact h11.2.1 (Or.inr ⟨svc3036, hs, Or.inl (by decide)⟩)
  · exact (h1.1 (by decide)).1 (by decide)

/-! ## Effects of transitions on accounts and ledger -/

theorem saveUser_ids (users : List User) (doc : User) :
    (saveUser users doc).map (fun u => u.user_id) = users.map (fun u => u.user_id) := by
  induction users with
  | nil => rfl
  | cons a rest ih =>
    by_cases ha : a.user_id = doc.user_id
    · simp [saveUser, ha]
    · simp [saveUser, ha, ih]

theorem updateOneUser_ids (users : List User) (uid : Int) (f : User → User)
    (hf : ∀ u : User, (f u).user_id = u.user_id) :
    (updateOneUser users uid f).map (fun u => u.user_id) = users.map (fun u => u.user_id) := by
  induction users with
  | nil => rfl
  | cons a rest ih =>
    by_cases ha : a.user_id = uid
    · simp [updateOneUser, ha, hf]
    · simp [updateOneUser, ha, ih]

theorem mem_saveUser (users : List User) (doc x : User)
    (hnd : (users.map (fun u => u.user_id)).Nodup) (hx : x ∈ saveUser users doc) :
    x = doc ∨ (x ∈ users ∧ x.user_id ≠ doc.user_id) := by
  induction users with
  | nil => simp [saveUser] at hx
  | cons a rest ih =>
    have hnd1 : (rest.map (fun u => u.user_id)).Nodup := (List.nodup_cons.mp hnd).2
    have hnot : a.user_id ∉ rest.map (fun u => u.user_id) := (List.nodup_cons.mp hnd).1
    by_cases ha : a.user_id = doc.user_id
    · simp only [saveUser, ha, beq_self_eq_true, if_true, List.mem_cons] at hx
      rcases hx with hx | hx
      · exact Or.inl hx
      · refine Or.inr ⟨List.mem_cons_of_mem _ hx, fun e => hnot ?_⟩
        rw [ha, ← e]
        exact List.mem_map_of_mem _ hx
    · have hb : (a.user_id == doc.user_id) = false := by simpa using ha
      simp only [saveUser, hb, Bool.false_eq_true, if_false, List.mem_cons] at hx
      rcases hx with hx | hx
      · subst hx
        exact Or.inr ⟨List.mem_cons_self _ _, ha⟩
      · rcases ih hnd1 hx with h | ⟨h1, h2⟩
        · exact Or.inl h
        · exact Or.inr ⟨List.mem_cons_of_mem _ h1, h2⟩

theorem mem_updateOneUser (users : List User) (uid : Int) (f : User → User) (x : User)
    (hx : x ∈ updateOneUser users uid f) : x ∈ users ∨ ∃ u ∈ users, x = f u := by
  induction users with
  | nil => simp [updateOneUser] at hx
  | cons a rest ih =>
    by_cases ha : a.user_id = uid
    · simp only [updateOneUser, ha, beq_self_eq_true, if_true, List.mem_cons] at hx
      rcases hx with hx | hx
      · exact Or.inr ⟨a, List.mem_cons_self _ _, hx⟩
      · exact Or.inl (List.mem_cons_of_mem _ hx)
    · have hb : (a.user_id == uid) = false := by simpa using ha
      simp only [updateOneUser, hb, Bool.false_eq_true, if_false, List.mem_cons] at hx
      rcases hx with hx | hx
      · exact Or.inl (hx ▸ List.mem_cons_self _ _)
      · rcases ih hx with h | ⟨u, hu, h⟩
        · exact Or.inl (List.mem_cons_of_mem _ h)
        · exact Or.inr ⟨u, List.mem_cons_of_mem _ hu, h⟩

theorem ledgerSum_append (txs : List Transaction) (t : Transaction) (uid : Int) :
    ledgerSum (txs ++ [t]) uid
      = ledgerSum txs uid + (if t.user_id = uid then signedAmount t else 0) := by
  by_cases h : t.user_id = uid
  · simp [ledgerSum, List.filter_append, List.filter_cons, h]
  · simp [ledgerSum, List.filter_append, List.filter_cons, h]

theorem ledgerSum_of_no_entry (txs : List Transaction) (uid : Int)
    (h : ∀ t ∈ txs, t.user_id ≠ uid) : ledgerSum txs uid = 0 := by
  have : txs.filter (fun t => t.user_id == uid) = [] := by
    rw [List.filter_eq_nil_iff]
    intro t ht
    simpa using h t ht
  simp [ledgerSum, this]

theorem findUser_none_iff (users : List User) (uid : Int) :
    findUser users uid = none ↔ uid ∉ users.map (fun u => u.user_id) := by
  simp only [findUser, List.find?_eq_none, List.mem_map, not_exists, not_and]
  constructor
  · intro h u hu e
    exact (by simpa using h u hu : ¬ u.user_id = uid) e
  · intro h u hu
    simpa using h u hu

theorem reconciled_posting (s s1 : Db) (t : Transaction)
    (hinv : Reconciled s.users s.transactions) (hp : Posting s s1 t)
    (hsafe : ∀ u ∈ s1.users, u.balance.isSafe = true) :
    Reconciled s1.users s1.transactions := by
  obtain ⟨u, doc, hfind, hid, hbal, hus, htx⟩ := hp
  obtain ⟨hnd, hsum, hown⟩ := hinv
  have hu_mem := findUser_mem _ _ _ hfind
  have hu_id := findUser_user_id _ _ _ hfind
  rw [hus] at hsafe
  rw [hus, htx]
  refine ⟨?_, ?_, ?_⟩
  · rw [saveUser_ids]
    exact hnd
  · intro x hx
    rw [ledgerSum_append]
    rcases mem_saveUser _ _ _ hnd hx with h | ⟨h1, h2⟩
    · subst h
      obtain ⟨y, hy, hy53⟩ := (JsNum.isSafe_iff _).mp (hsafe x hx)
      have hexact := JsNum.addInt_fin_safe u.balance _ (signedAmount t) y (hsum u hu_mem)
        (hbal ▸ hy) hy53
      rw [hy, hexact, hu_id, hid]
      simp
    · have hne : ¬ t.user_id = x.user_id := fun e => h2 (by rw [hid, e])
      rw [if_neg hne, hsum x h1]
      simp
  · intro x hx
    rw [saveUser_ids]
    rcases List.mem_append.mp hx with h | h
    · exact hown x h
    · have hx_eq : x = t := by simpa using h
      subst hx_eq
      rw [← hu_id]
      exact List.mem_map_of_mem _ hu_mem

theorem reconciled_neutral (s s1 : Db)
    (hinv : Reconciled s.users s.transactions) (hn : Neutral s s1) :
    Reconciled s1.users s1.transactions := by
  obtain ⟨htx, hus⟩ := hn
  obtain ⟨hnd, hsum, hown⟩ := hinv
  rw [htx]
  rcases hus with h | ⟨uid, f, hf, h⟩ | ⟨nu, hnone, hzero, h⟩
  · rw [h]
    exact ⟨hnd, hsum, hown⟩
  · rw [h]
    have hids := updateOneUser_ids s.users uid f (fun u => (hf u).1)
    refine ⟨by rw [hids]; exact hnd, ?_, by rw [hids]; exact hown⟩
    intro x hx
    rcases mem_updateOneUser _ _ _ _ hx with hx1 | ⟨u, hu, hx1⟩
    · exact hsum x hx1
    · rw [hx1, (hf u).1, (hf u).2]
      exact hsum u hu
  · rw [h]
    have hfresh := (findUser_none_iff _ _).mp hnone
    refine ⟨?_, ?_, ?_⟩
    · rw [List.map_append, List.nodup_append]
      refine ⟨hnd, by simp, ?_⟩
      intro a ha hb
      have : a = nu.user_id := by simpa using hb
      exact hfresh (this ▸ ha)
    · intro x hx
      rcases List.mem_append.mp hx with hx1 | hx1
      · exact hsum x hx1
      · have hx_eq : x = nu := by simpa using hx1
        subst hx_eq
        rw [hzero, ledgerSum_of_no_entry s.transactions x.user_id
          (fun t ht e => hfresh (e ▸ hown t ht))]
        rfl
    · intro t ht
      rw [List.map_append]
      exact List.mem_append_left _ (hown t ht)

theorem neutral_refl (s s1 : Db) (hu : s1.users = s.users)
    (ht : s1.transactions = s.transactions) : Neutral s s1 :=
  ⟨ht, Or.inl hu⟩

theorem middleware_neutral (s : Db) (ctx : Ctx) : Neutral s (middleware s ctx).1 := by
  unfold middleware
  split
  · split <;> exact neutral_refl _ _ rfl rfl
  · next h => exact ⟨rfl, Or.inr (Or.inr ⟨_, h, rfl, rfl⟩)⟩

theorem startHandler_effect (s : Db) (ctx : Ctx) (payload : StartPayload) :
    Neutral s (startHandler s ctx payload) ∨
    ∃ t, Posting s (startHandler s ctx payload) t ∧ t.type = TxType.referral ∧
      t.amount = 20 ∧ t.details = "Referral of " ++ toString ctx.fromId := by
  unfold startHandler
  split
  · exact Or.inl (neutral_refl _ _ rfl rfl)
  · dsimp only
    split
    · split
      · split
        · next refId _ refUser hf =>
          refine Or.inr ⟨_, ⟨refUser, _, ?_, ?_, ?_, rfl, rfl⟩, rfl, rfl, rfl⟩
          · exact hf
          · exact findUser_user_id _ _ refUser hf
          · simp [signedAmount]
        · exact Or.inl (neutral_refl _ _ rfl rfl)
      · exact Or.inl (neutral_refl _ _ rfl rfl)
    · exact Or.inl (neutral_refl _ _ rfl rfl)

theorem taskHandler_effect (s : Db) (ctx : Ctx) (taskId : Option String) :
    Neutral s (taskHandler s ctx taskId).2 ∨
    ∃ t task, Posting s (taskHandler s ctx taskId).2 t ∧ t.type = TxType.task ∧
      task ∈ s.tasks ∧ t.amount = task.points ∧ t.user_id = ctx.fromId := by
  unfold taskHandler
  split
  · exact Or.inl (neutral_refl _ _ rfl rfl)
  · split
    · exact Or.inl (neutral_refl _ _ rfl rfl)
    · next task hfind =>
      split
      · exact Or.inl (neutral_refl _ _ rfl rfl)
      · split
        · exact Or.inl (neutral_refl _ _ rfl rfl)
        · split
          · exact Or.inl (neutral_refl _ _ rfl rfl)
          · next user hf =>
            dsimp only
            refine Or.inr ⟨_, task, ⟨user, _, ?_, ?_, ?_, rfl, rfl⟩, rfl,
              List.mem_of_find?_eq_some hfind, rfl, rfl⟩
            · exact hf
            · exact findUser_user_id _ _ user hf
            · simp [signedAmount]

theorem orderCommit_effect (rl : RateMap) (s : Db) (ctx : Ctx) (args : OrderArgs) (rand : Nat) :
    (∃ msg rl1, orderCommit rl s ctx args rand = OrderOutcome.reply msg rl1) ∨
    ∃ s1 order rl1 t svc quantity,
      orderCommit rl s ctx args rand = OrderOutcome.committed s1 order rl1 ∧
      Posting s s1 t ∧ t.type = TxType.debit ∧ t.user_id = ctx.fromId ∧
      args = OrderArgs.parsed svc.id quantity ∧ svc ∈ services ∧ svc.min ≤ quantity ∧
      jsMul svc.points quantity = JsNum.fin t.amount ∧
      JsNum.fin t.amount ≤ balanceOf s ctx.fromId ∧
      s1.orders = s.orders ++ [order] ∧ order.order_id = mkOrderId ctx.now rand ∧
      (∀ o ∈ s.orders, o.order_id ≠ order.order_id) ∧
      s1.referrals = s.referrals ∧ s1.adminLogs = s.adminLogs ∧ s1.tasks = s.tasks := by
  unfold orderCommit
  split
  · exact Or.inl ⟨_, _, rfl⟩
  · split
    · exact Or.inl ⟨_, _, rfl⟩
    · next serviceId quantity =>
      split
      · exact Or.inl ⟨_, _, rfl⟩
      · next svc hsvc =>
        obtain ⟨hmem, hsid⟩ := findService_mem _ _ hsvc
        split
        · exact Or.inl ⟨_, _, rfl⟩
        · next hq =>
          split
          · exact Or.inl ⟨_, _, rfl⟩
          · next user hf =>
            have hid := findUser_user_id _ _ _ hf
            dsimp only
            split
            · exact Or.inl ⟨_, _, rfl⟩
            · next hb =>
              split
              · next t ht =>
                split
                · exact Or.inl ⟨_, _, rfl⟩
                · next hany =>
                  refine Or.inr ⟨_, _, _, _, svc, quantity, rfl,
                    ⟨user, _, ?_, ?_, ?_, rfl, rfl⟩, rfl, hid, by rw [hsid],
                    hmem, not_lt.mp hq, ht, ?_, rfl, rfl, ?_, rfl, rfl, rfl⟩
                  · simpa [hid] using hf
                  · rfl
                  · simp [signedAmount]
                  · simp only [balanceOf, hf]
                    rw [← ht]
                    exact (JsNum.not_lt_iff _ _).mp hb
                  · intro o ho
                    have := hany
                    simp only [List.any_eq_true, not_exists, not_and] at this
                    simpa using this o ho
              · exact Or.inl ⟨_, _, rfl⟩

theorem orderSupplier_frame (s : Db) (order : Order) (r : SupplierResult) :
    (orderSupplier s order r).2.users = s.users ∧
    (orderSupplier s order r).2.transactions = s.transactions ∧
    (orderSupplier s order r).2.referrals = s.referrals ∧
    (orderSupplier s order r).2.adminLogs = s.adminLogs ∧
    (orderSupplier s order r).2.tasks = s.tasks := by
  have hc : ∀ (s0 : Db) (doc : Order) (f : Faults),
      (supplierCatch s0 doc f).2.users = s0.users ∧
      (supplierCatch s0 doc f).2.transactions = s0.transactions ∧
      (supplierCatch s0 doc f).2.referrals = s0.referrals ∧
      (supplierCatch s0 doc f).2.adminLogs = s0.adminLogs ∧
      (supplierCatch s0 doc f).2.tasks = s0.tasks := by
    intro s0 doc f
    unfold supplierCatch
    dsimp only
    split
    · exact ⟨rfl, rfl, rfl, rfl, rfl⟩
    · split <;> exact ⟨rfl, rfl, rfl, rfl, rfl⟩
  have hp : ∀ (a : Option ApiRes) (f : Faults),
      (supplierPhase s order a f).2.users = s.users ∧
      (supplierPhase s order a f).2.transactions = s.transactions ∧
      (supplierPhase s order a f).2.referrals = s.referrals ∧
      (supplierPhase s order a f).2.adminLogs = s.adminLogs ∧
      (supplierPhase s order a f).2.tasks = s.tasks := by
    intro a f
    unfold supplierPhase
    split
    · exact hc _ _ _
    · split
      · exact ⟨rfl, rfl, rfl, rfl, rfl⟩
      · dsimp only
        split
        · exact hc _ _ _
        · split
          · exact hc _ _ _
          · exact ⟨rfl, rfl, rfl, rfl, rfl⟩
  cases r <;> exact hp _ _

theorem posting_congr (s s1 s2 : Db) (t : Transaction) (h : Posting s s1 t)
    (hu : s2.users = s1.users) (ht : s2.transactions = s1.transactions) : Posting s s2 t := by
  obtain ⟨u, doc, h1, h2, h3, h4, h5⟩ := h
  exact ⟨u, doc, h1, h2, h3, hu.trans h4, ht.trans h5⟩

theorem orderHandler_effect (rl : RateMap) (s : Db) (ctx : Ctx) (args : OrderArgs) (rand : Nat)
    (r : SupplierResult) :
    Neutral s (orderHandler rl s ctx args rand r).2.1 ∨
    ∃ t svc quantity, Posting s (orderHandler rl s ctx args rand r).2.1 t ∧
      t.type = TxType.debit ∧ t.user_id = ctx.fromId ∧
      args = OrderArgs.parsed svc.id quantity ∧ svc ∈ services ∧ svc.min ≤ quantity ∧
      jsMul svc.points quantity = JsNum.fin t.amount ∧
      JsNum.fin t.amount ≤ balanceOf s ctx.fromId := by
  rcases orderCommit_effect rl s ctx args rand with ⟨msg, rl1, h⟩ |
    ⟨s1, order, rl1, t, svc, q, h, hp, h1, h2, h3, h4, h5, h6, h7, _⟩
  · left
    simp only [orderHandler, h]
    exact neutral_refl _ _ rfl rfl
  · right
    refine ⟨t, svc, q, ?_, h1, h2, h3, h4, h5, h6, h7⟩
    have hf := orderSupplier_frame s1 order r
    simp only [orderHandler, h]
    exact posting_congr s s1 _ t hp hf.1 hf.2.1

theorem addpointsHandler_effect (A : List Int) (s : Db) (ctx : Ctx) (args : AddPointsArgs) :
    Neutral s (addpointsHandler A s ctx args).2 ∨
    ∃ t uid0 amt, Posting s (addpointsHandler A s ctx args).2 t ∧ t.type = TxType.admin ∧
      args = AddPointsArgs.parsed uid0 (some amt) ∧ amt ≠ 0 ∧ t.amount = amt ∧
      uid0 = some t.user_id := by
  unfold addpointsHandler
  split
  · exact Or.inl (neutral_refl _ _ rfl rfl)
  · split
    · exact Or.inl (neutral_refl _ _ rfl rfl)
    · next uid0 amt0 =>
      split
      · next uid amt hu ha =>
        have hamt : amt0 = some amt ∧ amt ≠ 0 := by
          cases amt0 with
          | none => simp [truthyNum] at ha
          | some a =>
            by_cases h0 : a = 0
            · simp [truthyNum, h0] at ha
            · simp only [truthyNum, beq_iff_eq, h0, if_false, Option.some.injEq] at ha
              exact ⟨by rw [ha], ha ▸ h0⟩
        have huid : uid0 = some uid := by
          cases uid0 with
          | none => simp [truthyNum] at hu
          | some a =>
            by_cases h0 : a = 0
            · simp [truthyNum, h0] at hu
            · simp only [truthyNum, beq_iff_eq, h0, if_false, Option.some.injEq] at hu
              rw [hu]
        split
        · exact Or.inl (neutral_refl _ _ rfl rfl)
        · next user hf =>
          dsimp only
          refine Or.inr ⟨_, uid0, amt, ⟨user, _, ?_, ?_, ?_, rfl, rfl⟩, rfl, ?_, hamt.2, rfl, huid⟩
          · exact hf
          · exact findUser_user_id _ _ user hf
          · simp [signedAmount]
          · rw [hamt.1]
      · exact Or.inl (neutral_refl _ _ rfl rfl)

theorem banHandler_neutral (A : List Int) (s : Db) (ctx : Ctx) (args : BanArgs) :
    Neutral s (banHandler A s ctx args).2 := by
  unfold banHandler
  split
  · exact neutral_refl _ _ rfl rfl
  · split
    · exact neutral_refl _ _ rfl rfl
    · split
      · exact neutral_refl _ _ rfl rfl
      · next uid _ =>
        refine ⟨rfl, Or.inr (Or.inl ⟨uid, _, ?_, rfl⟩)⟩
        exact fun u => ⟨rfl, rfl⟩

theorem addtaskHandler_neutral (A : List Int) (s : Db) (ctx : Ctx) (args : AddTaskArgs)
    (newId : String) : Neutral s (addtaskHandler A s ctx args newId).2 := by
  unfold addtaskHandler
  split
  · exact neutral_refl _ _ rfl rfl
  · split <;> exact neutral_refl _ _ rfl rfl

theorem broadcastHandler_neutral (A : List Int) (s : Db) (ctx : Ctx) (msg : String)
    (sent : Nat) : Neutral s (broadcastHandler A s ctx msg sent).2 := by
  unfold broadcastHandler
  split
  · exact neutral_refl _ _ rfl rfl
  · split <;> exact neutral_refl _ _ rfl rfl

theorem verify_neutral (s : Db) (uid0 : Option Int) (ip : Option String) (device : String)
    (now : Nat) : Neutral s (verify s uid0 ip device now).2.2 := by
  unfold verify
  split
  · exact neutral_refl _ _ rfl rfl
  · next uid _ =>
    split
    · refine ⟨rfl, Or.inr (Or.inl ⟨uid, _, ?_, rfl⟩)⟩
      exact fun u => ⟨rfl, rfl⟩
    · refine ⟨rfl, Or.inr (Or.inl ⟨uid, _, ?_, rfl⟩)⟩
      exact fun u => ⟨rfl, rfl⟩

theorem middleware_tasks (s : Db) (ctx : Ctx) : (middleware s ctx).1.tasks = s.tasks := by
  unfold middleware
  split
  · split <;> rfl
  · rfl

/-- Every operation is the middleware's ledger-neutral transition followed by a
transition that is ledger-neutral or posts the one entry its handler writes. -/
theorem step_effect (A : List Int) (w : World) (op : Op) :
    ∃ s1, Neutral w.db s1 ∧ s1.tasks = w.db.tasks ∧
      (Neutral s1 (step A w op).db ∨
        ∃ t, Posting s1 (step A w op).db t ∧ EntryOf s1 t op) := by
  have hmid : ∀ (ctx : Ctx) (h : Db → World),
      (∀ s1, Neutral s1 (h s1).db ∨ ∃ t, Posting s1 (h s1).db t ∧ EntryOf s1 t op) →
      ∃ s1, Neutral w.db s1 ∧ s1.tasks = w.db.tasks ∧
        (Neutral s1 (viaMiddleware w ctx h).db ∨
          ∃ t, Posting s1 (viaMiddleware w ctx h).db t ∧ EntryOf s1 t op) := by
    intro ctx h hh
    have hm := middleware_neutral w.db ctx
    have ht := middleware_tasks w.db ctx
    unfold viaMiddleware
    rcases hmw : middleware w.db ctx with ⟨s1, b⟩
    rw [hmw] at hm ht
    refine ⟨s1, hm, ht, ?_⟩
    cases b with
    | true => exact hh s1
    | false => exact Or.inl (neutral_refl _ _ rfl rfl)
  cases op with
  | start ctx payload =>
    refine hmid ctx _ (fun s1 => ?_)
    rcases startHandler_effect s1 ctx payload with h | ⟨t, h, h1, h2, h3⟩
    · exact Or.inl h
    · exact Or.inr ⟨t, h, h1, h2, h3⟩
  | taskClaim ctx taskId =>
    refine hmid ctx _ (fun s1 => ?_)
    rcases taskHandler_effect s1 ctx taskId with h | ⟨t, task, h, h1, h2, h3, h4⟩
    · exact Or.inl h
    · exact Or.inr ⟨t, h, h1, h4, task, h2, h3⟩
  | order ctx args rand r =>
    refine hmid ctx _ (fun s1 => ?_)
    rcases orderHandler_effect w.userTimestamps s1 ctx args rand r with
      h | ⟨t, svc, q, h, h1, h2, h3, h4, h5, h6, h7⟩
    · exact Or.inl h
    · exact Or.inr ⟨t, h, h1, h2, svc, q, h3, h4, h5, h6, h7⟩
  | addpoints ctx args =>
    refine hmid ctx _ (fun s1 => ?_)
    rcases addpointsHandler_effect A s1 ctx args with h | ⟨t, uid0, amt, h, h1, h2, h3, h4, _⟩
    · exact Or.inl h
    · exact Or.inr ⟨t, h, h1, uid0, amt, h2, h3, h4⟩
  | ban ctx args => exact hmid ctx _ (fun s1 => Or.inl (banHandler_neutral A s1 ctx args))
  | addtask ctx args newId =>
    exact hmid ctx _ (fun s1 => Or.inl (addtaskHandler_neutral A s1 ctx args newId))
  | broadcast ctx msg sent =>
    exact hmid ctx _ (fun s1 => Or.inl (broadcastHandler_neutral A s1 ctx msg sent))
  | query ctx => exact hmid ctx _ (fun s1 => Or.inl (neutral_refl _ _ rfl rfl))
  | verify uid0 ip device now =>
    exact ⟨w.db, neutral_refl _ _ rfl rfl, rfl,
      Or.inl (verify_neutral w.db uid0 ip device now)⟩

theorem step_reconciled (A : List Int) (w : World) (op : Op)
    (h : Reconciled w.db.users w.db.transactions)
    (hsafe : ∀ u ∈ (step A w op).db.users, u.balance.isSafe = true) :
    Reconciled (step A w op).db.users (step A w op).db.transactions := by
  obtain ⟨s1, hn, _, he⟩ := step_effect A w op
  have h1 := reconciled_neutral _ _ h hn
  rcases he with he | ⟨t, he, _⟩
  · exact reconciled_neutral _ _ h1 he
  · exact reconciled_posting _ _ t h1 he hsafe

theorem run_reconciled (A : List Int) (ops : List Op) (w : World)
    (h : Reconciled w.db.users w.db.transactions) (hsafe : SafeRun A w ops) :
    Reconciled (run A w ops).db.users (run A w ops).db.transactions := by
  induction ops generalizing w with
  | nil => exact h
  | cons op rest ih => exact ih (step A w op) (step_reconciled A w op h hsafe.1) hsafe.2

theorem findUser_updateOneUser_balance (users : List User) (uid : Int) (f : User → User)
    (hf : ∀ u : User, (f u).user_id = u.user_id ∧ (f u).balance = u.balance) (x : Int) :
    (findUser (updateOneUser users uid f) x).map (fun u => u.balance)
      = (findUser users x).map (fun u => u.balance) := by
  induction users with
  | nil => rfl
  | cons a rest ih =>
    have hfx : ((f a).user_id == x) = (a.user_id == x) := by rw [(hf a).1]
    cases hA : (a.user_id == uid) <;> cases hX : (a.user_id == x)
    · simpa only [updateOneUser, findUser, List.find?_cons, hA, hX, Bool.false_eq_true,
        if_false] using ih
    · simp only [updateOneUser, findUser, List.find?_cons, hA, hX, Bool.false_eq_true,
        if_false]
    · rw [hX] at hfx
      simp only [updateOneUser, findUser, List.find?_cons, hA, hX, hfx, if_true]
    · rw [hX] at hfx
      simp only [updateOneUser, findUser, List.find?_cons, hA, hX, hfx, if_true, Option.map,
        (hf a).2]

theorem findUser_append (users : List User) (nu : User) (x : Int) :
    findUser (users ++ [nu]) x
      = (findUser users x).orElse (fun _ => if nu.user_id = x then some nu else none) := by
  induction users with
  | nil =>
    by_cases h : nu.user_id = x <;> simp [findUser, List.find?_cons, h]
  | cons a rest ih =>
    by_cases ha : a.user_id = x
    · simp [findUser, List.find?_cons, ha]
    · simpa [findUser, List.find?_cons, ha] using ih

theorem neutral_balanceOf (s s1 : Db) (h : Neutral s s1) (x : Int) :
    balanceOf s1 x = balanceOf s x := by
  obtain ⟨_, hus⟩ := h
  rcases hus with h | ⟨uid, f, hf, h⟩ | ⟨nu, hnone, hzero, h⟩
  · simp only [balanceOf, h]
  · have := findUser_updateOneUser_balance s.users uid f hf x
    simp only [balanceOf, h]
    cases h1 : findUser (updateOneUser s.users uid f) x <;>
      cases h2 : findUser s.users x <;> simp_all
  · simp only [balanceOf, h, findUser_append]
    cases h2 : findUser s.users x with
    | some u => rfl
    | none =>
      by_cases hx : nu.user_id = x
      · simp [hx, hzero]
      · simp [hx]

theorem posting_balanceOf (s s1 : Db) (t : Transaction) (h : Posting s s1 t) :
    balanceOf s1 t.user_id = (balanceOf s t.user_id).addInt (signedAmount t) ∧
    ∀ x, x ≠ t.user_id → balanceOf s1 x = balanceOf s x := by
  obtain ⟨u, doc, hfind, hid, hbal, hus, _⟩ := h
  refine ⟨?_, ?_⟩
  · simp only [balanceOf, hus, findUser_saveUser_self s.users doc u t.user_id hid hfind, hfind,
      hbal]
  · intro x hx
    simp only [balanceOf, hus, findUser_saveUser_ne s.users doc x (by rw [hid]; exact hx)]

theorem neutral_transactions (s s1 : Db) (h : Neutral s s1) :
    s1.transactions = s.transactions := h.1

theorem posting_transactions (s s1 : Db) (t : Transaction) (h : Posting s s1 t) :
    s1.transactions = s.transactions ++ [t] := by
  obtain ⟨_, _, _, _, _, _, h5⟩ := h
  exact h5

/-! ## C3: reconciliation -/

/-- C3 as stated fails above `2 ^ 53`: user 7 appears, administrator 1 grants
`9007199254740992` points and then 1 point. The second sum is the double nearest
to `9007199254740993`, which is `9007199254740992`: the balance stays, while the
ledger entries of user 7 sum to `9007199254740993`. -/
theorem reconciliation_lost_above_exact_range :
    balanceOf (run [1] {}
      [Op.query (ctxOf 7),
       Op.addpoints (ctxOf 1) (AddPointsArgs.parsed (some 7) (some 9007199254740992)),
       Op.addpoints (ctxOf 1) (AddPointsArgs.parsed (some 7) (some 1))]).db 7
      = 9007199254740992 ∧
    ledgerSum (run [1] {}
      [Op.query (ctxOf 7),
       Op.addpoints (ctxOf 1) (AddPointsArgs.parsed (some 7) (some 9007199254740992)),
       Op.addpoints (ctxOf 1) (AddPointsArgs.parsed (some 7) (some 1))]).db.transactions 7
      = 9007199254740993 := by
  refine ⟨by decide, by decide⟩

/-- C3, amended. In every state reached from the empty store by a sequence of
operations executed one after another (`/start`, task claim, `/order`,
`/addpoints`, `/ban`, `/addtask`, `/broadcast`, read-only commands, `/verify`,
each behind the middleware that creates accounts with balance 0), provided every
balance reached on the way is below `2 ^ 53` in magnitude, every account's
balance equals the sum of that account's ledger entries, a `debit` entry
counting as minus its amount and every other entry as its amount. -/
theorem reconciliation_invariant (ADMIN_IDS : List Int) (ops : List Op)
    (hsafe : SafeRun ADMIN_IDS {} ops) :
    ∀ u ∈ (run ADMIN_IDS {} ops).db.users,
      u.balance = JsNum.fin (ledgerSum (run ADMIN_IDS {} ops).db.transactions u.user_id) := by
  have h0 : Reconciled ({} : World).db.users ({} : World).db.transactions := by
    refine ⟨List.nodup_nil, ?_, ?_⟩ <;> intro x hx <;> cases hx
  exact (run_reconciled ADMIN_IDS ops {} h0 hsafe).2.1

/-- Witness for C3: during `sampleOps` (a grant of 24 and an order of 24) the
balances stay below `2 ^ 53`, and afterwards the account of user 7 is in the store
with balance 0, the sum of its two entries. -/
theorem reconciliation_witness :
    SafeRun [1] {} sampleOps ∧
    ({ acct 7 0 with joined_date := 5000 } : User) ∈ (run [1] {} sampleOps).db.users ∧
    ({ acct 7 0 with joined_date := 5000 } : User).balance
      = JsNum.fin (ledgerSum (run [1] {} sampleOps).db.transactions 7) :=
  ⟨⟨by decide, by decide, by decide, trivial⟩, by decide,
    reconciliation_invariant [1] sampleOps ⟨by decide, by decide, by decide, trivial⟩
      { acct 7 0 with joined_date := 5000 } (by decide)⟩

/-! ## C4: one ledger entry per balance change -/

/-- C4 as stated fails: for service 3036, quantity 12 and balance 24 the order
lowers the balance from 24 to 0 (change -24) and the one ledger entry written has
type `debit` and stored amount +24; no entry with amount -24 exists. -/
theorem order_entry_amount_is_unsigned :
    balanceOf (dbOne 24) 7 = 24 ∧
    balanceOf (orderHandler [] (dbOne 24) (ctxOf 7) (OrderArgs.parsed 3036 12) 42
        SupplierResult.error).2.1 7 = 0 ∧
    (orderHandler [] (dbOne 24) (ctxOf 7) (OrderArgs.parsed 3036 12) 42
        SupplierResult.error).2.1.transactions.map (fun t => (t.type, t.amount))
      = [(TxType.debit, 24)] ∧
    ¬ ∃ t ∈ (orderHandler [] (dbOne 24) (ctxOf 7) (OrderArgs.parsed 3036 12) 42
        SupplierResult.error).2.1.transactions, t.amount = -24 := by
  decide

/-- C4, amended. Every operation either writes no ledger entry and changes no
balance, or appends exactly one entry `t` and changes only the balance of
`t.user_id`: to the double nearest to the balance minus `t.amount` when `t` is a
`debit` entry and to the double nearest to the balance plus `t.amount` otherwise,
which is exactly that difference or sum whenever the new balance is below
`2 ^ 53` in magnitude. Debit entries are written by `/order` only, and the entry
of a successful `/order` has type `debit` and as unsigned amount the total the
handler computed from `points * quantity`. -/
theorem balance_change_has_one_entry (ADMIN_IDS : List Int) (w : World) (op : Op) :
    ((step ADMIN_IDS w op).db.transactions = w.db.transactions ∧
      ∀ uid, balanceOf (step ADMIN_IDS w op).db uid = balanceOf w.db uid) ∨
    ∃ t, (step ADMIN_IDS w op).db.transactions = w.db.transactions ++ [t] ∧
      (t.type = TxType.debit →
        balanceOf (step ADMIN_IDS w op).db t.user_id
          = (balanceOf w.db t.user_id).addInt (-t.amount)) ∧
      (t.type ≠ TxType.debit →
        balanceOf (step ADMIN_IDS w op).db t.user_id
          = (balanceOf w.db t.user_id).addInt t.amount) ∧
      (∀ b b1 : Int, balanceOf w.db t.user_id = JsNum.fin b →
        balanceOf (step ADMIN_IDS w op).db t.user_id = JsNum.fin b1 → b1.natAbs < 2 ^ 53 →
        (t.type = TxType.debit → b1 = b - t.amount) ∧
        (t.type ≠ TxType.debit → b1 = b + t.amount)) ∧
      (∀ uid, uid ≠ t.user_id → balanceOf (step ADMIN_IDS w op).db uid = balanceOf w.db uid) ∧
      (t.type = TxType.debit ↔ ∃ ctx args rand r, op = Op.order ctx args rand r) ∧
      (∀ ctx args rand r, op = Op.order ctx args rand r →
        t.user_id = ctx.fromId ∧
        ∃ svc quantity, svc ∈ services ∧ args = OrderArgs.parsed svc.id quantity ∧
          jsMul svc.points quantity = JsNum.fin t.amount) := by
  obtain ⟨s1, hn, _, he⟩ := step_effect ADMIN_IDS w op
  have hb1 := neutral_balanceOf _ _ hn
  rcases he with he | ⟨t, hp, hent⟩
  · left
    refine ⟨(neutral_transactions _ _ he).trans (neutral_transactions _ _ hn), fun uid => ?_⟩
    rw [neutral_balanceOf _ _ he, hb1]
  · right
    obtain ⟨hself, hother⟩ := posting_balanceOf _ _ t hp
    rw [hb1] at hself
    have hdeb : t.type = TxType.debit → signedAmount t = -t.amount := by
      intro hd
      simp [signedAmount, hd]
    have hcred : t.type ≠ TxType.debit → signedAmount t = t.amount := by
      intro hd
      simp [signedAmount, hd]
    refine ⟨t, ?_, ?_, ?_, ?_, ?_, ?_, ?_⟩
    · rw [posting_transactions _ _ t hp, neutral_transactions _ _ hn]
    · intro hd
      rw [hself, hdeb hd]
    · intro hd
      rw [hself, hcred hd]
    · intro b b1 hb hb1' h53
      rw [hself] at hb1'
      have hx := JsNum.addInt_fin_safe _ b (signedAmount t) b1 hb hb1' h53
      refine ⟨fun hd => ?_, fun hd => ?_⟩
      · rw [hx, hdeb hd]
        ring
      · rw [hx, hcred hd]
    · intro uid huid
      rw [hother uid huid, hb1]
    · cases op with
      | order ctx args rand r => exact ⟨fun _ => ⟨ctx, args, rand, r, rfl⟩, fun _ => hent.1⟩
      | start ctx payload =>
        have h1 : t.type = TxType.referral := hent.1
        simp [h1]
      | taskClaim ctx taskId =>
        have h1 : t.type = TxType.task := hent.1
        simp [h1]
      | addpoints ctx args =>
        have h1 : t.type = TxType.admin := hent.1
        simp [h1]
      | ban ctx args => exact hent.elim
      | addtask ctx args newId => exact hent.elim
      | broadcast ctx msg sent => exact hent.elim
      | query ctx => exact hent.elim
      | verify uid0 ip device now => exact hent.elim
    · intro ctx args rand r hop
      subst hop
      obtain ⟨_, h2, svc, q, h3, h4, _, h6, _⟩ := hent
      exact ⟨h2, svc, q, h4, h3, h6⟩

/-- Witness for C4 (amended): the order of 12 units of service 3036 by user 7 with
balance 24 appends one entry, of type `debit` and amount 24, and leaves balance 0. -/
theorem balance_change_witness :
    ∃ t, (step [1] { db := dbOne 24 }
        (Op.order (ctxOf 7) (OrderArgs.parsed 3036 12) 42 SupplierResult.error)).db.transactions
        = [t] ∧ t.type = TxType.debit ∧ t.amount = 24 ∧
      balanceOf (step [1] { db := dbOne 24 }
        (Op.order (ctxOf 7) (OrderArgs.parsed 3036 12) 42 SupplierResult.error)).db 7 = 0 := by
  have hamt : (step [1] { db := dbOne 24 }
      (Op.order (ctxOf 7) (OrderArgs.parsed 3036 12) 42 SupplierResult.error)).db.transactions.map
      (fun t => t.amount) = [24] := by decide
  rcases balance_change_has_one_entry [1] { db := dbOne 24 }
    (Op.order (ctxOf 7) (OrderArgs.parsed 3036 12) 42 SupplierResult.error) with
    h | ⟨t, h1, _, _, _, _, h5, _⟩
  · rw [h.1] at hamt
    exact absurd hamt (by decide)
  · rw [h1] at hamt
    have ha : t.amount = 24 := by simpa [dbOne] using hamt
    exact ⟨t, by simpa [dbOne] using h1, h5.mpr ⟨_, _, _, _, rfl⟩, ha, by decide⟩

/-! ## C5: non-negative balances -/

theorem mem_saveUser_weak (users : List User) (doc x : User) (hx : x ∈ saveUser users doc) :
    x = doc ∨ x ∈ users := by
  induction users with
  | nil => simp [saveUser] at hx
  | cons a rest ih =>
    cases hA : (a.user_id == doc.user_id)
    · simp only [saveUser, hA, Bool.false_eq_true, if_false, List.mem_cons] at hx
      rcases hx with hx | hx
      · exact Or.inr (hx ▸ List.mem_cons_self _ _)
      · rcases ih hx with h | h
        · exact Or.inl h
        · exact Or.inr (List.mem_cons_of_mem _ h)
    · simp only [saveUser, hA, if_true, List.mem_cons] at hx
      rcases hx with hx | hx
      · exact Or.inl hx
      · exact Or.inr (List.mem_cons_of_mem _ hx)

theorem nonneg_neutral (s s1 : Db) (h : Neutral s s1) (hb : ∀ u ∈ s.users, 0 ≤ u.balance) :
    ∀ u ∈ s1.users, 0 ≤ u.balance := by
  obtain ⟨_, hus⟩ := h
  rcases hus with h | ⟨uid, f, hf, h⟩ | ⟨nu, _, hzero, h⟩
  · rw [h]
    exact hb
  · rw [h]
    intro x hx
    rcases mem_updateOneUser _ _ _ _ hx with hx1 | ⟨u, hu, hx1⟩
    · exact hb x hx1
    · rw [hx1, (hf u).2]
      exact hb u hu
  · rw [h]
    intro x hx
    rcases List.mem_append.mp hx with hx1 | hx1
    · exact hb x hx1
    · have hx_eq : x = nu := by simpa using hx1
      rw [hx_eq, hzero]
      decide

theorem nonneg_posting (s s1 : Db) (t : Transaction) (h : Posting s s1 t)
    (hb : ∀ u ∈ s.users, 0 ≤ u.balance)
    (ht : 0 ≤ (balanceOf s t.user_id).addInt (signedAmount t)) :
    ∀ u ∈ s1.users, 0 ≤ u.balance := by
  obtain ⟨u, doc, hfind, _, hbal, hus, _⟩ := h
  rw [hus]
  intro x hx
  rcases mem_saveUser_weak _ _ _ hx with hx1 | hx1
  · rw [hx1, hbal]
    simpa [balanceOf, hfind] using ht
  · exact hb x hx1

/-- C5 as stated fails: from stores whose balances are all 0, `/addpoints 7 -5` by
administrator 1 is accepted and leaves user 7 with balance -5, and a task created
by `/addtask -5 t` and claimed by user 7 leaves user 7 with balance -5. -/
theorem negative_balance_reachable :
    (∀ u ∈ (dbOne 0).users, 0 ≤ u.balance) ∧
    balanceOf (step [1] { db := dbOne 0 }
      (Op.addpoints (ctxOf 1) (AddPointsArgs.parsed (some 7) (some (-5))))).db 7 = -5 ∧
    balanceOf (run [1] { db := dbOne 0 }
      [Op.addtask (ctxOf 1) (AddTaskArgs.parsed (some (-5)) "t") "task1",
       Op.taskClaim (ctxOf 7) "task1"]).db 7 = -5 := by
  decide

/-- C5, amended. If all balances are non-negative, all task rewards in the store
are non-negative and the operation is not an `/addpoints` with a negative amount,
then all balances are non-negative after the operation; in particular `/order` and
the `/start` referral bonus keep balances non-negative for every input. -/
theorem balances_stay_nonneg (ADMIN_IDS : List Int) (w : World) (op : Op)
    (hb : ∀ u ∈ w.db.users, 0 ≤ u.balance)
    (htasks : ∀ task ∈ w.db.tasks, 0 ≤ task.points)
    (hamt : ∀ ctx uid0 amt, op = Op.addpoints ctx (AddPointsArgs.parsed uid0 (some amt)) →
      0 ≤ amt) :
    ∀ u ∈ (step ADMIN_IDS w op).db.users, 0 ≤ u.balance := by
  obtain ⟨s1, hn, htk, he⟩ := step_effect ADMIN_IDS w op
  have hb1 := nonneg_neutral _ _ hn hb
  rcases he with he | ⟨t, hp, hent⟩
  · exact nonneg_neutral _ _ he hb1
  · apply nonneg_posting _ _ t hp hb1
    have hcur : 0 ≤ balanceOf s1 t.user_id := by
      obtain ⟨u, _, hfind, _⟩ := hp
      simp only [balanceOf, hfind]
      exact hb1 u (findUser_mem _ _ _ hfind)
    apply JsNum.addInt_nonneg _ _ hcur
    intro x hx
    have hx0 : 0 ≤ x := by
      rw [hx] at hcur
      exact (JsNum.zero_le_fin x).mp hcur
    cases op with
    | start ctx payload =>
      obtain ⟨h1, h2, _⟩ := hent
      simp only [signedAmount, h1, h2]
      simp
      linarith
    | taskClaim ctx taskId =>
      obtain ⟨h1, _, task, hmem, h3⟩ := hent
      have := htasks task (htk ▸ hmem)
      simp only [signedAmount, h1, h3]
      simp
      linarith
    | order ctx args rand r =>
      obtain ⟨h1, h2, _, _, _, _, _, _, h7⟩ := hent
      rw [← h2, hx] at h7
      have h8 := (JsNum.fin_le_fin _ _).mp h7
      simp only [signedAmount, h1]
      simp
      linarith
    | addpoints ctx args =>
      obtain ⟨h1, uid0, amt, h2, _, h4⟩ := hent
      have := hamt ctx uid0 amt (by rw [h2])
      simp only [signedAmount, h1, h4]
      simp
      linarith
    | ban ctx args => exact hent.elim
    | addtask ctx args newId => exact hent.elim
    | broadcast ctx msg sent => exact hent.elim
    | query ctx => exact hent.elim
    | verify uid0 ip device now => exact hent.elim

/-- Witness for C5 (amended): after the order of 12 units of service 3036 by user
7 with balance 24, the account of user 7, now with balance 0, is non-negative. -/
theorem balances_stay_nonneg_witness :
    acct 7 0 ∈ (step [1] { db := dbOne 24 }
      (Op.order (ctxOf 7) (OrderArgs.parsed 3036 12) 42 SupplierResult.error)).db.users ∧
    0 ≤ (acct 7 0).balance :=
  ⟨by decide,
    balances_stay_nonneg [1] { db := dbOne 24 }
      (Op.order (ctxOf 7) (OrderArgs.parsed 3036 12) 42 SupplierResult.error)
      (by decide) (by decide) (by intro ctx uid0 amt h; cases h)
      (acct 7 0) (by decide)⟩

/-! ## Decimal rendering of integers is injective -/

theorem digitValue_digitChar (k : Nat) (h : k < 10) : digitValue (Nat.digitChar k) = k := by
  interval_cases k <;> rfl

theorem digitChar_ne_minus (k : Nat) (h : k < 10) : Nat.digitChar k ≠ '-' := by
  interval_cases k <;> decide

theorem foldl_toDigitsCore (fuel n : Nat) (ds : List Char) (h : n < fuel) :
    (Nat.toDigitsCore 10 fuel n ds).foldl (fun acc c => 10 * acc + digitValue c) 0
      = ds.foldl (fun acc c => 10 * acc + digitValue c) n := by
  induction fuel generalizing n ds with
  | zero => omega
  | succ fuel ih =>
    have hmod : n % 10 < 10 := Nat.mod_lt _ (by decide)
    by_cases h0 : n / 10 = 0
    · have hn : n % 10 = n := by omega
      have hv : digitValue (Nat.digitChar n) = n := digitValue_digitChar n (by omega)
      simp [Nat.toDigitsCore, h0, hn, hv]
    · have hlt : n / 10 < fuel := by omega
      have hn : 10 * (n / 10) + n % 10 = n := by omega
      simp [Nat.toDigitsCore, h0, ih (n / 10) (Nat.digitChar (n % 10) :: ds) hlt,
        digitValue_digitChar _ hmod, hn]

theorem decimalValue_toDigits (n : Nat) : decimalValue (Nat.toDigits 10 n) = n := by
  simpa [decimalValue, Nat.toDigits] using foldl_toDigitsCore (n + 1) n [] (Nat.lt_succ_self n)

theorem toDigitsCore_no_minus (fuel n : Nat) (ds : List Char) (h : '-' ∉ ds) :
    '-' ∉ Nat.toDigitsCore 10 fuel n ds := by
  induction fuel generalizing n ds with
  | zero => simpa [Nat.toDigitsCore] using h
  | succ fuel ih =>
    have hmod : n % 10 < 10 := Nat.mod_lt _ (by decide)
    have hd : '-' ∉ Nat.digitChar (n % 10) :: ds := by
      intro hm
      rcases List.mem_cons.mp hm with hm | hm
      · exact digitChar_ne_minus _ hmod hm.symm
      · exact h hm
    by_cases h0 : n / 10 = 0
    · simpa [Nat.toDigitsCore, h0] using hd
    · simpa [Nat.toDigitsCore, h0] using ih (n / 10) _ hd

theorem natRepr_injective (n m : Nat) (h : Nat.repr n = Nat.repr m) : n = m := by
  have hd : Nat.toDigits 10 n = Nat.toDigits 10 m := congrArg String.data h
  rw [← decimalValue_toDigits n, ← decimalValue_toDigits m, hd]

theorem intToString_injective (a b : Int) (h : toString a = toString b) : a = b := by
  have hminus : ∀ n k : Nat, Nat.repr n ≠ "-" ++ Nat.repr k := by
    intro n k e
    have h1 : '-' ∉ (Nat.repr n).data := by
      simpa [Nat.repr, List.asString, Nat.toDigits] using toDigitsCore_no_minus (n + 1) n [] (by simp)
    rw [e] at h1
    exact h1 (by simp)
  cases a with
  | ofNat n =>
    cases b with
    | ofNat m =>
      have : Nat.repr n = Nat.repr m := h
      rw [natRepr_injective n m this]
    | negSucc m => exact absurd h (hminus n (m + 1))
  | negSucc n =>
    cases b with
    | ofNat m => exact absurd h.symm (hminus m (n + 1))
    | negSucc m =>
      have h1 : "-" ++ Nat.repr (n + 1) = "-" ++ Nat.repr (m + 1) := h
      have h2 : Nat.repr (n + 1) = Nat.repr (m + 1) := by
        have := congrArg String.data h1
        simp only [String.data_append, List.append_cancel_left_eq] at this
        exact String.ext this
      have := natRepr_injective _ _ h2
      have hnm : n = m := by omega
      rw [hnm]

/-! ## C6: at most one referral per referred user -/

theorem startHandler_referral_effect (s : Db) (ctx : Ctx) (payload : StartPayload) :
    ((startHandler s ctx payload).referrals = s.referrals ∧
      (startHandler s ctx payload).transactions = s.transactions) ∨
    ((∀ r ∈ s.referrals, r.referred_id ≠ ctx.fromId) ∧
      ∃ r t, r.referred_id = ctx.fromId ∧ t.type = TxType.referral ∧
        t.details = "Referral of " ++ toString ctx.fromId ∧
        (startHandler s ctx payload).referrals = s.referrals ++ [r] ∧
        (startHandler s ctx payload).transactions = s.transactions ++ [t]) := by
  unfold startHandler
  split
  · exact Or.inl ⟨rfl, rfl⟩
  · dsimp only
    split
    · next hnone _ =>
      split
      · split
        · right
          refine ⟨?_, _, _, rfl, rfl, rfl, rfl, rfl⟩
          intro r hr
          have := List.find?_eq_none.mp hnone r hr
          simpa using this
        · exact Or.inl ⟨rfl, rfl⟩
      · exact Or.inl ⟨rfl, rfl⟩
    · exact Or.inl ⟨rfl, rfl⟩

theorem middleware_frame (s : Db) (ctx : Ctx) :
    (middleware s ctx).1.referrals = s.referrals ∧
    (middleware s ctx).1.transactions = s.transactions ∧
    (middleware s ctx).1.orders = s.orders ∧
    (middleware s ctx).1.adminLogs = s.adminLogs := by
  unfold middleware
  split
  · split <;> exact ⟨rfl, rfl, rfl, rfl⟩
  · exact ⟨rfl, rfl, rfl, rfl⟩

theorem start_step_referrals (A : List Int) (w : World) (ctx : Ctx) (payload : StartPayload)
    (B : Int)
    (h : referralRecordsOf w.db B ≤ 1 ∧ referralCreditsFor w.db B ≤ referralRecordsOf w.db B) :
    referralRecordsOf (step A w (Op.start ctx payload)).db B ≤ 1 ∧
    referralCreditsFor (step A w (Op.start ctx payload)).db B
      ≤ referralRecordsOf (step A w (Op.start ctx payload)).db B := by
  have hm := middleware_frame w.db ctx
  simp only [step, viaMiddleware]
  rcases hmw : middleware w.db ctx with ⟨s1, b⟩
  rw [hmw] at hm
  have hm1 : s1.referrals = w.db.referrals := hm.1
  have hm2 : s1.transactions = w.db.transactions := hm.2.1
  have h1 : referralRecordsOf s1 B ≤ 1 ∧ referralCreditsFor s1 B ≤ referralRecordsOf s1 B := by
    simpa only [referralRecordsOf, referralCreditsFor, hm1, hm2] using h
  cases b with
  | false => exact h1
  | true =>
    dsimp only
    rcases startHandler_referral_effect s1 ctx payload with ⟨hr, ht⟩ |
      ⟨hnone, r, t, hrid, hty, hdet, hr, ht⟩
    · simpa only [referralRecordsOf, referralCreditsFor, hr, ht] using h1
    · simp only [referralRecordsOf, referralCreditsFor, hr, ht, List.countP_append,
        List.countP_cons, List.countP_nil, hrid, hty, hdet]
      by_cases hB : ctx.fromId = B
      · subst hB
        have h0 : List.countP (fun r => r.referred_id == ctx.fromId) s1.referrals = 0 := by
          rw [List.countP_eq_zero]
          intro x hx
          simpa using hnone x hx
        have h2 := h1.2
        simp only [referralRecordsOf, referralCreditsFor, h0] at h2
        have h3 := Nat.le_zero.mp h2
        simp only [h0, h3]
        simp
      · have hne : ("Referral of " ++ toString ctx.fromId == "Referral of " ++ toString B)
            = false := by
          rw [beq_eq_false_iff_ne]
          intro e
          have e1 := congrArg String.data e
          simp only [String.data_append, List.append_cancel_left_eq] at e1
          exact hB (intToString_injective _ _ (String.ext e1))
        have hne2 : (ctx.fromId == B) = false := by simpa using hB
        simpa [hne, hne2, referralRecordsOf, referralCreditsFor] using h1

theorem handlers_keep_referrals (A : List Int) (rl : RateMap) (s : Db) (ctx : Ctx) :
    (∀ taskId, (taskHandler s ctx taskId).2.referrals = s.referrals) ∧
    (∀ args rand r, (orderHandler rl s ctx args rand r).2.1.referrals = s.referrals) ∧
    (∀ args, (addpointsHandler A s ctx args).2.referrals = s.referrals) ∧
    (∀ args, (banHandler A s ctx args).2.referrals = s.referrals) ∧
    (∀ args newId, (addtaskHandler A s ctx args newId).2.referrals = s.referrals) ∧
    (∀ msg sent, (broadcastHandler A s ctx msg sent).2.referrals = s.referrals) := by
  refine ⟨?_, ?_, ?_, ?_, ?_, ?_⟩
  · intro taskId
    unfold taskHandler
    split
    · rfl
    · split
      · rfl
      · split
        · rfl
        · split
          · rfl
          · split <;> rfl
  · intro args rand r
    rcases orderCommit_effect rl s ctx args rand with ⟨msg, rl1, h⟩ |
      ⟨s1, order, rl1, _, _, _, h, _, _, _, _, _, _, _, _, _, _, _, href, _⟩
    · simp only [orderHandler, h]
    · simp only [orderHandler, h]
      rw [(orderSupplier_frame s1 order r).2.2.1, href]
  · intro args
    unfold addpointsHandler
    split
    · rfl
    · split
      · rfl
      · split
        · split <;> rfl
        · rfl
  · intro args
    unfold banHandler
    split
    · rfl
    · split
      · rfl
      · split <;> rfl
  · intro args newId
    unfold addtaskHandler
    split
    · rfl
    · split <;> rfl
  · intro msg sent
    unfold broadcastHandler
    split
    · rfl
    · split <;> rfl

theorem verify_keeps_referrals (s : Db) (uid0 : Option Int) (ip : Option String)
    (device : String) (now : Nat) : (verify s uid0 ip device now).2.2.referrals = s.referrals := by
  unfold verify
  split
  · rfl
  · split <;> rfl

theorem other_step_referrals (A : List Int) (w : World) (op : Op)
    (hop : ∀ ctx payload, op ≠ Op.start ctx payload) :
    (step A w op).db.referrals = w.db.referrals ∧
    ((step A w op).db.transactions = w.db.transactions ∨
      ∃ t, t.type ≠ TxType.referral ∧
        (step A w op).db.transactions = w.db.transactions ++ [t]) := by
  constructor
  · have hmid : ∀ (ctx : Ctx) (h : Db → World),
        (∀ s1, (h s1).db.referrals = s1.referrals) →
        (viaMiddleware w ctx h).db.referrals = w.db.referrals := by
      intro ctx h hh
      have hm := (middleware_frame w.db ctx).1
      unfold viaMiddleware
      rcases hmw : middleware w.db ctx with ⟨s1, b⟩
      rw [hmw] at hm
      cases b with
      | true => exact (hh s1).trans hm
      | false => exact hm
    cases op with
    | start ctx payload => exact absurd rfl (hop ctx payload)
    | taskClaim ctx taskId =>
      exact hmid ctx _ (fun s1 => (handlers_keep_referrals A [] s1 ctx).1 taskId)
    | order ctx args rand r =>
      exact hmid ctx _ (fun s1 =>
        (handlers_keep_referrals A w.userTimestamps s1 ctx).2.1 args rand r)
    | addpoints ctx args =>
      exact hmid ctx _ (fun s1 => (handlers_keep_referrals A [] s1 ctx).2.2.1 args)
    | ban ctx args =>
      exact hmid ctx _ (fun s1 => (handlers_keep_referrals A [] s1 ctx).2.2.2.1 args)
    | addtask ctx args newId =>
      exact hmid ctx _ (fun s1 => (handlers_keep_referrals A [] s1 ctx).2.2.2.2.1 args newId)
    | broadcast ctx msg sent =>
      exact hmid ctx _ (fun s1 => (handlers_keep_referrals A [] s1 ctx).2.2.2.2.2 msg sent)
    | query ctx => exact hmid ctx _ (fun s1 => rfl)
    | verify uid0 ip device now => exact verify_keeps_referrals w.db uid0 ip device now
  · obtain ⟨s1, hn, _, he⟩ := step_effect A w op
    rcases he with he | ⟨t, hp, hent⟩
    · exact Or.inl ((neutral_transactions _ _ he).trans (neutral_transactions _ _ hn))
    · refine Or.inr ⟨t, ?_, ?_⟩
      · cases op with
        | start ctx payload => exact absurd rfl (hop ctx payload)
        | taskClaim ctx taskId =>
          have h1 : t.type = TxType.task := hent.1
          simp [h1]
        | order ctx args rand r =>
          have h1 : t.type = TxType.debit := hent.1
          simp [h1]
        | addpoints ctx args =>
          have h1 : t.type = TxType.admin := hent.1
          simp [h1]
        | ban ctx args => exact hent.elim
        | addtask ctx args newId => exact hent.elim
        | broadcast ctx msg sent => exact hent.elim
        | query ctx => exact hent.elim
        | verify uid0 ip device now => exact hent.elim
      · rw [posting_transactions _ _ t hp, neutral_transactions _ _ hn]

theorem step_referrals (A : List Int) (w : World) (op : Op) (B : Int)
    (h : referralRecordsOf w.db B ≤ 1 ∧ referralCreditsFor w.db B ≤ referralRecordsOf w.db B) :
    referralRecordsOf (step A w op).db B ≤ 1 ∧
    referralCreditsFor (step A w op).db B ≤ referralRecordsOf (step A w op).db B := by
  by_cases hop : ∃ ctx payload, op = Op.start ctx payload
  · obtain ⟨ctx, payload, rfl⟩ := hop
    exact start_step_referrals A w ctx payload B h
  · have hop1 : ∀ ctx payload, op ≠ Op.start ctx payload :=
      fun ctx payload e => hop ⟨ctx, payload, e⟩
    obtain ⟨hr, ht⟩ := other_step_referrals A w op hop1
    rcases ht with ht | ⟨t, hty, ht⟩
    · simpa only [referralRecordsOf, referralCreditsFor, hr, ht] using h
    · have hp : (t.type == TxType.referral) = false := by simpa using hty
      simpa [referralRecordsOf, referralCreditsFor, hr, ht, List.countP_append,
        List.countP_cons, hp] using h

theorem run_referrals (A : List Int) (ops : List Op) (w : World) (B : Int)
    (h : referralRecordsOf w.db B ≤ 1 ∧ referralCreditsFor w.db B ≤ referralRecordsOf w.db B) :
    referralRecordsOf (run A w ops).db B ≤ 1 ∧
    referralCreditsFor (run A w ops).db B ≤ referralRecordsOf (run A w ops).db B := by
  induction ops generalizing w with
  | nil => exact h
  | cons op rest ih => exact ih (step A w op) (step_referrals A w op B h)

/-- C6. Process any finite sequence of `/start` events one after another, whatever
payloads they carry, starting (a) from any store with no Referral record and no
ledger entry of type `referral`, or (b) from any store the program reaches from
the empty store (by any operations). Then for every user id `B` the store holds
at most one Referral record with `referred_id = B` and at most one ledger entry
of type `referral` granted for referring `B`. -/
theorem referral_at_most_once (ADMIN_IDS : List Int) (w : World)
    (events : List (Ctx × StartPayload)) (B : Int) :
    (w.db.referrals = [] → (∀ t ∈ w.db.transactions, t.type ≠ TxType.referral) →
      referralRecordsOf (run ADMIN_IDS w (events.map fun e => Op.start e.1 e.2)).db B ≤ 1 ∧
      referralCreditsFor (run ADMIN_IDS w (events.map fun e => Op.start e.1 e.2)).db B ≤ 1) ∧
    (∀ history : List Op, w = run ADMIN_IDS {} history →
      referralRecordsOf (run ADMIN_IDS w (events.map fun e => Op.start e.1 e.2)).db B ≤ 1 ∧
      referralCreditsFor (run ADMIN_IDS w (events.map fun e => Op.start e.1 e.2)).db B ≤ 1) := by
  have hempty : ∀ w0 : World, w0.db.referrals = [] →
      (∀ t ∈ w0.db.transactions, t.type ≠ TxType.referral) →
      referralRecordsOf w0.db B ≤ 1 ∧
        referralCreditsFor w0.db B ≤ referralRecordsOf w0.db B := by
    intro w0 href htx
    have h0 : referralCreditsFor w0.db B = 0 := by
      unfold referralCreditsFor
      rw [List.countP_eq_zero]
      intro t ht
      have := htx t ht
      simp [this]
    simp [referralRecordsOf, href, h0]
  refine ⟨?_, ?_⟩
  · intro href htx
    have := run_referrals ADMIN_IDS (events.map fun e => Op.start e.1 e.2) w B
      (hempty w href htx)
    exact ⟨this.1, le_trans this.2 this.1⟩
  · intro history hw
    have hreach := run_referrals ADMIN_IDS history {} B
      (hempty {} rfl (fun t ht => by cases ht))
    rw [← hw] at hreach
    have := run_referrals ADMIN_IDS (events.map fun e => Op.start e.1 e.2) w B hreach
    exact ⟨this.1, le_trans this.2 this.1⟩

/-- Witness for C6: after `sampleStarts` (user 5 starts three times with referral
payloads) from the store `dbTwo`, user 5 has one Referral record and one referral
credit was granted for it, and referrer 3 holds 20 points. -/
theorem referral_at_most_once_witness :
    referralRecordsOf (run [] { db := dbTwo }
      (sampleStarts.map fun e => Op.start e.1 e.2)).db 5 ≤ 1 ∧
    referralCreditsFor (run [] { db := dbTwo }
      (sampleStarts.map fun e => Op.start e.1 e.2)).db 5 ≤ 1 ∧
    balanceOf (run [] { db := dbTwo } (sampleStarts.map fun e => Op.start e.1 e.2)).db 3 = 20 :=
  ⟨((referral_at_most_once [] { db := dbTwo } sampleStarts 5).1 rfl (by decide)).1,
    ((referral_at_most_once [] { db := dbTwo } sampleStarts 5).1 rfl (by decide)).2, by decide⟩

/-! ## Account ids

Accounts are created by the middleware only, with the sender's id; Telegram user
ids are not 0, so no store the program builds holds an account with id 0. -/

theorem middleware_cases (s : Db) (ctx : Ctx) :
    (∃ b, findUser s.users ctx.fromId = some b ∧
      middleware s ctx = (s, decide (b.status = Status.active))) ∨
    (findUser s.users ctx.fromId = none ∧
      middleware s ctx =
        ({ s with users := s.users ++
            [{ user_id := ctx.fromId, username := ctx.username, joined_date := ctx.now,
               referral_code := ctx.uuid }] }, true)) := by
  cases h : findUser s.users ctx.fromId with
  | none =>
    right
    simp only [middleware, h, and_self]
  | some b =>
    left
    refine ⟨b, rfl, ?_⟩
    cases hst : b.status <;> simp [middleware, h, hst]

theorem handlers_keep_ids (A : List Int) (rl : RateMap) (s : Db) (ctx : Ctx) :
    (∀ payload, (startHandler s ctx payload).users.map (fun u => u.user_id)
      = s.users.map (fun u => u.user_id)) ∧
    (∀ taskId, (taskHandler s ctx taskId).2.users.map (fun u => u.user_id)
      = s.users.map (fun u => u.user_id)) ∧
    (∀ args rand r, (orderHandler rl s ctx args rand r).2.1.users.map (fun u => u.user_id)
      = s.users.map (fun u => u.user_id)) ∧
    (∀ args, (addpointsHandler A s ctx args).2.users.map (fun u => u.user_id)
      = s.users.map (fun u => u.user_id)) ∧
    (∀ args, (banHandler A s ctx args).2.users.map (fun u => u.user_id)
      = s.users.map (fun u => u.user_id)) ∧
    (∀ args newId, (addtaskHandler A s ctx args newId).2.users = s.users) ∧
    (∀ msg sent, (broadcastHandler A s ctx msg sent).2.users = s.users) := by
  refine ⟨?_, ?_, ?_, ?_, ?_, ?_, ?_⟩
  · intro payload
    unfold startHandler
    split
    · rfl
    · dsimp only
      split
      · split
        · split
          · exact saveUser_ids _ _
          · rfl
        · rfl
      · rfl
  · intro taskId
    unfold taskHandler
    split
    · rfl
    · split
      · rfl
      · split
        · rfl
        · split
          · rfl
          · split
            · rfl
            · exact saveUser_ids _ _
  · intro args rand r
    rcases orderCommit_effect rl s ctx args rand with ⟨msg, rl1, h⟩ |
      ⟨s1, order, rl1, t, _, _, h, hp, _⟩
    · simp only [orderHandler, h]
    · obtain ⟨_, doc, _, _, _, hus, _⟩ := hp
      simp only [orderHandler, h]
      rw [(orderSupplier_frame s1 order r).1, hus]
      exact saveUser_ids _ _
  · intro args
    unfold addpointsHandler
    split
    · rfl
    · split
      · rfl
      · split
        · split
          · rfl
          · exact saveUser_ids _ _
        · rfl
  · intro args
    unfold banHandler
    split
    · rfl
    · split
      · rfl
      · split
        · rfl
        · exact updateOneUser_ids _ _ _ (fun _ => rfl)
  · intro args newId
    unfold addtaskHandler
    split
    · rfl
    · split <;> rfl
  · intro msg sent
    unfold broadcastHandler
    split
    · rfl
    · split <;> rfl

theorem verify_keeps_ids (s : Db) (uid0 : Option Int) (ip : Option String) (device : String)
    (now : Nat) :
    (verify s uid0 ip device now).2.2.users.map (fun u => u.user_id)
      = s.users.map (fun u => u.user_id) := by
  unfold verify
  split
  · rfl
  · split <;> exact updateOneUser_ids _ _ _ (fun _ => rfl)

/-- The account ids after an operation are those before it and, for a bot update,
the sender's id. -/
theorem step_ids (A : List Int) (w : World) (op : Op) :
    ∀ x ∈ (step A w op).db.users.map (fun u => u.user_id),
      x ∈ w.db.users.map (fun u => u.user_id) ∨ senderId op = some x := by
  have hmid : ∀ (ctx : Ctx) (h : Db → World),
      (∀ s1, (h s1).db.users.map (fun u => u.user_id) = s1.users.map (fun u => u.user_id)) →
      ∀ x ∈ (viaMiddleware w ctx h).db.users.map (fun u => u.user_id),
        x ∈ w.db.users.map (fun u => u.user_id) ∨ ctx.fromId = x := by
    intro ctx h hh x hx
    unfold viaMiddleware at hx
    rcases middleware_cases w.db ctx with ⟨b, _, hm⟩ | ⟨_, hm⟩
    · rw [hm] at hx
      cases hd : decide (b.status = Status.active)
      · rw [hd] at hx
        exact Or.inl hx
      · rw [hd] at hx
        simp only at hx
        rw [hh] at hx
        exact Or.inl hx
    · rw [hm] at hx
      simp only at hx
      rw [hh] at hx
      simp only [List.map_append, List.map_cons, List.map_nil, List.mem_append,
        List.mem_singleton] at hx
      rcases hx with hx | hx
      · exact Or.inl hx
      · exact Or.inr hx.symm
  cases op with
  | start ctx payload =>
    intro x hx
    rcases hmid ctx _ (fun s1 => (handlers_keep_ids A [] s1 ctx).1 payload) x hx with h | h
    · exact Or.inl h
    · exact Or.inr (by rw [← h]; rfl)
  | taskClaim ctx taskId =>
    intro x hx
    rcases hmid ctx _ (fun s1 => (handlers_keep_ids A [] s1 ctx).2.1 taskId) x hx with h | h
    · exact Or.inl h
    · exact Or.inr (by rw [← h]; rfl)
  | order ctx args rand r =>
    intro x hx
    rcases hmid ctx _
      (fun s1 => (handlers_keep_ids A w.userTimestamps s1 ctx).2.2.1 args rand r) x hx with
      h | h
    · exact Or.inl h
    · exact Or.inr (by rw [← h]; rfl)
  | addpoints ctx args =>
    intro x hx
    rcases hmid ctx _ (fun s1 => (handlers_keep_ids A [] s1 ctx).2.2.2.1 args) x hx with h | h
    · exact Or.inl h
    · exact Or.inr (by rw [← h]; rfl)
  | ban ctx args =>
    intro x hx
    rcases hmid ctx _ (fun s1 => (handlers_keep_ids A [] s1 ctx).2.2.2.2.1 args) x hx with h | h
    · exact Or.inl h
    · exact Or.inr (by rw [← h]; rfl)
  | addtask ctx args newId =>
    intro x hx
    rcases hmid ctx _
      (fun s1 => by rw [(handlers_keep_ids A [] s1 ctx).2.2.2.2.2.1 args newId]) x hx with h | h
    · exact Or.inl h
    · exact Or.inr (by rw [← h]; rfl)
  | broadcast ctx msg sent =>
    intro x hx
    rcases hmid ctx _
      (fun s1 => by rw [(handlers_keep_ids A [] s1 ctx).2.2.2.2.2.2 msg sent]) x hx with h | h
    · exact Or.inl h
    · exact Or.inr (by rw [← h]; rfl)
  | query ctx =>
    intro x hx
    rcases hmid ctx _ (fun s1 => rfl) x hx with h | h
    · exact Or.inl h
    · exact Or.inr (by rw [← h]; rfl)
  | verify uid0 ip device now =>
    intro x hx
    left
    have := verify_keeps_ids w.db uid0 ip device now
    simp only [step] at hx
    rw [this] at hx
    exact hx

/-- No store reached from the empty one by updates of senders with non-zero ids
holds an account with id 0. -/
theorem run_ids_nonzero (A : List Int) (ops : List Op) (w : World)
    (hw : ∀ u ∈ w.db.users, u.user_id ≠ 0)
    (hops : ∀ op ∈ ops, senderId op ≠ some 0) :
    ∀ u ∈ (run A w ops).db.users, u.user_id ≠ 0 := by
  induction ops generalizing w with
  | nil => exact hw
  | cons op rest ih =>
    apply ih (step A w op)
    · intro u hu h0
      rcases step_ids A w op u.user_id (List.mem_map_of_mem _ hu) with h | h
      · obtain ⟨v, hv, hid⟩ := List.mem_map.mp h
        exact hw v hv (hid.trans h0)
      · exact hops op (List.mem_cons_self _ _) (by rw [h, h0])
    · intro o ho
      exact hops o (List.mem_cons_of_mem _ ho)

/-! ## C7: the referral bonus -/

theorem step_start_db (A : List Int) (w : World) (ctx : Ctx) (payload : StartPayload) :
    (step A w (Op.start ctx payload)).db =
      if (middleware w.db ctx).2 = true then startHandler (middleware w.db ctx).1 ctx payload
      else (middleware w.db ctx).1 := by
  simp only [step, viaMiddleware]
  rcases middleware w.db ctx with ⟨s1, b⟩
  cases b <;> rfl

theorem startHandler_recorded (s : Db) (ctx : Ctx) (payload : StartPayload)
    (h : ∃ r ∈ s.referrals, r.referred_id = ctx.fromId) : startHandler s ctx payload = s := by
  obtain ⟨r, hr, hrid⟩ := h
  have hsome : (s.referrals.find? (fun x => x.referred_id == ctx.fromId)).isSome = true := by
    rw [List.find?_isSome]
    exact ⟨r, hr, by simpa using hrid⟩
  cases payload with
  | other => rfl
  | ref q =>
    cases hf : s.referrals.find? (fun x => x.referred_id == ctx.fromId) with
    | none => rw [hf] at hsome; cases hsome
    | some x => simp only [startHandler, hf]

theorem startHandler_self (s : Db) (ctx : Ctx) :
    startHandler s ctx (StartPayload.ref (some ctx.fromId)) = s := by
  cases hf : s.referrals.find? (fun x => x.referred_id == ctx.fromId) <;>
    by_cases h0 : ctx.fromId = 0 <;> simp [startHandler, hf, truthyNum, h0]

theorem startHandler_no_account (s : Db) (ctx : Ctx) (A : Int)
    (h : findUser s.users A = none) : startHandler s ctx (StartPayload.ref (some A)) = s := by
  by_cases hAB : A = ctx.fromId
  · rw [hAB]
    exact startHandler_self s ctx
  · cases hf : s.referrals.find? (fun x => x.referred_id == ctx.fromId) <;>
      by_cases h0 : A = 0 <;> simp [startHandler, hf, truthyNum, h0, hAB, h]

theorem startHandler_grant (s : Db) (ctx : Ctx) (A : Int) (a : User)
    (hnone : ∀ r ∈ s.referrals, r.referred_id ≠ ctx.fromId) (hAB : A ≠ ctx.fromId)
    (hA0 : A ≠ 0) (hacc : findUser s.users A = some a) :
    startHandler s ctx (StartPayload.ref (some A)) =
      { s with
        users := saveUser s.users
          { a with balance := a.balance.addInt 20, referrals := a.referrals.addInt 1 }
        transactions := s.transactions ++
          [{ user_id := A, amount := 20, type := TxType.referral, service_id := none,
             details := "Referral of " ++ toString ctx.fromId, timestamp := ctx.now }]
        referrals := s.referrals ++
          [{ referrer_id := A, referred_id := ctx.fromId, points_earned := 20,
             timestamp := ctx.now }] } := by
  have hfind : s.referrals.find? (fun x => x.referred_id == ctx.fromId) = none := by
    rw [List.find?_eq_none]
    intro r hr
    simpa using hnone r hr
  have hne : (A != ctx.fromId) = true := by simpa using hAB
  simp only [startHandler, hfind, truthyNum, beq_iff_eq, hA0, if_false, hne, if_true, hacc]

/-- C7 as stated fails in two places. (1) A blocked sender: user 5 has no
Referral record, `3 ≠ 5` and account 3 exists, yet the update is dropped by the
middleware and nothing changes. (2) Above `2 ^ 53`: with a referrer balance of
`2 ^ 55 = 36028797018963968` the grant leaves the double nearest to the sum,
`36028797018963984`, an increase of 16, while the ledger entry says 20. -/
theorem start_referral_not_granted :
    (dbBlocked.referrals = [] ∧ findUser dbBlocked.users 3 = some (acct 3 0) ∧
      (step [] { db := dbBlocked } (Op.start (ctxOf 5) (StartPayload.ref (some 3)))).db
        = dbBlocked) ∧
    (balanceOf (step [] { db := { users := [acct 3 36028797018963968, acct 5 0] } }
        (Op.start (ctxOf 5) (StartPayload.ref (some 3)))).db 3 = 36028797018963984 ∧
      (step [] { db := { users := [acct 3 36028797018963968, acct 5 0] } }
        (Op.start (ctxOf 5) (StartPayload.ref (some 3)))).db.transactions.map
          (fun t => t.amount) = [20]) := by
  decide

/-- C7, amended. The update `/start` from user `B = ctx.fromId` with payload
`ref_<A>`, in a store without an account of id 0 (the id the handler reads as no
referrer; Telegram ids are not 0). The middleware hands the handler the store
with `B`'s account created if it was missing.
(1) If `B`'s account is missing or active, `B` has no Referral record, `A ≠ B`
and account `A` exists as `a`, the update saves `a` with balance `+20` and
referrals `+1`, both sums being exact while they are at most `2 ^ 53` (the
nearest double above), appends exactly the ledger entry (`A`, 20, `referral`)
and the Referral record (`A`, `B`, 20) and changes nothing else; every other
account reads as the middleware left it, and a further `/start` from `B` with any
payload changes nothing.
(2) If `B` has a Referral record (from any referrer), the update changes nothing
beyond the middleware's store, for any payload; the same holds when `A = B`, when
account `A` does not exist, when the referrer id does not parse, and when the
payload does not start with `ref_`.
(3) For a banned or blocked sender the update changes nothing. -/
theorem start_referral_bonus (ADMIN_IDS : List Int) (w : World) (ctx : Ctx) (A : Int)
    (hwf : ∀ u ∈ w.db.users, u.user_id ≠ 0) :
    ((∀ b, findUser w.db.users ctx.fromId = some b → (middleware w.db ctx).1 = w.db) ∧
      (findUser w.db.users ctx.fromId = none →
        (middleware w.db ctx).1 =
          { w.db with users := w.db.users ++
              [{ user_id := ctx.fromId, username := ctx.username, joined_date := ctx.now,
                 referral_code := ctx.uuid }] })) ∧
    (∀ a, (∀ b, findUser w.db.users ctx.fromId = some b → b.status = Status.active) →
      (∀ r ∈ w.db.referrals, r.referred_id ≠ ctx.fromId) → A ≠ ctx.fromId →
      findUser w.db.users A = some a →
      (step ADMIN_IDS w (Op.start ctx (StartPayload.ref (some A)))).db =
        { (middleware w.db ctx).1 with
          users := saveUser (middleware w.db ctx).1.users
            { a with balance := a.balance.addInt 20, referrals := a.referrals.addInt 1 }
          transactions := w.db.transactions ++
            [{ user_id := A, amount := 20, type := TxType.referral, service_id := none,
               details := "Referral of " ++ toString ctx.fromId, timestamp := ctx.now }]
          referrals := w.db.referrals ++
            [{ referrer_id := A, referred_id := ctx.fromId, points_earned := 20,
               timestamp := ctx.now }] } ∧
      findUser (step ADMIN_IDS w (Op.start ctx (StartPayload.ref (some A)))).db.users A =
        some { a with balance := a.balance.addInt 20, referrals := a.referrals.addInt 1 } ∧
      (∀ b : Int, a.balance = JsNum.fin b → (b + 20).natAbs ≤ 2 ^ 53 →
        a.balance.addInt 20 = JsNum.fin (b + 20)) ∧
      (∀ n : Int, a.referrals = JsNum.fin n → (n + 1).natAbs ≤ 2 ^ 53 →
        a.referrals.addInt 1 = JsNum.fin (n + 1)) ∧
      (∀ uid, uid ≠ A →
        findUser (step ADMIN_IDS w (Op.start ctx (StartPayload.ref (some A)))).db.users uid
          = findUser (middleware w.db ctx).1.users uid) ∧
      (∀ (ctx1 : Ctx) (payload : StartPayload), ctx1.fromId = ctx.fromId →
        (step ADMIN_IDS (step ADMIN_IDS w (Op.start ctx (StartPayload.ref (some A))))
            (Op.start ctx1 payload)).db
          = (step ADMIN_IDS w (Op.start ctx (StartPayload.ref (some A)))).db)) ∧
    ((∃ r ∈ w.db.referrals, r.referred_id = ctx.fromId) →
      ∀ payload, (step ADMIN_IDS w (Op.start ctx payload)).db = (middleware w.db ctx).1) ∧
    (A = ctx.fromId →
      (step ADMIN_IDS w (Op.start ctx (StartPayload.ref (some A)))).db
        = (middleware w.db ctx).1) ∧
    (findUser w.db.users A = none →
      (step ADMIN_IDS w (Op.start ctx (StartPayload.ref (some A)))).db
        = (middleware w.db ctx).1) ∧
    (step ADMIN_IDS w (Op.start ctx (StartPayload.ref none))).db = (middleware w.db ctx).1 ∧
    (step ADMIN_IDS w (Op.start ctx StartPayload.other)).db = (middleware w.db ctx).1 ∧
    (∀ (b : User) (payload : StartPayload), findUser w.db.users ctx.fromId = some b →
      b.status ≠ Status.active → (step ADMIN_IDS w (Op.start ctx payload)).db = w.db) := by
  have hfr := middleware_frame w.db ctx
  have hnoop : ∀ payload, startHandler (middleware w.db ctx).1 ctx payload
      = (middleware w.db ctx).1 →
      (step ADMIN_IDS w (Op.start ctx payload)).db = (middleware w.db ctx).1 := by
    intro payload h
    rw [step_start_db]
    split
    · exact h
    · rfl
  have hshape : (∀ b, findUser w.db.users ctx.fromId = some b → (middleware w.db ctx).1 = w.db) ∧
      (findUser w.db.users ctx.fromId = none →
        (middleware w.db ctx).1 =
          { w.db with users := w.db.users ++
              [{ user_id := ctx.fromId, username := ctx.username, joined_date := ctx.now,
                 referral_code := ctx.uuid }] }) := by
    rcases middleware_cases w.db ctx with ⟨b, hb, hm⟩ | ⟨hb, hm⟩
    · exact ⟨fun _ _ => (by rw [hm]), fun h => (by rw [hb] at h; cases h)⟩
    · exact ⟨fun b h => (by rw [hb] at h; cases h), fun _ => (by rw [hm])⟩
  refine ⟨hshape, ?_, ?_, ?_, ?_, ?_, ?_, ?_⟩
  · intro a hact hnone hAB hacc
    have hA0 : A ≠ 0 := by
      rw [← findUser_user_id _ _ _ hacc]
      exact hwf a (findUser_mem _ _ _ hacc)
    have hid : a.user_id = A := findUser_user_id _ _ _ hacc
    -- the store the handler receives: the sender passes, accounts of others are as before
    have hpass : (middleware w.db ctx).2 = true ∧
        (∀ x, x ≠ ctx.fromId →
          findUser (middleware w.db ctx).1.users x = findUser w.db.users x) ∧
        ∃ b1, findUser (middleware w.db ctx).1.users ctx.fromId = some b1 ∧
          b1.status = Status.active := by
      rcases middleware_cases w.db ctx with ⟨b, hb, hm⟩ | ⟨hb, hm⟩
      · rw [hm]
        exact ⟨by simpa using hact b hb, fun _ _ => rfl, b, hb, hact b hb⟩
      · rw [hm]
        refine ⟨rfl, fun x hx => ?_,
          { user_id := ctx.fromId, username := ctx.username, joined_date := ctx.now,
            referral_code := ctx.uuid }, ?_, rfl⟩
        · simp only [findUser_append]
          cases findUser w.db.users x with
          | some u => rfl
          | none => simp [Ne.symm hx]
        · simp only [findUser_append, hb]
          simp
    obtain ⟨hp1, hp2, b1, hb1, hb1act⟩ := hpass
    have hacc0 : findUser (middleware w.db ctx).1.users A = some a := by
      rw [hp2 A hAB]
      exact hacc
    have hnone0 : ∀ r ∈ (middleware w.db ctx).1.referrals, r.referred_id ≠ ctx.fromId := by
      rw [hfr.1]
      exact hnone
    have hgrant := startHandler_grant (middleware w.db ctx).1 ctx A a hnone0 hAB hA0 hacc0
    have hstep : (step ADMIN_IDS w (Op.start ctx (StartPayload.ref (some A)))).db =
        { (middleware w.db ctx).1 with
          users := saveUser (middleware w.db ctx).1.users
            { a with balance := a.balance.addInt 20, referrals := a.referrals.addInt 1 }
          transactions := w.db.transactions ++
            [{ user_id := A, amount := 20, type := TxType.referral, service_id := none,
               details := "Referral of " ++ toString ctx.fromId, timestamp := ctx.now }]
          referrals := w.db.referrals ++
            [{ referrer_id := A, referred_id := ctx.fromId, points_earned := 20,
               timestamp := ctx.now }] } := by
      rw [step_start_db, if_pos hp1, hgrant, hfr.1, hfr.2.1]
    refine ⟨hstep, ?_, fun b hb h => ?_, fun n hn h => ?_, ?_, ?_⟩
    · rw [hstep]
      exact findUser_saveUser_self _ _ a A hid hacc0
    · rw [hb]
      exact JsNum.addInt_fin b 20 h
    · rw [hn]
      exact JsNum.addInt_fin n 1 h
    · intro uid huid
      rw [hstep]
      exact findUser_saveUser_ne _ _ uid (by simpa [hid] using huid)
    · intro ctx1 payload hc
      have hB : findUser (step ADMIN_IDS w (Op.start ctx (StartPayload.ref (some A)))).db.users
          ctx1.fromId = some b1 := by
        rw [hc, hstep]
        exact (findUser_saveUser_ne _ _ ctx.fromId
          (by simpa [hid] using (Ne.symm hAB))).trans hb1
      have hm1 : middleware (step ADMIN_IDS w (Op.start ctx (StartPayload.ref (some A)))).db
          ctx1 = ((step ADMIN_IDS w (Op.start ctx (StartPayload.ref (some A)))).db, true) := by
        simp [middleware, hB, hb1act]
      rw [step_start_db, hm1]
      simp only [if_true]
      apply startHandler_recorded
      rw [hstep, hc]
      exact ⟨_, List.mem_append_right _ (List.mem_singleton_self _), rfl⟩
  · intro h payload
    apply hnoop
    apply startHandler_recorded
    rw [hfr.1]
    exact h
  · intro hAB
    apply hnoop
    rw [hAB]
    exact startHandler_self _ ctx
  · intro hnone
    apply hnoop
    by_cases hAB : A = ctx.fromId
    · rw [hAB]
      exact startHandler_self _ ctx
    · apply startHandler_no_account
      rcases middleware_cases w.db ctx with ⟨b, hb, hm⟩ | ⟨hb, hm⟩
      · rw [hm]
        exact hnone
      · rw [hm]
        simp only [findUser_append, hnone]
        simp [Ne.symm hAB]
  · apply hnoop
    cases hf : (middleware w.db ctx).1.referrals.find? (fun x => x.referred_id == ctx.fromId) <;>
      simp [startHandler, hf, truthyNum]
  · exact hnoop _ rfl
  · intro b payload hb hact
    rw [step_start_db]
    rcases middleware_cases w.db ctx with ⟨b0, hb0, hm⟩ | ⟨hb0, hm⟩
    · rw [hb] at hb0
      cases hb0
      rw [hm]
      simp [hact]
    · rw [hb] at hb0
      cases hb0

/-- Witness for C7 (amended): user 5 starts with `ref_3` in the store `dbTwo`:
account 3 gets balance 20 and one referral, and a second `/start` from user 5 with
`ref_3` changes nothing. -/
theorem start_referral_bonus_witness :
    (∀ u ∈ dbTwo.users, u.user_id ≠ 0) ∧
    findUser (step [] { db := dbTwo } (Op.start (ctxOf 5) (StartPayload.ref (some 3)))).db.users 3
      = some { acct 3 0 with balance := 20, referrals := 1 } ∧
    (step [] (step [] { db := dbTwo } (Op.start (ctxOf 5) (StartPayload.ref (some 3))))
        (Op.start (ctxOf 5) (StartPayload.ref (some 3)))).db
      = (step [] { db := dbTwo } (Op.start (ctxOf 5) (StartPayload.ref (some 3)))).db :=
  ⟨by decide,
    ((start_referral_bonus [] { db := dbTwo } (ctxOf 5) 3 (by decide)).2.1 (acct 3 0)
      (by decide) (by decide) (by decide) (by decide)).2.1,
    ((start_referral_bonus [] { db := dbTwo } (ctxOf 5) 3 (by decide)).2.1 (acct 3 0)
      (by decide) (by decide) (by decide) (by decide)).2.2.2.2.2 (ctxOf 5)
      (StartPayload.ref (some 3)) rfl⟩

/-! ## C8, C9: the duplicate-account check of `/verify` -/

theorem findUser_updateOneUser_self (users : List User) (uid : Int) (f : User → User)
    (hf : ∀ u : User, (f u).user_id = u.user_id) :
    findUser (updateOneUser users uid f) uid = (findUser users uid).map f := by
  induction users with
  | nil => rfl
  | cons a rest ih =>
    have hfx : ((f a).user_id == uid) = (a.user_id == uid) := by rw [hf a]
    cases hA : (a.user_id == uid)
    · simpa only [updateOneUser, findUser, List.find?_cons, hA, Bool.false_eq_true,
        if_false] using ih
    · rw [hA] at hfx
      simp only [updateOneUser, findUser, List.find?_cons, hA, hfx, if_true, Option.map]

theorem findUser_updateOneUser_ne (users : List User) (uid x : Int) (f : User → User)
    (hf : ∀ u : User, (f u).user_id = u.user_id) (hx : x ≠ uid) :
    findUser (updateOneUser users uid f) x = findUser users x := by
  induction users with
  | nil => rfl
  | cons a rest ih =>
    have hfx : ((f a).user_id == x) = (a.user_id == x) := by rw [hf a]
    cases hA : (a.user_id == uid) <;> cases hX : (a.user_id == x)
    · simpa only [updateOneUser, findUser, List.find?_cons, hA, hX, Bool.false_eq_true,
        if_false] using ih
    · simp only [updateOneUser, findUser, List.find?_cons, hA, hX, Bool.false_eq_true,
        if_false]
    · rw [hX] at hfx
      simp only [updateOneUser, findUser, List.find?_cons, hA, hX, hfx, if_true]
    · exact absurd ((beq_iff_eq.mp hX).symm.trans (beq_iff_eq.mp hA)) hx

theorem duplicate_iff (s : Db) (uid : Int) (ip : Option String) (device : String) :
    ((decide ((usersWithIP s uid ip).length > 0) ||
        decide ((usersWithDevice s uid device).length > 0)) = true) ↔
      DuplicateOf s uid ip device := by
  simp only [usersWithIP, usersWithDevice, DuplicateOf, Bool.or_eq_true, decide_eq_true_eq,
    gt_iff_lt, List.length_pos, ne_eq, List.filter_eq_nil_iff, not_forall, Bool.and_eq_true,
    beq_iff_eq, bne_iff_ne, Decidable.not_not]
  constructor
  · rintro (⟨u, hu, ⟨h1, h2⟩, h3⟩ | ⟨u, hu, ⟨h1, h2⟩, h3⟩)
    · exact ⟨u, hu, h2, h3, Or.inl h1⟩
    · exact ⟨u, hu, h2, h3, Or.inr h1⟩
  · rintro ⟨u, hu, h2, h3, h1 | h1⟩
    · exact Or.inl ⟨u, hu, ⟨h1, h2⟩, h3⟩
    · exact Or.inr ⟨u, hu, ⟨h1, h2⟩, h3⟩

theorem verify_blocked_eq (s : Db) (uid : Int) (ip : Option String) (device : String)
    (now : Nat) (h0 : uid ≠ 0) (hd : DuplicateOf s uid ip device) :
    verify s (some uid) ip device now =
      (200, blockedAnswer,
        { s with
          users := updateOneUser s.users uid (fun u =>
            { u with status := Status.blocked, ip_address := ip, device_id := some device,
                     verified := true })
          adminLogs := s.adminLogs ++
            [{ admin_id := 0, action := "anti_cheat_block",
               details := "User " ++ toString uid ++ " blocked due to duplicate IP/device",
               timestamp := now }] }) := by
  have ht : truthyNum (some uid) = some uid := by simp [truthyNum, h0]
  have hc := (duplicate_iff s uid ip device).mpr hd
  simp only [verify, ht, hc, if_true]

theorem verify_verified_eq (s : Db) (uid : Int) (ip : Option String) (device : String)
    (now : Nat) (h0 : uid ≠ 0) (hd : ¬ DuplicateOf s uid ip device) :
    verify s (some uid) ip device now =
      (200, verifiedAnswer,
        { s with
          users := updateOneUser s.users uid (fun u =>
            { u with ip_address := ip, device_id := some device, verified := true }) }) := by
  have ht : truthyNum (some uid) = some uid := by simp [truthyNum, h0]
  have hc : (decide ((usersWithIP s uid ip).length > 0) ||
      decide ((usersWithDevice s uid device).length > 0)) = false := by
    rw [← Bool.not_eq_true]
    exact fun h => hd ((duplicate_iff s uid ip device).mp h)
  simp only [verify, ht, hc, Bool.false_eq_true, if_false]

theorem updateOneUser_length (users : List User) (uid : Int) (f : User → User) :
    (updateOneUser users uid f).length = users.length := by
  induction users with
  | nil => rfl
  | cons a rest ih => cases hA : (a.user_id == uid) <;> simp [updateOneUser, hA, ih]

/-- C8 as stated fails for the user id 0: with an active account 7 holding the
address `1.1.1.1`, the request for `uid = 0` from `1.1.1.1` is answered
`Missing user id` (status 400), not `blocked`, and nothing is written. -/
theorem verify_zero_id_not_blocked :
    DuplicateOf dbVerified 0 (some "1.1.1.1") "d0" ∧
    verify dbVerified (some 0) (some "1.1.1.1") "d0" 9 = (400, "Missing user id", dbVerified) ∧
    (verify dbVerified (some 0) (some "1.1.1.1") "d0" 9).2.1 ≠ blockedAnswer := by
  refine ⟨⟨_, List.mem_singleton_self _, ?_, rfl, Or.inl rfl⟩, by decide, by decide⟩
  decide

/-- C8, amended. For every store, non-zero user id `uid`, IP string `ip` and
fingerprint `device`, `/verify` answers `blocked` exactly when some active account
with another id has that IP address or that fingerprint. When blocked, the
subject account gets status `blocked`, the IP, the fingerprint and `verified =
true`, and one AdminLog entry with action `anti_cheat_block` is appended; else
the subject account gets the IP, the fingerprint and `verified = true` with its
status as before and no AdminLog entry is written. In both cases every other
account and every other collection is unchanged. -/
theorem verify_blocks_duplicates (s : Db) (uid : Int) (ip device : String) (now : Nat)
    (h0 : uid ≠ 0) :
    ((verify s (some uid) (some ip) device now).2.1 = blockedAnswer ↔
      DuplicateOf s uid (some ip) device) ∧
    (DuplicateOf s uid (some ip) device →
      (∀ a, findUser s.users uid = some a →
        findUser (verify s (some uid) (some ip) device now).2.2.users uid =
          some { a with status := Status.blocked, ip_address := some ip,
                        device_id := some device, verified := true }) ∧
      ∃ e, (verify s (some uid) (some ip) device now).2.2.adminLogs = s.adminLogs ++ [e] ∧
        e.action = "anti_cheat_block") ∧
    (¬ DuplicateOf s uid (some ip) device →
      (verify s (some uid) (some ip) device now).2.1 = verifiedAnswer ∧
      (∀ a, findUser s.users uid = some a →
        findUser (verify s (some uid) (some ip) device now).2.2.users uid =
          some { a with ip_address := some ip, device_id := some device, verified := true }) ∧
      (verify s (some uid) (some ip) device now).2.2.adminLogs = s.adminLogs) ∧
    (∀ x, x ≠ uid →
      findUser (verify s (some uid) (some ip) device now).2.2.users x = findUser s.users x) ∧
    (verify s (some uid) (some ip) device now).2.2.users.length = s.users.length ∧
    (verify s (some uid) (some ip) device now).2.2.transactions = s.transactions ∧
    (verify s (some uid) (some ip) device now).2.2.referrals = s.referrals ∧
    (verify s (some uid) (some ip) device now).2.2.orders = s.orders ∧
    (verify s (some uid) (some ip) device now).2.2.tasks = s.tasks := by
  by_cases hd : DuplicateOf s uid (some ip) device
  · rw [verify_blocked_eq s uid (some ip) device now h0 hd]
    refine ⟨⟨fun _ => hd, fun _ => rfl⟩, fun _ => ⟨?_, _, rfl, rfl⟩, fun h => absurd hd h, ?_,
      updateOneUser_length _ _ _, rfl, rfl, rfl, rfl⟩
    · intro a ha
      have := findUser_updateOneUser_self s.users uid (fun u =>
        { u with status := Status.blocked, ip_address := some ip,
                 device_id := some device, verified := true }) (fun _ => rfl)
      rw [ha] at this
      exact this
    · intro x hx
      exact findUser_updateOneUser_ne s.users uid x (fun u =>
        { u with status := Status.blocked, ip_address := some ip,
                 device_id := some device, verified := true }) (fun _ => rfl) hx
  · rw [verify_verified_eq s uid (some ip) device now h0 hd]
    have hans : verifiedAnswer ≠ blockedAnswer := by decide
    refine ⟨⟨fun h => absurd h hans, fun h => absurd h hd⟩, fun h => absurd h hd,
      fun _ => ⟨rfl, ?_, rfl⟩, ?_, updateOneUser_length _ _ _, rfl, rfl, rfl, rfl⟩
    · intro a ha
      have := findUser_updateOneUser_self s.users uid (fun u =>
        { u with ip_address := some ip, device_id := some device, verified := true })
        (fun _ => rfl)
      rw [ha] at this
      exact this
    · intro x hx
      exact findUser_updateOneUser_ne s.users uid x (fun u =>
        { u with ip_address := some ip, device_id := some device, verified := true })
        (fun _ => rfl) hx

/-- Witness for C8 (amended): user 8 verifying from the address of the active
account 7 is answered `blocked`. -/
theorem verify_blocks_duplicates_witness :
    (verify dbVerified (some 8) (some "1.1.1.1") "d8" 9).2.1 = blockedAnswer :=
  (verify_blocks_duplicates dbVerified 8 "1.1.1.1" "d8" 9 (by decide)).1.mpr
    ⟨{ acct 7 0 with ip_address := some "1.1.1.1", device_id := some "d7", verified := true },
      List.mem_singleton_self _, by decide, rfl, Or.inl rfl⟩

/-- C9 as stated fails when the second user already holds the fingerprint. From
the empty store, users 3 and 7 appear and user 7 verifies with fingerprint `d`.
Both accounts are then active and there is no third account. Verifying user 3
with `d` finds the active account 7 holding `d` and blocks user 3; verifying
user 7 with `d` afterwards finds no other active account and leaves user 7
active: the first user ends blocked and the second active. -/
theorem second_verification_not_blocked :
    (run [] {} [Op.query (ctxOf 3), Op.query (ctxOf 7),
        Op.verify (some 7) (some "1.1.1.1") "d" 8]).db.users.map
        (fun u => (u.user_id, u.status))
      = [(3, Status.active), (7, Status.active)] ∧
    (run [] {} [Op.query (ctxOf 3), Op.query (ctxOf 7),
        Op.verify (some 7) (some "1.1.1.1") "d" 8,
        Op.verify (some 3) (some "3.3.3.3") "d" 9,
        Op.verify (some 7) (some "4.4.4.4") "d" 10]).db.users.map
        (fun u => (u.user_id, u.status))
      = [(3, Status.blocked), (7, Status.active)] := by
  decide

/-- C9, amended. In a store without an account of id 0 (the id `/verify` reads as
missing; Telegram ids are not 0), let `u1 ≠ u2` be user ids whose accounts exist,
`u1` active (`u2` in any status, active included), and let no active account
other than `u1`, `u2` included, hold the address `ip1` or the fingerprint `d`.
Verifying `u1` with fingerprint `d` from `ip1` and then `u2` with the same
fingerprint from any address `ip2` leaves `u2` with status `blocked` and `u1`
with status `active` and `verified = true`. -/
theorem second_verification_blocked (s : Db) (u1 u2 : Int) (ip1 ip2 d : String)
    (now1 now2 : Nat) (a1 a2 : User)
    (hwf : ∀ u ∈ s.users, u.user_id ≠ 0)
    (hne : u1 ≠ u2)
    (ha1 : findUser s.users u1 = some a1) (ha2 : findUser s.users u2 = some a2)
    (hact1 : a1.status = Status.active)
    (hfree : ¬ DuplicateOf s u1 (some ip1) d) :
    (∃ b2, findUser (verify (verify s (some u1) (some ip1) d now1).2.2
        (some u2) (some ip2) d now2).2.2.users u2 = some b2 ∧ b2.status = Status.blocked) ∧
    (∃ b1, findUser (verify (verify s (some u1) (some ip1) d now1).2.2
        (some u2) (some ip2) d now2).2.2.users u1 = some b1 ∧
      b1.status = Status.active ∧ b1.verified = true) := by
  have hid1 : a1.user_id = u1 := findUser_user_id _ _ _ ha1
  have h1 : u1 ≠ 0 := by
    rw [← hid1]
    exact hwf a1 (findUser_mem _ _ _ ha1)
  have h2 : u2 ≠ 0 := by
    rw [← findUser_user_id _ _ _ ha2]
    exact hwf a2 (findUser_mem _ _ _ ha2)
  have hv1 := verify_verified_eq s u1 (some ip1) d now1 h1 hfree
  have hf1 : findUser (verify s (some u1) (some ip1) d now1).2.2.users u1 =
      some { a1 with ip_address := some ip1, device_id := some d, verified := true } := by
    rw [hv1]
    have := findUser_updateOneUser_self s.users u1 (fun u =>
      { u with ip_address := some ip1, device_id := some d, verified := true }) (fun _ => rfl)
    rw [ha1] at this
    exact this
  have hf2 : findUser (verify s (some u1) (some ip1) d now1).2.2.users u2 = some a2 := by
    rw [hv1]
    exact (findUser_updateOneUser_ne s.users u1 u2 (fun u =>
      { u with ip_address := some ip1, device_id := some d, verified := true }) (fun _ => rfl)
      (fun e => hne e.symm)).trans ha2
  have hdup : DuplicateOf (verify s (some u1) (some ip1) d now1).2.2 u2 (some ip2) d :=
    ⟨_, findUser_mem _ _ _ hf1, by simpa [hid1] using hne, hact1, Or.inr rfl⟩
  have hv2 := verify_blocked_eq (verify s (some u1) (some ip1) d now1).2.2 u2 (some ip2) d now2
    h2 hdup
  refine ⟨⟨{ a2 with status := Status.blocked, ip_address := some ip2, device_id := some d,
                      verified := true }, ?_, rfl⟩,
    ⟨{ a1 with ip_address := some ip1, device_id := some d, verified := true }, ?_, hact1,
      rfl⟩⟩
  · rw [hv2]
    have := findUser_updateOneUser_self (verify s (some u1) (some ip1) d now1).2.2.users u2
      (fun u => { u with status := Status.blocked, ip_address := some ip2,
                         device_id := some d, verified := true }) (fun _ => rfl)
    rw [hf2] at this
    exact this
  · rw [hv2]
    exact (findUser_updateOneUser_ne (verify s (some u1) (some ip1) d now1).2.2.users u2 u1
      (fun u => { u with status := Status.blocked, ip_address := some ip2,
                         device_id := some d, verified := true }) (fun _ => rfl) hne).trans hf1

/-- Witness for C9 (amended): in `dbTwo` (active accounts 3 and 5) user 3 verifies
with fingerprint `d`, then user 5 does: user 5 ends blocked, user 3 active and
verified. -/
theorem second_verification_blocked_witness :
    (∃ b2, findUser (verify (verify dbTwo (some 3) (some "1.1.1.1") "d" 9).2.2
        (some 5) (some "2.2.2.2") "d" 10).2.2.users 5 = some b2 ∧
      b2.status = Status.blocked) ∧
    (∃ b1, findUser (verify (verify dbTwo (some 3) (some "1.1.1.1") "d" 9).2.2
        (some 5) (some "2.2.2.2") "d" 10).2.2.users 3 = some b1 ∧
      b1.status = Status.active ∧ b1.verified = true) :=
  second_verification_blocked dbTwo 3 5 "1.1.1.1" "2.2.2.2" "d" 9 10 (acct 3 0) (acct 5 0)
    (by decide) (by decide) (by decide) (by decide) rfl
    (by
      rintro ⟨u, hu, hid, _, hip | hdev⟩
      · simp only [dbTwo, List.mem_cons, List.mem_singleton, List.not_mem_nil, or_false] at hu
        rcases hu with rfl | rfl
        · exact absurd hip (by decide)
        · exact absurd hip (by decide)
      · simp only [dbTwo, List.mem_cons, List.mem_singleton, List.not_mem_nil, or_false] at hu
        rcases hu with rfl | rfl
        · exact absurd hdev (by decide)
        · exact absurd hdev (by decide))

/-! ## What a committed `/order` has written -/

theorem orderCommit_committed (rl : RateMap) (s : Db) (ctx : Ctx) (args : OrderArgs)
    (rand : Nat) (s1 : Db) (order : Order) (rl1 : RateMap)
    (h : orderCommit rl s ctx args rand = OrderOutcome.committed s1 order rl1) :
    ∃ svc quantity user total, args = OrderArgs.parsed svc.id quantity ∧ svc ∈ services ∧
      svc.min ≤ quantity ∧ findUser s.users ctx.fromId = some user ∧
      jsMul svc.points quantity = JsNum.fin total ∧ JsNum.fin total ≤ user.balance ∧
      order.total_points = total ∧ order.quantity = quantity ∧
      order.user_id = ctx.fromId ∧ order.status = OrderStatus.pending ∧
      order.external_id = none ∧
      s1.users = saveUser s.users { user with balance := user.balance.addInt (-total) } ∧
      (∃ t, s1.transactions = s.transactions ++ [t] ∧ t.type = TxType.debit ∧
        t.amount = total ∧ t.user_id = ctx.fromId) := by
  unfold orderCommit at h
  split at h
  · cases h
  · split at h
    · cases h
    · next serviceId quantity =>
      split at h
      · cases h
      · next svc hsvc =>
        obtain ⟨hmem, hsid⟩ := findService_mem _ _ hsvc
        split at h
        · cases h
        · next hq =>
          split at h
          · cases h
          · next user hf =>
            have hid := findUser_user_id _ _ _ hf
            dsimp only at h
            split at h
            · cases h
            · next hb =>
              split at h
              · next total ht =>
                split at h
                · cases h
                · cases h
                  exact ⟨svc, quantity, user, total, by rw [hsid], hmem, not_lt.mp hq, hf, ht,
                    by rw [← ht]; exact (JsNum.not_lt_iff _ _).mp hb,
                    rfl, rfl, hid, rfl, rfl, rfl, _, rfl, rfl, rfl, hid⟩
              · cases h

/-! ## C10: the supplier call after the commit -/

theorem saveOrder_last (orders : List Order) (order doc : Order)
    (hid : doc.order_id = order.order_id)
    (hfresh : ∀ o ∈ orders, o.order_id ≠ order.order_id) :
    saveOrder (orders ++ [order]) doc = orders ++ [doc] := by
  have hold : orders.map (fun o => if o.order_id == doc.order_id then doc else o) = orders := by
    conv_rhs => rw [← List.map_id orders]
    apply List.map_congr_left
    intro o ho
    have : ¬ o.order_id = doc.order_id := by rw [hid]; exact hfresh o ho
    simp [this]
  have hlast : (order.order_id == doc.order_id) = true := by simp [hid]
  simp only [saveOrder, List.map_append, List.map_cons, List.map_nil, hold, hlast, if_true]

theorem supplierCatch_orders (s0 : Db) (base : List Order) (cur doc : Order) (f : Faults)
    (hs : s0.orders = base ++ [cur]) (hid : doc.order_id = cur.order_id)
    (hfresh : ∀ o ∈ base, o.order_id ≠ cur.order_id) :
    (supplierCatch s0 doc f).2.orders =
      base ++ [if f.catchSave = true then cur else { doc with status := OrderStatus.failed }] := by
  unfold supplierCatch
  dsimp only
  cases hcs : f.catchSave
  · have hsave : saveOrder s0.orders { doc with status := OrderStatus.failed }
        = base ++ [{ doc with status := OrderStatus.failed }] := by
      rw [hs]
      exact saveOrder_last base cur _ hid hfresh
    simp only [Bool.false_eq_true, if_false]
    split <;> exact hsave
  · simp only [if_true]
    exact hs

theorem supplierPhase_orders (s1 : Db) (base : List Order) (order : Order)
    (hs : s1.orders = base ++ [order]) (hfresh : ∀ o ∈ base, o.order_id ≠ order.order_id)
    (f : Faults) :
    (supplierPhase s1 order none f).2.orders =
      base ++ [if f.catchSave = true then order
        else { order with status := OrderStatus.failed }] ∧
    (∀ a, externalIdOf a = none →
      supplierPhase s1 order (some a) f = ("Error placing order.", s1)) ∧
    (∀ a ext, externalIdOf a = some ext →
      (supplierPhase s1 order (some a) f).2.orders =
        base ++ [if f.save = true then
            (if f.catchSave = true then order
              else { order with external_id := ext, status := OrderStatus.failed })
          else if f.reply = true then
            (if f.catchSave = true then
              { order with external_id := ext, status := OrderStatus.processing }
              else { order with external_id := ext, status := OrderStatus.failed })
          else { order with external_id := ext, status := OrderStatus.processing }]) := by
  refine ⟨?_, ?_, ?_⟩
  · simp only [supplierPhase]
    exact supplierCatch_orders s1 base order order f hs rfl hfresh
  · intro a ha
    simp only [supplierPhase, ha]
  · intro a ext ha
    have hsave : saveOrder s1.orders
        { order with external_id := ext, status := OrderStatus.processing }
        = base ++ [{ order with external_id := ext, status := OrderStatus.processing }] := by
      rw [hs]
      exact saveOrder_last base order _ rfl hfresh
    simp only [supplierPhase, ha]
    cases hsv : f.save
    · simp only [Bool.false_eq_true, if_false]
      cases hrp : f.reply
      · simp only [Bool.false_eq_true, if_false]
        exact hsave
      · simp only [if_true]
        exact supplierCatch_orders _ base
          { order with external_id := ext, status := OrderStatus.processing }
          { order with external_id := ext, status := OrderStatus.processing } f hsave rfl hfresh
    · simp only [if_true]
      exact supplierCatch_orders s1 base order
        { order with external_id := ext, status := OrderStatus.processing } f hs rfl hfresh

/-- C10 as stated fails on gateway success in two ways. User 7 with balance 24
orders 12 units of service 3036 and the supplier accepts. (1) The response
carries an `id` that is an object: `external_id` cannot hold it, both
`order.save()` calls reject, the Order stays `pending` without external id and
the user is told `Error placing order.`. (2) The response carries the id `S-1`
and the confirmation reply throws: the `catch` block sets the Order to `failed`. -/
theorem supplier_success_order_not_processing :
    (orderHandler [] (dbOne 24) (ctxOf 7) (OrderArgs.parsed 3036 12) 42
        (SupplierResult.ok ApiRes.uncastable)).2.1.orders.map
        (fun o => (o.status, o.external_id)) = [(OrderStatus.pending, none)] ∧
    (orderHandler [] (dbOne 24) (ctxOf 7) (OrderArgs.parsed 3036 12) 42
        (SupplierResult.ok ApiRes.uncastable)).1 = "Error placing order." ∧
    (orderHandler [] (dbOne 24) (ctxOf 7) (OrderArgs.parsed 3036 12) 42
        (SupplierResult.disturbed (some apiOk) { reply := true })).2.1.orders.map
        (fun o => (o.status, o.external_id)) = [(OrderStatus.failed, some "S-1")] := by
  decide

/-- C10, amended. Once the debit/Order transaction of `/order` has committed
(database `s1`, order `order`), lines 316-333 change the created Order only, and
of it only status and external id. On gateway success `external_id` takes the
identifier read from the response (`apiRes.id`, else `apiRes.order_id`, else
`String(apiRes)`; a falsy body as it is) and the status becomes `processing`,
provided the identifier can be cast to a string and neither the save nor the
confirmation reply throws; an identifier that cannot be cast leaves the Order as
committed (`pending`, no external id) with the reply `Error placing order.`; a
throwing save or confirmation reply leaves it `failed` with the identifier. On
gateway failure the status becomes `failed`. In every case accounts (hence
balances), ledger, referrals, admin log, tasks and all earlier orders are as they
were right after the commit: nothing is refunded and no entry is written. -/
theorem supplier_call_changes_only_the_order (rl : RateMap) (s : Db) (ctx : Ctx)
    (args : OrderArgs) (rand : Nat) (r : SupplierResult) (s1 : Db) (order : Order)
    (rl1 : RateMap)
    (hc : orderCommit rl s ctx args rand = OrderOutcome.committed s1 order rl1) :
    (orderHandler rl s ctx args rand r).2.1.users = s1.users ∧
    (orderHandler rl s ctx args rand r).2.1.transactions = s1.transactions ∧
    (∀ uid, balanceOf (orderHandler rl s ctx args rand r).2.1 uid = balanceOf s1 uid) ∧
    (orderHandler rl s ctx args rand r).2.1.referrals = s1.referrals ∧
    (orderHandler rl s ctx args rand r).2.1.adminLogs = s1.adminLogs ∧
    (orderHandler rl s ctx args rand r).2.1.tasks = s1.tasks ∧
    s1.orders = s.orders ++ [order] ∧
    order.status = OrderStatus.pending ∧ order.external_id = none ∧
    (∃ st ext, (orderHandler rl s ctx args rand r).2.1.orders = s.orders ++
      [{ order with external_id := ext, status := st }]) ∧
    (∀ apiRes ext, r = SupplierResult.ok apiRes → externalIdOf apiRes = some ext →
      (orderHandler rl s ctx args rand r).2.1.orders = s.orders ++
        [{ order with external_id := ext, status := OrderStatus.processing }] ∧
      (orderHandler rl s ctx args rand r).1
        = "Order created: " ++ order.order_id ++ "\nStatus: processing") ∧
    (∀ apiRes, r = SupplierResult.ok apiRes → externalIdOf apiRes = none →
      (orderHandler rl s ctx args rand r).2.1 = s1 ∧
      (orderHandler rl s ctx args rand r).1 = "Error placing order.") ∧
    (r = SupplierResult.error →
      (orderHandler rl s ctx args rand r).2.1.orders = s.orders ++
        [{ order with status := OrderStatus.failed }]) ∧
    (∀ apiRes ext, externalIdOf apiRes = some ext →
      (r = SupplierResult.disturbed (some apiRes) { reply := true } ∨
        r = SupplierResult.disturbed (some apiRes) { save := true }) →
      (orderHandler rl s ctx args rand r).2.1.orders = s.orders ++
        [{ order with external_id := ext, status := OrderStatus.failed }]) ∧
    ((∀ stored, externalIdOf (ApiRes.falsy stored) = some stored) ∧
      (∀ i o str, externalIdOf (ApiRes.truthy (some i) o str) = some (some i)) ∧
      (∀ o str, externalIdOf (ApiRes.truthy none (some o) str) = some (some o)) ∧
      (∀ str, externalIdOf (ApiRes.truthy none none str) = some (some str)) ∧
      externalIdOf ApiRes.uncastable = none) := by
  rcases orderCommit_effect rl s ctx args rand with ⟨msg, rl2, h⟩ |
    ⟨s1a, ordera, rl2, t, svc, q, h, _, _, _, _, _, _, _, _, hord, _, hfresh, _⟩
  · rw [h] at hc
    cases hc
  · rw [h] at hc
    cases hc
    have hf := orderSupplier_frame s1 order r
    have hh : (orderHandler rl s ctx args rand r) =
        ((orderSupplier s1 order r).1, (orderSupplier s1 order r).2, rl1) := by
      simp only [orderHandler, h]
    have hpend : order.status = OrderStatus.pending ∧ order.external_id = none := by
      obtain ⟨_, _, _, _, _, _, _, _, _, _, _, _, _, hst, hex, _⟩ :=
        orderCommit_committed rl s ctx args rand s1 order rl1 h
      exact ⟨hst, hex⟩
    have hself : ({ order with external_id := order.external_id, status := order.status }
        : Order) = order := rfl
    rw [hh]
    refine ⟨hf.1, hf.2.1, ?_, hf.2.2.1, hf.2.2.2.1, hf.2.2.2.2, hord, hpend.1, hpend.2, ?_, ?_,
      ?_, ?_, ?_,
      ⟨fun _ => rfl, fun _ _ _ => rfl, fun _ _ => rfl, fun _ => rfl, rfl⟩⟩
    · intro uid
      simp only [balanceOf, hf.1]
    · have hgen : ∀ (a : Option ApiRes) (f : Faults), ∃ st ext,
          (supplierPhase s1 order a f).2.orders = s.orders ++
            [{ order with external_id := ext, status := st }] := by
        intro a f
        obtain ⟨hn, hu, hs⟩ := supplierPhase_orders s1 s.orders order hord hfresh f
        cases a with
        | none =>
          rw [hn]
          cases f.catchSave
          · exact ⟨OrderStatus.failed, order.external_id, rfl⟩
          · exact ⟨order.status, order.external_id, rfl⟩
        | some a =>
          cases hx : externalIdOf a with
          | none =>
            rw [hu a hx]
            exact ⟨order.status, order.external_id, hord⟩
          | some ext =>
            rw [hs a ext hx]
            cases f.save <;> cases f.reply <;> cases f.catchSave
            · exact ⟨OrderStatus.processing, ext, rfl⟩
            · exact ⟨OrderStatus.processing, ext, rfl⟩
            · exact ⟨OrderStatus.failed, ext, rfl⟩
            · exact ⟨OrderStatus.processing, ext, rfl⟩
            · exact ⟨OrderStatus.failed, ext, rfl⟩
            · exact ⟨order.status, order.external_id, rfl⟩
            · exact ⟨OrderStatus.failed, ext, rfl⟩
            · exact ⟨order.status, order.external_id, rfl⟩
      cases r with
      | ok a => exact hgen (some a) {}
      | error => exact hgen none {}
      | disturbed a f => exact hgen a f
    · intro apiRes ext hr hx
      subst hr
      refine ⟨((supplierPhase_orders s1 s.orders order hord hfresh {}).2.2 apiRes ext hx), ?_⟩
      simp only [orderSupplier, supplierPhase, hx]
      rfl
    · intro apiRes hr hx
      subst hr
      have := (supplierPhase_orders s1 s.orders order hord hfresh {}).2.1 apiRes hx
      simp only [orderSupplier, this, and_self]
    · intro hr
      subst hr
      exact (supplierPhase_orders s1 s.orders order hord hfresh {}).1
    · intro apiRes ext hx hr
      rcases hr with hr | hr
      · subst hr
        exact (supplierPhase_orders s1 s.orders order hord hfresh { reply := true }).2.2
          apiRes ext hx
      · subst hr
        exact (supplierPhase_orders s1 s.orders order hord hfresh { save := true }).2.2
          apiRes ext hx

/-- Witness for C10: user 7 with balance 24 orders 12 units of service 3036 and
the supplier answers with id `S-1`: accounts and ledger are those of the commit,
the balance stays 0 and the order is `processing` with external id `S-1`. -/
theorem supplier_call_witness :
    ∃ s1 order rl1,
      orderCommit [] (dbOne 24) (ctxOf 7) (OrderArgs.parsed 3036 12) 42
        = OrderOutcome.committed s1 order rl1 ∧
      (orderHandler [] (dbOne 24) (ctxOf 7) (OrderArgs.parsed 3036 12) 42
        (SupplierResult.ok apiOk)).2.1.users = s1.users ∧
      (orderHandler [] (dbOne 24) (ctxOf 7) (OrderArgs.parsed 3036 12) 42
        (SupplierResult.ok apiOk)).2.1.transactions = s1.transactions ∧
      balanceOf (orderHandler [] (dbOne 24) (ctxOf 7) (OrderArgs.parsed 3036 12) 42
        (SupplierResult.ok apiOk)).2.1 7 = 0 ∧
      (orderHandler [] (dbOne 24) (ctxOf 7) (OrderArgs.parsed 3036 12) 42
        (SupplierResult.ok apiOk)).2.1.orders.map (fun o => (o.status, o.external_id))
        = [(OrderStatus.processing, some "S-1")] :=
  ⟨_, _, _, rfl,
    (supplier_call_changes_only_the_order [] (dbOne 24) (ctxOf 7) (OrderArgs.parsed 3036 12) 42
      (SupplierResult.ok apiOk) _ _ _ rfl).1,
    (supplier_call_changes_only_the_order [] (dbOne 24) (ctxOf 7) (OrderArgs.parsed 3036 12) 42
      (SupplierResult.ok apiOk) _ _ _ rfl).2.1, by decide, by decide⟩

/-! ## C11: the debited total -/

/-- C11 as stated fails for service 3123 (0 points per unit, minimum 0): user 7
with balance 0 orders quantity 0, and with balance 24 orders quantity 5; both
orders pass validation and commit with a debited total of 0, which is not
strictly positive. -/
theorem order_total_zero :
    (∃ s1 order rl1,
      orderCommit [] (dbOne 0) (ctxOf 7) (OrderArgs.parsed 3123 0) 42
        = OrderOutcome.committed s1 order rl1 ∧ order.total_points = 0 ∧
      s1.transactions.map (fun t => t.amount) = [0]) ∧
    (∃ s1 order rl1,
      orderCommit [] (dbOne 24) (ctxOf 7) (OrderArgs.parsed 3123 5) 42
        = OrderOutcome.committed s1 order rl1 ∧ order.total_points = 0 ∧
      s1.transactions.map (fun t => t.amount) = [0]) := by
  refine ⟨⟨_, _, _, rfl, by decide, by decide⟩, ⟨_, _, _, rfl, by decide, by decide⟩⟩

/-- C11, amended. For every `/order` that passes validation and commits, the
debited total, which is the product `points * quantity` as the handler computes
it (`jsMul`: the exact product while that is at most `2 ^ 53`), is the Order's
`total_points` and the amount of the one `debit` entry written; it is at least 0
and at most the balance; it is strictly positive for every catalog service
except service 3123, whose unit price is 0 and for which the debited total is 0. -/
theorem order_total_bounds (rl : RateMap) (s : Db) (ctx : Ctx) (args : OrderArgs)
    (rand : Nat) (s1 : Db) (order : Order) (rl1 : RateMap)
    (h : orderCommit rl s ctx args rand = OrderOutcome.committed s1 order rl1) :
    ∃ svc quantity, args = OrderArgs.parsed svc.id quantity ∧ svc ∈ services ∧
      jsMul svc.points quantity = JsNum.fin order.total_points ∧
      ((svc.points * quantity).natAbs ≤ 2 ^ 53 →
        order.total_points = svc.points * quantity) ∧
      (∃ t, s1.transactions = s.transactions ++ [t] ∧ t.type = TxType.debit ∧
        t.amount = order.total_points) ∧
      0 ≤ order.total_points ∧ JsNum.fin order.total_points ≤ balanceOf s ctx.fromId ∧
      (svc.id ≠ 3123 → 0 < order.total_points) ∧
      (svc.id = 3123 → order.total_points = 0) := by
  obtain ⟨svc, q, user, total, hargs, hmem, hmin, hf, hmul, hbal, htot, _, _, _, _, _, t, ht1,
    ht2, ht3, _⟩ := orderCommit_committed rl s ctx args rand s1 order rl1 h
  rw [htot]
  have hnn : 0 ≤ svc.points * q := by
    rcases services_prices svc hmem with ⟨_, hp, _⟩ | ⟨_, hp, hm⟩
    · simp [hp]
    · exact mul_nonneg (le_of_lt hp) (le_trans (le_of_lt hm) hmin)
  refine ⟨svc, q, hargs, hmem, hmul, ?_, ⟨t, ht1, ht2, ht3⟩, ?_, ?_, ?_, ?_⟩
  · intro hsafe
    have := JsNum.ofInt_of_natAbs_le _ hsafe
    rw [show JsNum.ofInt (svc.points * q) = jsMul svc.points q from rfl, hmul] at this
    exact JsNum.fin.inj this
  · exact JsNum.ofInt_fin_nonneg _ _ hmul hnn
  · simpa only [balanceOf, hf] using hbal
  · intro hne
    rcases services_prices svc hmem with ⟨hid, _, _⟩ | ⟨_, hp, hm⟩
    · exact absurd hid hne
    · exact JsNum.ofInt_fin_pos _ _ hmul (mul_pos hp (lt_of_lt_of_le hm hmin))
  · intro hid
    rcases services_prices svc hmem with ⟨_, hp, _⟩ | ⟨hne, _, _⟩
    · have h0 : jsMul svc.points q = JsNum.fin 0 := by
        rw [hp]
        simp only [jsMul, zero_mul]
        exact JsNum.ofInt_zero
      rw [hmul] at h0
      exact JsNum.fin.inj h0
    · exact absurd hid hne

/-- Witness for C11 (amended): service 3036, quantity 12, balance 24: the debited
total is 24, strictly positive and at most the balance. -/
theorem order_total_bounds_witness :
    ∃ s1 order rl1,
      orderCommit [] (dbOne 24) (ctxOf 7) (OrderArgs.parsed 3036 12) 42
        = OrderOutcome.committed s1 order rl1 ∧
      0 < order.total_points ∧ JsNum.fin order.total_points ≤ balanceOf (dbOne 24) 7 := by
  refine ⟨_, _, _, rfl, ?_, ?_⟩
  · obtain ⟨svc, q, h1, _, _, _, _, _, _, h7, _⟩ :=
      order_total_bounds [] (dbOne 24) (ctxOf 7) (OrderArgs.parsed 3036 12) 42 _ _ _ rfl
    have hid : svc.id = 3036 := by
      injection h1 with h1 _
      exact h1.symm
    exact h7 (by rw [hid]; decide)
  · decide

/-! ## C12: restricted accounts stay restricted -/

theorem statusKept_refl (users : List User) : StatusKept users users :=
  fun _ u h hs => ⟨u, h, hs⟩

theorem statusKept_trans (a b c : List User) (h1 : StatusKept a b) (h2 : StatusKept b c) :
    StatusKept a c := by
  intro uid u hu hs
  obtain ⟨u1, hu1, hs1⟩ := h1 uid u hu hs
  exact h2 uid u1 hu1 hs1

theorem statusKept_saveUser (users : List User) (u doc : User) (uid : Int)
    (hf : findUser users uid = some u) (hid : doc.user_id = uid)
    (hst : doc.status = u.status) : StatusKept users (saveUser users doc) := by
  intro x v hv hs
  by_cases hx : x = uid
  · subst hx
    rw [hf] at hv
    cases hv
    exact ⟨doc, findUser_saveUser_self users doc u x hid hf, by rw [hst]; exact hs⟩
  · exact ⟨v, (findUser_saveUser_ne users doc x (by rw [hid]; exact hx)).trans hv, hs⟩

theorem statusKept_updateOneUser (users : List User) (uid : Int) (f : User → User)
    (hid : ∀ u : User, (f u).user_id = u.user_id)
    (hst : ∀ u : User, u.status ≠ Status.active → (f u).status ≠ Status.active) :
    StatusKept users (updateOneUser users uid f) := by
  intro x v hv hs
  by_cases hx : x = uid
  · subst hx
    refine ⟨f v, ?_, hst v hs⟩
    rw [findUser_updateOneUser_self users x f hid, hv]
    rfl
  · exact ⟨v, (findUser_updateOneUser_ne users uid x f hid hx).trans hv, hs⟩

theorem statusKept_append (users : List User) (nu : User) :
    StatusKept users (users ++ [nu]) := by
  intro x v hv hs
  refine ⟨v, ?_, hs⟩
  rw [findUser_append, hv]
  rfl

theorem middleware_statusKept (s : Db) (ctx : Ctx) :
    StatusKept s.users (middleware s ctx).1.users := by
  unfold middleware
  split
  · split <;> exact statusKept_refl _
  · exact statusKept_append _ _

theorem startHandler_statusKept (s : Db) (ctx : Ctx) (payload : StartPayload) :
    StatusKept s.users (startHandler s ctx payload).users := by
  unfold startHandler
  split
  · exact statusKept_refl _
  · dsimp only
    split
    · split
      · split
        · next refUser hf =>
          exact statusKept_saveUser s.users refUser _ _ hf (findUser_user_id _ _ refUser hf) rfl
        · exact statusKept_refl _
      · exact statusKept_refl _
    · exact statusKept_refl _

theorem taskHandler_statusKept (s : Db) (ctx : Ctx) (taskId : Option String) :
    StatusKept s.users (taskHandler s ctx taskId).2.users := by
  unfold taskHandler
  split
  · exact statusKept_refl _
  · split
    · exact statusKept_refl _
    · split
      · exact statusKept_refl _
      · split
        · exact statusKept_refl _
        · split
          · exact statusKept_refl _
          · next user hf =>
            exact statusKept_saveUser s.users user _ _ hf (findUser_user_id _ _ user hf) rfl

theorem orderHandler_statusKept (rl : RateMap) (s : Db) (ctx : Ctx) (args : OrderArgs)
    (rand : Nat) (r : SupplierResult) :
    StatusKept s.users (orderHandler rl s ctx args rand r).2.1.users := by
  cases hc : orderCommit rl s ctx args rand with
  | reply msg rl1 =>
    simp only [orderHandler, hc]
    exact statusKept_refl _
  | committed s1 order rl1 =>
    obtain ⟨svc, q, user, _, _, _, _, hf, _, _, _, _, _, _, _, hus, _⟩ :=
      orderCommit_committed rl s ctx args rand s1 order rl1 hc
    simp only [orderHandler, hc]
    rw [(orderSupplier_frame s1 order r).1, hus]
    exact statusKept_saveUser s.users user _ _ hf (findUser_user_id _ _ user hf) rfl

theorem addpointsHandler_statusKept (A : List Int) (s : Db) (ctx : Ctx)
    (args : AddPointsArgs) : StatusKept s.users (addpointsHandler A s ctx args).2.users := by
  unfold addpointsHandler
  split
  · exact statusKept_refl _
  · split
    · exact statusKept_refl _
    · split
      · split
        · exact statusKept_refl _
        · next user hf =>
          exact statusKept_saveUser s.users user _ _ hf (findUser_user_id _ _ user hf) rfl
      · exact statusKept_refl _

theorem banHandler_statusKept (A : List Int) (s : Db) (ctx : Ctx) (args : BanArgs) :
    StatusKept s.users (banHandler A s ctx args).2.users := by
  unfold banHandler
  split
  · exact statusKept_refl _
  · split
    · exact statusKept_refl _
    · split
      · exact statusKept_refl _
      · next uid _ =>
        exact statusKept_updateOneUser s.users uid (fun u => { u with status := Status.banned })
          (fun _ => rfl) (fun _ _ h => Status.noConfusion h)

theorem verify_statusKept (s : Db) (uid0 : Option Int) (ip : Option String) (device : String)
    (now : Nat) : StatusKept s.users (verify s uid0 ip device now).2.2.users := by
  unfold verify
  split
  · exact statusKept_refl _
  · next uid _ =>
    split
    · exact statusKept_updateOneUser s.users uid (fun u =>
        { u with status := Status.blocked, ip_address := ip, device_id := some device,
                 verified := true }) (fun _ => rfl) (fun _ _ h => Status.noConfusion h)
    · exact statusKept_updateOneUser s.users uid (fun u =>
        { u with ip_address := ip, device_id := some device, verified := true })
        (fun _ => rfl) (fun _ h => h)

theorem step_statusKept (A : List Int) (w : World) (op : Op) :
    StatusKept w.db.users (step A w op).db.users := by
  have hmid : ∀ (ctx : Ctx) (h : Db → World),
      (∀ s1, StatusKept s1.users (h s1).db.users) →
      StatusKept w.db.users (viaMiddleware w ctx h).db.users := by
    intro ctx h hh
    have hm := middleware_statusKept w.db ctx
    unfold viaMiddleware
    rcases hmw : middleware w.db ctx with ⟨s1, b⟩
    rw [hmw] at hm
    cases b with
    | true => exact statusKept_trans _ _ _ hm (hh s1)
    | false => exact hm
  cases op with
  | start ctx payload => exact hmid ctx _ (fun s1 => startHandler_statusKept s1 ctx payload)
  | taskClaim ctx taskId => exact hmid ctx _ (fun s1 => taskHandler_statusKept s1 ctx taskId)
  | order ctx args rand r =>
    exact hmid ctx _ (fun s1 => orderHandler_statusKept w.userTimestamps s1 ctx args rand r)
  | addpoints ctx args => exact hmid ctx _ (fun s1 => addpointsHandler_statusKept A s1 ctx args)
  | ban ctx args => exact hmid ctx _ (fun s1 => banHandler_statusKept A s1 ctx args)
  | addtask ctx args newId =>
    refine hmid ctx _ (fun s1 => ?_)
    have : (addtaskHandler A s1 ctx args newId).2.users = s1.users := by
      unfold addtaskHandler
      split
      · rfl
      · split <;> rfl
    rw [this]
    exact statusKept_refl _
  | broadcast ctx msg sent =>
    refine hmid ctx _ (fun s1 => ?_)
    have : (broadcastHandler A s1 ctx msg sent).2.users = s1.users := by
      unfold broadcastHandler
      split
      · rfl
      · split <;> rfl
    rw [this]
    exact statusKept_refl _
  | query ctx => exact hmid ctx _ (fun s1 => statusKept_refl _)
  | verify uid0 ip device now => exact verify_statusKept w.db uid0 ip device now

/-- C12. For every operation (`/start`, task claim, `/order`, `/addpoints`, `/ban`,
`/addtask`, `/broadcast`, the read-only commands, and `/verify` in both branches)
and every account whose status is `blocked` or `banned` before it, that account
exists after the operation and its status is `blocked` or `banned`: no operation
sets a status back to `active`. -/
theorem restricted_stays_restricted (ADMIN_IDS : List Int) (w : World) (op : Op) (uid : Int)
    (u : User) (hu : findUser w.db.users uid = some u)
    (hs : u.status = Status.blocked ∨ u.status = Status.banned) :
    ∃ u1, findUser (step ADMIN_IDS w op).db.users uid = some u1 ∧
      (u1.status = Status.blocked ∨ u1.status = Status.banned) := by
  have hne : u.status ≠ Status.active := by
    rcases hs with h | h <;> rw [h] <;> decide
  obtain ⟨u1, h1, h2⟩ := step_statusKept ADMIN_IDS w op uid u hu hne
  refine ⟨u1, h1, ?_⟩
  cases hst : u1.status with
  | active => exact absurd hst h2
  | banned => exact Or.inr rfl
  | blocked => exact Or.inl rfl

/-- Witness for C12: in `dbBlocked` user 5 is blocked; after `/verify` for user 5
from a fresh address and device (the verified branch) user 5 is still restricted. -/
theorem restricted_stays_restricted_witness :
    ∃ u1, findUser (step [1] { db := dbBlocked }
        (Op.verify (some 5) (some "9.9.9.9") "d5" 9)).db.users 5 = some u1 ∧
      (u1.status = Status.blocked ∨ u1.status = Status.banned) :=
  restricted_stays_restricted [1] { db := dbBlocked }
    (Op.verify (some 5) (some "9.9.9.9") "d5" 9) 5 { acct 5 0 with status := Status.blocked }
    (by decide) (Or.inl rfl)

/-! ## C13: task claims -/

theorem findTask_saveTask_self (tasks : List Task) (doc t : Task) (T : String)
    (hdoc : doc._id = T) (h : findTask tasks T = some t) :
    findTask (saveTask tasks doc) T = some doc := by
  subst hdoc
  induction tasks with
  | nil => simp [findTask] at h
  | cons a rest ih =>
    cases hA : (a._id == doc._id)
    · have h1 : findTask rest doc._id = some t := by
        simpa only [findTask, List.find?_cons, hA] using h
      simpa only [saveTask, findTask, List.find?_cons, hA, Bool.false_eq_true, if_false]
        using ih h1
    · simp [saveTask, findTask, List.find?_cons, hA]

theorem findTask_saveTask_ne (tasks : List Task) (doc : Task) (T : String)
    (h : T ≠ doc._id) : findTask (saveTask tasks doc) T = findTask tasks T := by
  induction tasks with
  | nil => rfl
  | cons a rest ih =>
    have hd : (doc._id == T) = false := by simpa using fun e => h (Eq.symm e)
    cases hA : (a._id == doc._id) <;> cases hX : (a._id == T)
    · simpa only [saveTask, findTask, List.find?_cons, hA, hX, Bool.false_eq_true, if_false]
        using ih
    · simp only [saveTask, findTask, List.find?_cons, hA, hX, Bool.false_eq_true, if_false]
    · simp only [saveTask, findTask, List.find?_cons, hA, hX, hd, if_true]
    · exact absurd ((beq_iff_eq.mp hX).symm.trans (beq_iff_eq.mp hA)) h

theorem findTask_id (tasks : List Task) (T : String) (t : Task)
    (h : findTask tasks T = some t) : t._id = T := by
  have := List.find?_some h
  simpa using this

theorem taskGrows_refl (tasks : List Task) : TaskGrows tasks tasks :=
  fun _ task h => ⟨task, h, fun hn => hn, List.prefix_refl _, rfl, rfl⟩

theorem taskGrows_trans (a b c : List Task) (h1 : TaskGrows a b) (h2 : TaskGrows b c) :
    TaskGrows a c := by
  intro T task h
  obtain ⟨t1, f1, n1, p1, q1, r1⟩ := h1 T task h
  obtain ⟨t2, f2, n2, p2, q2, r2⟩ := h2 T t1 f1
  exact ⟨t2, f2, fun hn => n2 (n1 hn), p1.trans p2, q2.trans q1, r2.trans r1⟩

theorem taskHandler_success (s : Db) (ctx : Ctx) (T : String) (task : Task) (user : User)
    (hfind : findTask s.tasks T = some task) (hact : task.active = true)
    (hnew : ctx.fromId ∉ task.claimed_by)
    (huser : findUser s.users ctx.fromId = some user) :
    taskHandler s ctx (some T) =
      ("Task claimed +" ++ toString task.points ++ " points",
        { s with
          tasks := saveTask s.tasks { task with claimed_by := task.claimed_by ++ [ctx.fromId] }
          transactions := s.transactions ++
            [{ user_id := ctx.fromId, amount := task.points, type := TxType.task,
               details := "Task " ++ task.title, timestamp := ctx.now }]
          users := saveUser s.users
            { user with balance := user.balance.addInt task.points } }) := by
  have hf : s.tasks.find? (fun t => t._id == T) = some task := hfind
  have hc : task.claimed_by.contains ctx.fromId = false := by
    simpa using hnew
  simp only [taskHandler, hf, hact, Bool.not_true, Bool.false_eq_true, if_false, hc, huser]

theorem taskHandler_taskGrows (s : Db) (ctx : Ctx) (taskId : Option String) :
    TaskGrows s.tasks (taskHandler s ctx taskId).2.tasks := by
  unfold taskHandler
  split
  · exact taskGrows_refl _
  · next T =>
    split
    · exact taskGrows_refl _
    · next task hfind =>
      split
      · exact taskGrows_refl _
      · split
        · exact taskGrows_refl _
        · next hc =>
          split
          · exact taskGrows_refl _
          · dsimp only
            have hnew : ctx.fromId ∉ task.claimed_by := by simpa using hc
            have hid : task._id = T := findTask_id s.tasks T task hfind
            intro X t0 hX
            by_cases hXT : X = T
            · subst hXT
              have ht0 : t0 = task := by
                have : findTask s.tasks X = some task := hfind
                rw [this] at hX
                exact (Option.some.inj hX).symm
              subst ht0
              refine ⟨{ t0 with claimed_by := t0.claimed_by ++ [ctx.fromId] },
                findTask_saveTask_self s.tasks _ t0 X hid hX, ?_, List.prefix_append _ _, rfl,
                rfl⟩
              intro hn
              rw [List.nodup_append]
              exact ⟨hn, List.nodup_singleton _, by
                intro a ha hb
                rw [List.mem_singleton] at hb
                exact hnew (hb ▸ ha)⟩
            · refine ⟨t0, ?_, fun hn => hn, List.prefix_refl _, rfl, rfl⟩
              rw [findTask_saveTask_ne s.tasks _ X (by rw [hid]; exact hXT)]
              exact hX

theorem claims_taskGrows (A : List Int) (claims : List (Ctx × Option String)) (w : World) :
    TaskGrows w.db.tasks (run A w (claims.map fun c => Op.taskClaim c.1 c.2)).db.tasks := by
  induction claims generalizing w with
  | nil => exact taskGrows_refl _
  | cons c rest ih =>
    refine taskGrows_trans _ _ _ ?_ (ih (step A w (Op.taskClaim c.1 c.2)))
    have hm := middleware_tasks w.db c.1
    simp only [step, viaMiddleware]
    rcases hmw : middleware w.db c.1 with ⟨s1, b⟩
    rw [hmw] at hm
    have hm1 : s1.tasks = w.db.tasks := hm
    cases b with
    | false =>
      dsimp only
      rw [hm1]
      exact taskGrows_refl _
    | true =>
      dsimp only
      rw [← hm1]
      exact taskHandler_taskGrows s1 c.1 c.2

/-- C13 as stated fails above `2 ^ 53`: user 5 with balance `9007199254740992`
claims the active task `t1`, whose reward is 1. The claim succeeds and writes a
ledger entry of amount 1, but the new balance is the double nearest to
`9007199254740993`, which is `9007199254740992`: the balance does not grow by
`task.points`. -/
theorem task_reward_is_rounded :
    balanceOf
      { users := [acct 5 9007199254740992],
        tasks := [{ _id := "t1", title := "Join", points := 1, created_by := 1,
                    created_at := 0 }] } 5 = 9007199254740992 ∧
    (taskHandler
      { users := [acct 5 9007199254740992],
        tasks := [{ _id := "t1", title := "Join", points := 1, created_by := 1,
                    created_at := 0 }] } (ctxOf 5) (some "t1")).1 = "Task claimed +1 points" ∧
    (taskHandler
      { users := [acct 5 9007199254740992],
        tasks := [{ _id := "t1", title := "Join", points := 1, created_by := 1,
                    created_at := 0 }] } (ctxOf 5) (some "t1")).2.transactions.map
        (fun t => (t.user_id, t.amount)) = [(5, 1)] ∧
    balanceOf (taskHandler
      { users := [acct 5 9007199254740992],
        tasks := [{ _id := "t1", title := "Join", points := 1, created_by := 1,
                    created_at := 0 }] } (ctxOf 5) (some "t1")).2 5 = 9007199254740992 := by
  decide

/-- C13, amended. (1) After any sequence of task-claim actions processed one after
another, a task that existed before with a duplicate-free `claimed_by` still
exists, keeps its reward, has no duplicate in `claimed_by` and has its earlier
claimants as a prefix of `claimed_by` (the list only grows). (2) A claim whose id
text is no ObjectId (answered `Error`), a claim on a missing task, on an inactive
task (both answered `Task not available.`), or by a user already in `claimed_by`
changes nothing. (3) A claim by a user with an account who is not in `claimed_by`
of an active task appends the user id to `claimed_by`, writes exactly one ledger
entry, of amount `task.points` and type `task`, and sets that user's balance to
the double nearest to balance plus `task.points`, which is exactly that sum while
the sum is at most `2 ^ 53` in magnitude; nothing else changes. -/
theorem task_claims (ADMIN_IDS : List Int) (w : World) (claims : List (Ctx × Option String))
    (s : Db) (ctx : Ctx) (T : String) :
    (∀ task, findTask w.db.tasks T = some task → task.claimed_by.Nodup →
      ∃ task1,
        findTask (run ADMIN_IDS w (claims.map fun c => Op.taskClaim c.1 c.2)).db.tasks T
          = some task1 ∧
        task1.claimed_by.Nodup ∧ task.claimed_by <+: task1.claimed_by ∧
        task1.points = task.points) ∧
    taskHandler s ctx none = ("Error", s) ∧
    (findTask s.tasks T = none → taskHandler s ctx (some T) = ("Task not available.", s)) ∧
    (∀ task, findTask s.tasks T = some task → task.active = false →
      taskHandler s ctx (some T) = ("Task not available.", s)) ∧
    (∀ task, findTask s.tasks T = some task → task.active = true →
      ctx.fromId ∈ task.claimed_by →
      taskHandler s ctx (some T) = ("You already claimed this task.", s)) ∧
    (∀ task user, findTask s.tasks T = some task → task.active = true →
      ctx.fromId ∉ task.claimed_by → findUser s.users ctx.fromId = some user →
      (taskHandler s ctx (some T)).2 =
        { s with
          tasks := saveTask s.tasks { task with claimed_by := task.claimed_by ++ [ctx.fromId] }
          transactions := s.transactions ++
            [{ user_id := ctx.fromId, amount := task.points, type := TxType.task,
               details := "Task " ++ task.title, timestamp := ctx.now }]
          users := saveUser s.users
            { user with balance := user.balance.addInt task.points } } ∧
      findTask (taskHandler s ctx (some T)).2.tasks T =
        some { task with claimed_by := task.claimed_by ++ [ctx.fromId] } ∧
      balanceOf (taskHandler s ctx (some T)).2 ctx.fromId
        = (balanceOf s ctx.fromId).addInt task.points ∧
      (∀ b : Int, balanceOf s ctx.fromId = JsNum.fin b → (b + task.points).natAbs ≤ 2 ^ 53 →
        balanceOf (taskHandler s ctx (some T)).2 ctx.fromId = JsNum.fin (b + task.points)) ∧
      (∀ uid, uid ≠ ctx.fromId →
        balanceOf (taskHandler s ctx (some T)).2 uid = balanceOf s uid)) := by
  refine ⟨?_, rfl, ?_, ?_, ?_, ?_⟩
  · intro task hfind hn
    obtain ⟨t1, h1, h2, h3, h4, _⟩ := claims_taskGrows ADMIN_IDS claims w T task hfind
    exact ⟨t1, h1, h2 hn, h3, h4⟩
  · intro h
    have hf : s.tasks.find? (fun t => t._id == T) = none := h
    simp only [taskHandler, hf]
  · intro task h hact
    have hf : s.tasks.find? (fun t => t._id == T) = some task := h
    simp only [taskHandler, hf, hact, Bool.not_false, if_true]
  · intro task h hact hin
    have hf : s.tasks.find? (fun t => t._id == T) = some task := h
    have hc : task.claimed_by.contains ctx.fromId = true := by simpa using hin
    simp only [taskHandler, hf, hact, Bool.not_true, Bool.false_eq_true, if_false, hc, if_true]
  · intro task user hfind hact hnew huser
    have heq := taskHandler_success s ctx T task user hfind hact hnew huser
    have hid : task._id = T := findTask_id s.tasks T task hfind
    have huid : user.user_id = ctx.fromId := findUser_user_id _ _ _ huser
    have hbal : balanceOf (taskHandler s ctx (some T)).2 ctx.fromId
        = (balanceOf s ctx.fromId).addInt task.points := by
      rw [heq]
      simp only [balanceOf, huser,
        findUser_saveUser_self s.users
          { user with balance := user.balance.addInt task.points } user ctx.fromId huid huser]
    refine ⟨by rw [heq], ?_, hbal, ?_, ?_⟩
    · rw [heq]
      exact findTask_saveTask_self s.tasks _ task T hid hfind
    · intro b hb hsafe
      rw [hbal, hb]
      exact JsNum.addInt_fin b task.points hsafe
    · intro uid hne
      rw [heq]
      simp only [balanceOf,
        findUser_saveUser_ne s.users
          { user with balance := user.balance.addInt task.points } uid
          (by simpa [huid] using hne)]

/-- Witness for C13: on `dbTask`, where user 3 has claimed task `t1` (10 points),
after `sampleClaims` the claimants are `[3, 5]`; the claim by user 5 credits 10
points and the renewed claim by user 3 is answered as already claimed. -/
theorem task_claims_witness :
    (∃ task1, findTask (run [1] { db := dbTask }
        (sampleClaims.map fun c => Op.taskClaim c.1 c.2)).db.tasks "t1" = some task1 ∧
      task1.claimed_by.Nodup ∧ [3] <+: task1.claimed_by ∧ task1.points = 10) ∧
    balanceOf (taskHandler dbTask (ctxOf 5) (some "t1")).2 5 = 10 ∧
    taskHandler dbTask (ctxOf 3) (some "t1") = ("You already claimed this task.", dbTask) :=
  ⟨(task_claims [1] { db := dbTask } sampleClaims dbTask (ctxOf 5) "t1").1
      { _id := "t1", title := "Join", points := 10, created_by := 1, created_at := 0,
        claimed_by := [3] } (by decide) (by decide),
    ((task_claims [1] { db := dbTask } sampleClaims dbTask (ctxOf 5) "t1").2.2.2.2.2
      { _id := "t1", title := "Join", points := 10, created_by := 1, created_at := 0,
        claimed_by := [3] } (acct 5 0) (by decide) rfl (by decide) (by decide)).2.2.2.1 0
      (by decide) (by decide),
    (task_claims [1] { db := dbTask } sampleClaims dbTask (ctxOf 3) "t1").2.2.2.2.1
      { _id := "t1", title := "Join", points := 10, created_by := 1, created_at := 0,
        claimed_by := [3] } (by decide) rfl (by decide)⟩

/-! ## C14: administrator commands -/

theorem isAdmin_iff (A : List Int) (id : Option Int) :
    isAdmin A id = true ↔ ∃ i, id = some i ∧ i ≠ 0 ∧ i ∈ A := by
  cases id with
  | none => simp [isAdmin]
  | some i =>
    by_cases h0 : i = 0
    · simp [isAdmin, h0]
    · by_cases hm : i ∈ A
      · have hlen : A.length ≠ 0 := by
          intro hl
          rw [List.length_eq_zero] at hl
          rw [hl] at hm
          cases hm
        simp [isAdmin, h0, hm, hlen]
      · simp [isAdmin, h0, hm]

/-- C14. `isAdmin(id)` is true exactly when the id is present, non-zero and a
member of `ADMIN_IDS`. For a sender for whom it is false, each administrator
command (`/admin`, `/broadcast`, `/addpoints`, `/users`, `/orders`, `/ban`,
`/logs`, `/addtask`) replies `Unauthorized` for every argument and returns the
database it was given: accounts, ledger, orders, tasks and admin log unchanged. -/
theorem non_admin_is_unauthorized (ADMIN_IDS : List Int) (iso : Nat → String) (s : Db)
    (ctx : Ctx) :
    (∀ id : Option Int, isAdmin ADMIN_IDS id = true ↔ ∃ i, id = some i ∧ i ≠ 0 ∧ i ∈ ADMIN_IDS) ∧
    isAdmin ADMIN_IDS none = false ∧ isAdmin ADMIN_IDS (some 0) = false ∧
    (isAdmin ADMIN_IDS (some ctx.fromId) = false →
      adminHandler ADMIN_IDS s ctx = ("Unauthorized", s) ∧
      (∀ msg sent, broadcastHandler ADMIN_IDS s ctx msg sent = ("Unauthorized", s)) ∧
      (∀ args, addpointsHandler ADMIN_IDS s ctx args = ("Unauthorized", s)) ∧
      usersHandler ADMIN_IDS s ctx = ("Unauthorized", s) ∧
      ordersHandler ADMIN_IDS s ctx = ("Unauthorized", s) ∧
      (∀ args, banHandler ADMIN_IDS s ctx args = ("Unauthorized", s)) ∧
      logsHandler ADMIN_IDS iso s ctx = ("Unauthorized", s) ∧
      (∀ args newId, addtaskHandler ADMIN_IDS s ctx args newId = ("Unauthorized", s))) := by
  refine ⟨isAdmin_iff ADMIN_IDS, rfl, rfl, ?_⟩
  intro h
  refine ⟨?_, ?_, ?_, ?_, ?_, ?_, ?_, ?_⟩
  · simp [adminHandler, h]
  · intro msg sent
    simp [broadcastHandler, h]
  · intro args
    simp [addpointsHandler, h]
  · simp [usersHandler, h]
  · simp [ordersHandler, h]
  · intro args
    simp [banHandler, h]
  · simp [logsHandler, h]
  · intro args newId
    simp [addtaskHandler, h]

/-- Witness for C14: with `ADMIN_IDS = [1]`, user 7 sending `/addpoints 7 1000` is
answered `Unauthorized` and the store `dbOne 0` is returned as given. -/
theorem non_admin_is_unauthorized_witness :
    addpointsHandler [1] (dbOne 0) (ctxOf 7) (AddPointsArgs.parsed (some 7) (some 1000))
      = ("Unauthorized", dbOne 0) :=
  ((non_admin_is_unauthorized [1] (fun n => toString n) (dbOne 0) (ctxOf 7)).2.2.2
    (by decide)).2.2.1 (AddPointsArgs.parsed (some 7) (some 1000))

/-! ## C15: order history -/

theorem sortDesc_sorted {α : Type} (key : α → Nat) (l : List α) :
    (sortDesc key l).Pairwise (fun a b => key b ≤ key a) := by
  haveI : IsTotal α (fun a b => key b ≤ key a) := ⟨fun a b => Nat.le_total (key b) (key a)⟩
  haveI : IsTrans α (fun a b => key b ≤ key a) := ⟨fun _ _ _ h1 h2 => Nat.le_trans h2 h1⟩
  exact List.sorted_insertionSort (fun a b => key b ≤ key a) l

theorem sortDesc_perm {α : Type} (key : α → Nat) (l : List α) : (sortDesc key l).Perm l :=
  List.perm_insertionSort (fun a b => key b ≤ key a) l

/-- C15. For every Order collection and user id, the `/history` query returns only
Orders of that user, in non-increasing order of timestamp (newest first), at most
20 of them and exactly 20 when the user has at least 20; the Orders of the user
that are not returned (`rest`) are none of them newer than a returned one, so the
returned ones are the 20 with the latest timestamps. -/
theorem history_newest_first (s : Db) (uid : Int) :
    (∀ o ∈ historyQuery s uid, o ∈ s.orders ∧ o.user_id = uid) ∧
    (historyQuery s uid).Pairwise (fun a b => b.timestamp ≤ a.timestamp) ∧
    (historyQuery s uid).length ≤ 20 ∧
    (historyQuery s uid).length = min 20 (s.orders.filter (fun o => o.user_id == uid)).length ∧
    ∃ rest, (historyQuery s uid ++ rest).Perm (s.orders.filter (fun o => o.user_id == uid)) ∧
      ∀ o ∈ historyQuery s uid, ∀ o1 ∈ rest, o1.timestamp ≤ o.timestamp := by
  have hsorted := sortDesc_sorted (fun o : Order => o.timestamp)
    (s.orders.filter (fun o => o.user_id == uid))
  have hperm := sortDesc_perm (fun o : Order => o.timestamp)
    (s.orders.filter (fun o => o.user_id == uid))
  refine ⟨?_, ?_, ?_, ?_, ?_⟩
  · intro o ho
    have h1 : o ∈ sortDesc (fun o : Order => o.timestamp)
        (s.orders.filter (fun o => o.user_id == uid)) := List.mem_of_mem_take ho
    have h2 := (hperm.mem_iff).mp h1
    rw [List.mem_filter] at h2
    exact ⟨h2.1, by simpa using h2.2⟩
  · exact hsorted.sublist (List.take_sublist _ _)
  · simp only [historyQuery, List.length_take]
    exact Nat.min_le_left _ _
  · simp only [historyQuery, List.length_take, hperm.length_eq]
  · refine ⟨(sortDesc (fun o : Order => o.timestamp)
      (s.orders.filter (fun o => o.user_id == uid))).drop 20, ?_, ?_⟩
    · simp only [historyQuery, List.take_append_drop]
      exact hperm
    · intro o ho o1 ho1
      exact List.Sorted.rel_of_mem_take_of_mem_drop hsorted ho ho1

/-- Witness for C15: in `dbOrders` the history of user 7 lists the orders created
at times 3, 2, 1 in that order and leaves out the order of user 8. -/
theorem history_newest_first_witness :
    (historyQuery dbOrders 7).map (fun o => o.order_id) = ["c", "d", "a"] ∧
    (historyQuery dbOrders 7).Pairwise (fun a b => b.timestamp ≤ a.timestamp) ∧
    (historyQuery dbOrders 7).length ≤ 20 :=
  ⟨by decide, (history_newest_first dbOrders 7).2.1, (history_newest_first dbOrders 7).2.2.1⟩

/-! ## C16: two `/order` handlers of one user -/

theorem orderCommit_eq_check_then_transaction (rl : RateMap) (s : Db) (ctx : Ctx)
    (args : OrderArgs) (rand : Nat) :
    orderCommit rl s ctx args rand =
      (match orderCheck rl s ctx args with
        | OrderCheck.reply msg rl1 => OrderOutcome.reply msg rl1
        | OrderCheck.ready user serviceId quantity total rl1 =>
          orderTransaction s ctx user serviceId quantity total rand rl1) := by
  unfold orderCommit orderCheck
  rcases isRateLimitedUser rl ctx.now ctx.fromId 1 with ⟨b, rl1⟩
  cases b with
  | true => rfl
  | false =>
    cases args with
    | tooFew => rfl
    | parsed serviceId quantity =>
      dsimp only
      cases findService serviceId with
      | none => rfl
      | some svc =>
        dsimp only
        by_cases hq : quantity < svc.min
        · simp only [hq, if_true]
        · simp only [hq, if_false]
          cases findUser s.users ctx.fromId with
          | none => rfl
          | some user =>
            dsimp only
            by_cases hb : user.balance < jsMul svc.points quantity
            · simp only [hb, if_true]
            · simp only [hb, if_false, orderTransaction]

theorem orderHandler_eq_check_then_finish (rl : RateMap) (s : Db) (ctx : Ctx)
    (args : OrderArgs) (rand : Nat) (r : SupplierResult) :
    (orderHandler rl s ctx args rand r).1 = (orderFinish s ctx (orderCheck rl s ctx args) rand r).1 ∧
    (orderHandler rl s ctx args rand r).2.1
      = (orderFinish s ctx (orderCheck rl s ctx args) rand r).2 := by
  unfold orderHandler orderFinish
  rw [orderCommit_eq_check_then_transaction]
  cases orderCheck rl s ctx args with
  | reply msg rl1 => exact ⟨rfl, rfl⟩
  | ready user serviceId quantity total rl1 =>
    dsimp only
    cases orderTransaction s ctx user serviceId quantity total rand rl1 with
    | reply msg rl2 => exact ⟨rfl, rfl⟩
    | committed s1 order rl2 => exact ⟨rfl, rfl⟩

/-- C16 on the code. User 7 has balance 30 and sends `/order 3036 12` (total 24) and,
1.5 seconds later, `/order 3047 30` (total 30): each total fits the balance, together
they exceed it. Interleaved at the suspension point between the balance read (line
285) and the transaction (lines 289-307), both handlers commit: neither is answered
`Insufficient balance.`, two debit entries of 24 and 30 and two Orders are
written, and the final balance is 0, the first debit being overwritten. Run one
after the other, the second handler is answered `Insufficient balance.` and
writes nothing. -/
theorem concurrent_orders_both_commit :
    (ordersInterleaved [] (dbOne 30) (ctxOf 7) (OrderArgs.parsed 3036 12) 42
        (SupplierResult.ok apiOk) (ctxLater 7) (OrderArgs.parsed 3047 30) 43
        (SupplierResult.ok apiOk)).1 = "Order created: ORD-5000-42\nStatus: processing" ∧
    (ordersInterleaved [] (dbOne 30) (ctxOf 7) (OrderArgs.parsed 3036 12) 42
        (SupplierResult.ok apiOk) (ctxLater 7) (OrderArgs.parsed 3047 30) 43
        (SupplierResult.ok apiOk)).2.1 = "Order created: ORD-6500-43\nStatus: processing" ∧
    (ordersInterleaved [] (dbOne 30) (ctxOf 7) (OrderArgs.parsed 3036 12) 42
        (SupplierResult.ok apiOk) (ctxLater 7) (OrderArgs.parsed 3047 30) 43
        (SupplierResult.ok apiOk)).2.2.transactions.map (fun t => (t.user_id, t.type, t.amount))
      = [(7, TxType.debit, 24), (7, TxType.debit, 30)] ∧
    (ordersInterleaved [] (dbOne 30) (ctxOf 7) (OrderArgs.parsed 3036 12) 42
        (SupplierResult.ok apiOk) (ctxLater 7) (OrderArgs.parsed 3047 30) 43
        (SupplierResult.ok apiOk)).2.2.orders.map (fun o => o.total_points) = [24, 30] ∧
    balanceOf (ordersInterleaved [] (dbOne 30) (ctxOf 7) (OrderArgs.parsed 3036 12) 42
        (SupplierResult.ok apiOk) (ctxLater 7) (OrderArgs.parsed 3047 30) 43
        (SupplierResult.ok apiOk)).2.2 7 = 0 ∧
    (ordersSequential [] (dbOne 30) (ctxOf 7) (OrderArgs.parsed 3036 12) 42
        (SupplierResult.ok apiOk) (ctxLater 7) (OrderArgs.parsed 3047 30) 43
        (SupplierResult.ok apiOk)).2.1 = "Insufficient balance." ∧
    (ordersSequential [] (dbOne 30) (ctxOf 7) (OrderArgs.parsed 3036 12) 42
        (SupplierResult.ok apiOk) (ctxLater 7) (OrderArgs.parsed 3047 30) 43
        (SupplierResult.ok apiOk)).2.2.transactions.map (fun t => (t.user_id, t.type, t.amount))
      = [(7, TxType.debit, 24)] ∧
    balanceOf (ordersSequential [] (dbOne 30) (ctxOf 7) (OrderArgs.parsed 3036 12) 42
        (SupplierResult.ok apiOk) (ctxLater 7) (OrderArgs.parsed 3047 30) 43
        (SupplierResult.ok apiOk)).2.2 7 = 6 := by
  decide

end Paulcy
